import Mathlib

/-!
# OPM/FPGA host library: buffer layout, setup descriptor and debug-line decoder

Shallow embedding of the host-side functions of the ILU0-BiCGStab FPGA solver
(`bda_utils.cpp`, `fpga_functions_bicgstab.cpp`, `bicgstab_utils.cpp`).

Machine integers are embedded in `Int`: `int` values are kept in the range
`-2^31 .. 2^31-1` by `toInt`, `unsigned int` values in `0 .. 2^32-1` by `toUInt`
and `unsigned long` values in `0 .. 2^64-1` by `toULong`.
-/

namespace OpmFpga

/-! ## Machine integers -/

/-- Largest value of a 32-bit `int`. -/
def INT_MAX : Int := 2147483647

/-- Conversion of an integer value to a 32-bit two's complement `int`. -/
def toInt (x : Int) : Int := (x + 2147483648) % 4294967296 - 2147483648

/-- Conversion of an integer value to a 32-bit `unsigned int`. -/
def toUInt (x : Int) : Int := x % 4294967296

/-- Conversion of an integer value to a 64-bit `unsigned long`. -/
def toULong (x : Int) : Int := x % 18446744073709551616

/-! ## bda_utils.cpp -/

/-- Function `roundUpTo` of `bda_utils.cpp`: `int roundUpTo(int i, int n)`.
`%` and `/` of C truncate towards zero (`Int.tmod`, `Int.tdiv`); the product
`(i / n + 1) * n` is an `int`, so it is reduced to 32 bits (two's complement
wraparound, as on the x86-64 host).  Division by zero has no result in C, so the
divisor comes with a proof that it is not zero.  The remainder `INT_MIN % -1`
has no result in C either; no caller passes a negative `n`, and the theorem on
negative `n` excludes that pair. -/
def roundUpTo (i n : Int) (_hn : n ≠ 0) : Int :=
  if i.tmod n = 0 then i
  else toInt ((i.tdiv n + 1) * n)

/-! ## bicgstab_solver_config.hpp -/

/-- Number of configuration setup cachelines. -/
def SETUP_LINES : Int := 5

/-- Number of read/write data buffers (memory banks) of the configuration
`PORTS_2r_3r3w_*`. -/
def RW_BUF : Nat := 5

/-- Size of the cacheline in bytes. -/
def CACHELINE_BYTES : Int := 64

/-- Size of the cacheline in double words. -/
def CACHELINE_DBL_WORDS : Int := CACHELINE_BYTES / 8

/-! ## fpga_functions_bicgstab.cpp: fpga_setup_host_datamem -/

/-- Arguments of `fpga_setup_host_datamem` that take part in the layout:
`config_bits` and `dbgbuffer_bytes` are `unsigned int`, the arrays hold `int`
values (`nnzValArrays_num` is 1, so only index 0 of the nnz size arrays is
used). -/
structure DatamemArgs where
  config_bits : Int
  processedSizes : Nat → Int
  nnzValArrays_sizes : Nat → Int
  L_nnzValArrays_sizes : Nat → Int
  U_nnzValArrays_sizes : Nat → Int
  dbgbuffer_bytes : Int

/-- An initialisation `int len = sizeof(T) * count`: `count` is an `int` that is
converted to `unsigned long`, the product is taken in `unsigned long`, and the
result is converted to `int`. -/
def sizeofTimes (size count : Int) : Int := toInt (toULong (size * toULong count))

/-- The complete sizes (in bytes) of the arrays, lines 171 to 205. -/
structure ArrayLens where
  len_setup : Int
  len_r1_vector : Int
  len_r2_vector : Int
  len_x1_vector : Int
  len_x2_vector : Int
  len_p1_vector : Int
  len_p2_vector : Int
  len_rt_vector : Int
  len_t_vector : Int
  len_v_vector : Int
  len_L_res_vector : Int
  len_U_res_vector : Int
  len_blkd_vector : Int
  len_color_sizes : Int
  len_p_index : Int
  len_nzval : Int
  len_col_index : Int
  len_newrow_offset : Int
  len_L_color_sizes : Int
  len_L_p_index : Int
  len_L_nzval : Int
  len_L_col_index : Int
  len_L_newrow_offset : Int
  len_U_color_sizes : Int
  len_U_p_index : Int
  len_U_nzval : Int
  len_U_col_index : Int
  len_U_newrow_offset : Int
  len_dbg_buffer : Int

/-- Lines 111 to 128 and 171 to 205 of `fpga_setup_host_datamem`: the sizes are
read from `processedSizes` and every array size is computed with `roundUpTo`. -/
def array_lens (a : DatamemArgs) : ArrayLens :=
  let rowSize := a.processedSizes 0
  let columnSize := a.processedSizes 3
  let valSize := a.processedSizes 1
  let numColors := a.processedSizes 2
  let newrowSize := a.processedSizes 4
  let blkdiagSize := a.processedSizes 5
  let L_columnSize := a.processedSizes 9
  let L_valSize := a.processedSizes 7
  let L_numColors := a.processedSizes 8
  let L_newrowSize := a.processedSizes 10
  let U_columnSize := a.processedSizes 15
  let U_valSize := a.processedSizes 13
  let U_numColors := a.processedSizes 14
  let U_newrowSize := a.processedSizes 16
  { len_setup := toInt (CACHELINE_BYTES * SETUP_LINES)
    len_r1_vector := sizeofTimes 8 (roundUpTo rowSize (CACHELINE_BYTES / 8) (by decide))
    len_r2_vector := sizeofTimes 8 (roundUpTo rowSize (CACHELINE_BYTES / 8) (by decide))
    len_x1_vector := sizeofTimes 8 (roundUpTo rowSize (CACHELINE_BYTES / 8) (by decide))
    len_x2_vector := sizeofTimes 8 (roundUpTo rowSize (CACHELINE_BYTES / 8) (by decide))
    len_p1_vector := sizeofTimes 8 (roundUpTo rowSize (CACHELINE_BYTES / 8) (by decide))
    len_p2_vector := sizeofTimes 8 (roundUpTo rowSize (CACHELINE_BYTES / 8) (by decide))
    len_rt_vector := sizeofTimes 8 (roundUpTo rowSize (CACHELINE_BYTES / 8) (by decide))
    len_t_vector := sizeofTimes 8 (roundUpTo rowSize (CACHELINE_BYTES / 8) (by decide))
    len_v_vector := sizeofTimes 8 (roundUpTo rowSize (CACHELINE_BYTES / 8) (by decide))
    len_L_res_vector := sizeofTimes 8 (roundUpTo rowSize (CACHELINE_BYTES / 8) (by decide))
    len_U_res_vector := sizeofTimes 8 (roundUpTo rowSize (CACHELINE_BYTES / 8) (by decide))
    len_blkd_vector := sizeofTimes 8 (roundUpTo blkdiagSize (CACHELINE_BYTES / 8) (by decide))
    len_color_sizes :=
      sizeofTimes 4 (roundUpTo (toInt (4 * numColors)) (CACHELINE_BYTES / 4) (by decide))
    len_p_index := sizeofTimes 4 (roundUpTo columnSize (CACHELINE_BYTES / 4) (by decide))
    len_nzval :=
      sizeofTimes 8 (roundUpTo (a.nnzValArrays_sizes 0) (CACHELINE_BYTES / 8) (by decide))
    len_col_index := sizeofTimes 2 (roundUpTo valSize (CACHELINE_BYTES / 2) (by decide))
    len_newrow_offset := sizeofTimes 1 (roundUpTo newrowSize (CACHELINE_BYTES / 1) (by decide))
    len_L_color_sizes :=
      sizeofTimes 4 (roundUpTo (toInt (4 * L_numColors)) (CACHELINE_BYTES / 4) (by decide))
    len_L_p_index := sizeofTimes 4 (roundUpTo L_columnSize (CACHELINE_BYTES / 4) (by decide))
    len_L_nzval :=
      sizeofTimes 8 (roundUpTo (a.L_nnzValArrays_sizes 0) (CACHELINE_BYTES / 8) (by decide))
    len_L_col_index := sizeofTimes 2 (roundUpTo L_valSize (CACHELINE_BYTES / 2) (by decide))
    len_L_newrow_offset :=
      sizeofTimes 1 (roundUpTo L_newrowSize (CACHELINE_BYTES / 1) (by decide))
    len_U_color_sizes :=
      sizeofTimes 4 (roundUpTo (toInt (4 * U_numColors)) (CACHELINE_BYTES / 4) (by decide))
    len_U_p_index := sizeofTimes 4 (roundUpTo U_columnSize (CACHELINE_BYTES / 4) (by decide))
    len_U_nzval :=
      sizeofTimes 8 (roundUpTo (a.U_nnzValArrays_sizes 0) (CACHELINE_BYTES / 8) (by decide))
    len_U_col_index := sizeofTimes 2 (roundUpTo U_valSize (CACHELINE_BYTES / 2) (by decide))
    len_U_newrow_offset :=
      sizeofTimes 1 (roundUpTo U_newrowSize (CACHELINE_BYTES / 1) (by decide))
    len_dbg_buffer := toInt a.dbgbuffer_bytes }

/-- Lines 227 to 286: the positions (in bytes) of the arrays in the data buffers,
`dbufpos[bank][array]`, an array of `unsigned int` initialised to zero
(`MAX_DBUFPOS` = 20 entries per bank).  In each bank the entry after the last
array is the total size of the bank. -/
def dbufpos (l : ArrayLens) : List (List Int) :=
  -- data buffer 0
  let d00 : Int := 0
  let d01 := toUInt (d00 + l.len_setup)
  let d02 := toUInt (d01 + l.len_nzval)
  let d03 := toUInt (d02 + l.len_L_nzval)
  let d04 := toUInt (d03 + l.len_U_nzval)
  let d05 := toUInt (d04 + l.len_color_sizes)
  let d06 := toUInt (d05 + l.len_L_color_sizes)
  let d07 := toUInt (d06 + l.len_U_color_sizes)
  let d08 := toUInt (d07 + l.len_blkd_vector)
  -- data buffer 1
  let d10 : Int := 0
  let d11 := toUInt (d10 + l.len_p_index)
  let d12 := toUInt (d11 + l.len_L_p_index)
  let d13 := toUInt (d12 + l.len_U_p_index)
  let d14 := toUInt (d13 + l.len_col_index)
  let d15 := toUInt (d14 + l.len_L_col_index)
  let d16 := toUInt (d15 + l.len_U_col_index)
  let d17 := toUInt (d16 + l.len_newrow_offset)
  let d18 := toUInt (d17 + l.len_L_newrow_offset)
  let d19 := toUInt (d18 + l.len_U_newrow_offset)
  -- data buffer 2
  let d20 : Int := 0
  let d21 := toUInt (d20 + l.len_x2_vector)
  let d22 := toUInt (d21 + l.len_r1_vector)
  -- data buffer 3
  let d30 : Int := 0
  let d31 := toUInt (d30 + l.len_x1_vector)
  let d32 := toUInt (d31 + l.len_r2_vector)
  let d33 := toUInt (d32 + l.len_p1_vector)
  let d34 := toUInt (d33 + l.len_p2_vector)
  let d35 := toUInt (d34 + l.len_rt_vector)
  -- data buffer 4
  let d40 : Int := 0
  let d41 := toUInt (d40 + l.len_t_vector)
  let d42 := toUInt (d41 + l.len_v_vector)
  let d43 := toUInt (d42 + l.len_L_res_vector)
  let d44 := toUInt (d43 + l.len_U_res_vector)
  [ [d00, d01, d02, d03, d04, d05, d06, d07, d08] ++ List.replicate 11 0,
    [d10, d11, d12, d13, d14, d15, d16, d17, d18, d19] ++ List.replicate 10 0,
    [d20, d21, d22] ++ List.replicate 17 0,
    [d30, d31, d32, d33, d34, d35] ++ List.replicate 14 0,
    [d40, d41, d42, d43, d44] ++ List.replicate 15 0 ]

/-- The entry `dbufpos[b][k]`. -/
def dbufposAt (l : ArrayLens) (b k : Nat) : Int := ((dbufpos l).getD b []).getD k 0

/-- The array `*totalSize` (`RW_BUF` entries), filled at lines 242, 254, 259, 271
and 282 with the entry of `dbufpos` that follows the last array of the bank. -/
def totalSize (l : ArrayLens) : List Int :=
  [dbufposAt l 0 8, dbufposAt l 1 9, dbufposAt l 2 2, dbufposAt l 3 5, dbufposAt l 4 4]

/-- The byte sizes of the arrays of each bank, in the order in which lines 233 to
281 add them to the running position. -/
def bankLens (l : ArrayLens) : List (List Int) :=
  [ [l.len_setup, l.len_nzval, l.len_L_nzval, l.len_U_nzval, l.len_color_sizes,
      l.len_L_color_sizes, l.len_U_color_sizes, l.len_blkd_vector],
    [l.len_p_index, l.len_L_p_index, l.len_U_p_index, l.len_col_index, l.len_L_col_index,
      l.len_U_col_index, l.len_newrow_offset, l.len_L_newrow_offset, l.len_U_newrow_offset],
    [l.len_x2_vector, l.len_r1_vector],
    [l.len_x1_vector, l.len_r2_vector, l.len_p1_vector, l.len_p2_vector, l.len_rt_vector],
    [l.len_t_vector, l.len_v_vector, l.len_L_res_vector, l.len_U_res_vector] ]

/-- The byte size of array `k` of bank `b` (0 when there is no such array). -/
def arrayLen (l : ArrayLens) (b k : Nat) : Int := ((bankLens l).getD b []).getD k 0

/-- Number of arrays placed in bank `b`: 8, 9, 2, 5 and 4. -/
def bankArrays (b : Nat) : Nat := ([8, 9, 2, 5, 4] : List Nat).getD b 0

/-- The value that the setup array is reset with before it is filled. -/
def SETUP_UNUSED : Int := 0xDEADC0DEDEADC0DE

/-- A size-pair word `(((long unsigned int) hi) << 32) + (long unsigned int) lo`,
computed in `unsigned long`. -/
def sizePair (hi lo : Int) : Int :=
  toULong (toULong (toULong hi * 4294967296) + toULong lo)

/-- Lines 419 to 468: the setup array (`SETUP_LINES * CACHELINE_DBL_WORDS` words
of type `unsigned long`) is reset and then filled with the sizes and with the
positions of the arrays, expressed as indices of cachelines. -/
def setupArray_fill (a : DatamemArgs) (l : ArrayLens) : List Int :=
  let rowSize := a.processedSizes 0
  let valSize := a.processedSizes 1
  let numColors := a.processedSizes 2
  let L_rowSize := a.processedSizes 6
  let L_valSize := a.processedSizes 7
  let L_numColors := a.processedSizes 8
  let U_rowSize := a.processedSizes 12
  let U_valSize := a.processedSizes 13
  let U_numColors := a.processedSizes 14
  let s := List.replicate (SETUP_LINES * CACHELINE_DBL_WORDS).toNat SETUP_UNUSED
  -- cacheline 0
  let s := s.set 0 (sizePair valSize rowSize)
  let s := s.set 1 (sizePair a.config_bits numColors)
  let s := s.set 2 (dbufposAt l 2 1 / CACHELINE_BYTES)
  let s := s.set 3 (dbufposAt l 3 1 / CACHELINE_BYTES)
  let s := s.set 4 (dbufposAt l 3 0 / CACHELINE_BYTES)
  let s := s.set 5 (dbufposAt l 2 0 / CACHELINE_BYTES)
  let s := s.set 6 (dbufposAt l 3 2 / CACHELINE_BYTES)
  let s := s.set 7 (dbufposAt l 3 3 / CACHELINE_BYTES)
  -- cacheline 1
  let s := s.set 8 (sizePair L_valSize L_rowSize)
  let s := s.set 9 (toULong L_numColors)
  let s := s.set 10 (dbufposAt l 0 4 / CACHELINE_BYTES)
  let s := s.set 11 (dbufposAt l 1 0 / CACHELINE_BYTES)
  let s := s.set 12 (dbufposAt l 0 1 / CACHELINE_BYTES)
  let s := s.set 13 (dbufposAt l 1 3 / CACHELINE_BYTES)
  let s := s.set 14 (dbufposAt l 1 6 / CACHELINE_BYTES)
  let s := s.set 15 (dbufposAt l 3 4 / CACHELINE_BYTES)
  -- cacheline 2
  let s := s.set 16 (sizePair U_valSize U_rowSize)
  let s := s.set 17 (toULong U_numColors)
  let s := s.set 18 (dbufposAt l 0 5 / CACHELINE_BYTES)
  let s := s.set 19 (dbufposAt l 1 1 / CACHELINE_BYTES)
  let s := s.set 20 (dbufposAt l 0 2 / CACHELINE_BYTES)
  let s := s.set 21 (dbufposAt l 1 4 / CACHELINE_BYTES)
  let s := s.set 22 (dbufposAt l 1 7 / CACHELINE_BYTES)
  let s := s.set 23 (dbufposAt l 0 7 / CACHELINE_BYTES)
  -- cacheline 3
  let s := s.set 24 (dbufposAt l 0 6 / CACHELINE_BYTES)
  let s := s.set 25 (dbufposAt l 1 2 / CACHELINE_BYTES)
  let s := s.set 26 (dbufposAt l 0 3 / CACHELINE_BYTES)
  let s := s.set 27 (dbufposAt l 1 5 / CACHELINE_BYTES)
  let s := s.set 28 (dbufposAt l 1 8 / CACHELINE_BYTES)
  let s := s.set 29 (dbufposAt l 4 0 / CACHELINE_BYTES)
  let s := s.set 30 (dbufposAt l 4 1 / CACHELINE_BYTES)
  -- cacheline 4 (unused for this kernel)
  s

/-- What the caller of `fpga_setup_host_datamem` and `fpga_copy_host_datamem`
holds through the output parameters: the contents of `*totalSize`, of
`result_offsets` and of `*setupArray`. -/
structure HostData where
  totalSize : List Int
  result_offsets : List Int
  setupArray : List Int

/-- Lines 262 to 286: the entries of `result_offsets` are assigned. -/
def result_offsets_fill (l : ArrayLens) (r : List Int) : List Int :=
  let r := r.set 0 (dbufposAt l 2 0)
  let r := r.set 3 (dbufposAt l 2 1)
  let r := r.set 2 (dbufposAt l 3 0)
  let r := r.set 1 (dbufposAt l 3 1)
  let r := r.set 4 (dbufposAt l 4 2)
  let r := r.set 5 (dbufposAt l 4 3)
  r

/-- Function `fpga_setup_host_datamem`.  The result is the return code and the
state of the output parameters.  `memalign_ok b` tells whether `posix_memalign`
allocates data buffer `b`.  The contents of the data arrays other than the setup
array are not part of the model. -/
def fpga_setup_host_datamem (a : DatamemArgs) (memalign_ok : Nat → Bool) (h : HostData) :
    Int × HostData :=
  let l := array_lens a
  if l.len_dbg_buffer.tmod CACHELINE_BYTES ≠ 0 then (1, h)
  else
    let h := { h with totalSize := totalSize l }
    let h := { h with result_offsets := result_offsets_fill l h.result_offsets }
    if (List.range RW_BUF).all memalign_ok then
      (0, { h with setupArray := setupArray_fill a l })
    else (1, h)

/-! ## fpga_functions_bicgstab.cpp: fpga_copy_host_datamem -/

/-- Lines 594 to 604 of `fpga_copy_host_datamem`: the setup array is updated with
the sizes of the current system.  The other statements of the function write to
the data arrays, which lie after the setup array in data buffer 0 (the reset of
the data buffers skips the first `SETUP_LINES * CACHELINE_DBL_WORDS` words) or in
the other data buffers; the function returns 0. -/
def fpga_copy_host_datamem (vectorSizes : Nat → Int) (setupArray : List Int) : List Int :=
  let rowSize := vectorSizes 0
  let valSize := vectorSizes 1
  let L_rowSize := vectorSizes 6
  let L_valSize := vectorSizes 7
  let U_rowSize := vectorSizes 12
  let U_valSize := vectorSizes 13
  let s := setupArray.set 0 (sizePair valSize rowSize)
  let s := s.set 8 (sizePair L_valSize L_rowSize)
  let s := s.set 16 (sizePair U_valSize U_rowSize)
  s

/-! ## Predicates used in the statements -/

/-- The element widths and the numbers of elements per cacheline used by the layout. -/
def widthUnit (w n : Int) : Prop :=
  (w = 8 ∧ n = 8) ∨ (w = 4 ∧ n = 16) ∨ (w = 2 ∧ n = 32) ∨ (w = 1 ∧ n = 64)

/-- The sizes of all arrays of a layout are multiples of the cacheline. -/
def LensAligned (l : ArrayLens) : Prop := ∀ b k, 64 ∣ arrayLen l b k

/-- The byte size of `count` elements of `width` bytes, rounded up to the
cacheline, fits in an `int`: `count` is not negative and `width * count` is at
most `2^31 - 64`. -/
def fitsInt (width count : Int) : Prop := 0 ≤ count ∧ width * count ≤ 2147483584

/-- The input lengths are not negative and every array size fits in an `int`. -/
def SizesFit (a : DatamemArgs) : Prop :=
  fitsInt 8 (a.processedSizes 0) ∧ fitsInt 2 (a.processedSizes 1) ∧
  fitsInt 16 (a.processedSizes 2) ∧ fitsInt 4 (a.processedSizes 3) ∧
  fitsInt 1 (a.processedSizes 4) ∧ fitsInt 8 (a.processedSizes 5) ∧
  fitsInt 2 (a.processedSizes 7) ∧ fitsInt 16 (a.processedSizes 8) ∧
  fitsInt 4 (a.processedSizes 9) ∧ fitsInt 1 (a.processedSizes 10) ∧
  fitsInt 2 (a.processedSizes 13) ∧ fitsInt 16 (a.processedSizes 14) ∧
  fitsInt 4 (a.processedSizes 15) ∧ fitsInt 1 (a.processedSizes 16) ∧
  fitsInt 8 (a.nnzValArrays_sizes 0) ∧ fitsInt 8 (a.L_nnzValArrays_sizes 0) ∧
  fitsInt 8 (a.U_nnzValArrays_sizes 0)

/-- The sum of the byte sizes of the arrays of bank `b`. -/
def bankSum (l : ArrayLens) (b : Nat) : Int := ((bankLens l).getD b []).sum

/-- The total of every bank fits in an `unsigned int`. -/
def BanksFit (l : ArrayLens) : Prop := ∀ b, b < 5 → bankSum l b < 4294967296


/-! ## The documented map of the setup array -/

/-- The arrays that the setup array points to. -/
inductive ArrayId where
  | R1 | R2 | X1 | X2 | P1 | P2 | RT | T | V
  | colorSizes | PIndices | nnzVals | colInds | NRs
  | L_colorSizes | L_PIndices | L_nnzVals | L_colInds | L_NRs
  | U_colorSizes | U_PIndices | U_nnzVals | U_colInds | U_NRs
  | blockDiag
  deriving DecidableEq, Repr

/-- The comment "Setup array cachelines map" (lines 369 to 405): the index of each
pointer word and the array it is documented to point to. -/
def setupMap : List (Nat × ArrayId) :=
  [ (2, .R1), (3, .R2), (4, .X1), (5, .X2), (6, .P1), (7, .P2),
    (10, .colorSizes), (11, .PIndices), (12, .nnzVals), (13, .colInds), (14, .NRs), (15, .RT),
    (18, .L_colorSizes), (19, .L_PIndices), (20, .L_nnzVals), (21, .L_colInds), (22, .L_NRs),
    (23, .blockDiag),
    (24, .U_colorSizes), (25, .U_PIndices), (26, .U_nnzVals), (27, .U_colInds), (28, .U_NRs),
    (29, .T), (30, .V) ]

/-- The bank and the entry of `dbufpos` that holds the position of each array, as
lines 233 to 281 place them (and as lines 333 to 364 take their addresses). -/
def arrayPlace : ArrayId → Nat × Nat
  | .nnzVals => (0, 1)
  | .L_nnzVals => (0, 2)
  | .U_nnzVals => (0, 3)
  | .colorSizes => (0, 4)
  | .L_colorSizes => (0, 5)
  | .U_colorSizes => (0, 6)
  | .blockDiag => (0, 7)
  | .PIndices => (1, 0)
  | .L_PIndices => (1, 1)
  | .U_PIndices => (1, 2)
  | .colInds => (1, 3)
  | .L_colInds => (1, 4)
  | .U_colInds => (1, 5)
  | .NRs => (1, 6)
  | .L_NRs => (1, 7)
  | .U_NRs => (1, 8)
  | .X2 => (2, 0)
  | .R1 => (2, 1)
  | .X1 => (3, 0)
  | .R2 => (3, 1)
  | .P1 => (3, 2)
  | .P2 => (3, 3)
  | .RT => (3, 4)
  | .T => (4, 0)
  | .V => (4, 1)

/-! ## Concrete inputs -/

/-- A small system: 100 rows, 700 values and 4 colors for each of A, L and U. -/
def exampleArgs : DatamemArgs :=
  { config_bits := 3
    processedSizes := fun k =>
      ([100, 700, 4, 112, 128, 300, 100, 400, 4, 112, 128, 300, 100, 400, 4, 112, 128, 300] :
        List Int).getD k 0
    nnzValArrays_sizes := fun _ => 6300
    L_nnzValArrays_sizes := fun _ => 3600
    U_nnzValArrays_sizes := fun _ => 3600
    dbgbuffer_bytes := 32768 }

/-- All input lengths are zero. -/
def zeroArgs : DatamemArgs :=
  { config_bits := 0
    processedSizes := fun _ => 0
    nnzValArrays_sizes := fun _ => 0
    L_nnzValArrays_sizes := fun _ => 0
    U_nnzValArrays_sizes := fun _ => 0
    dbgbuffer_bytes := 0 }

/-- The small system with `rowSize = 2^28`: every row vector takes `2^31` bytes. -/
def hugeArgs : DatamemArgs :=
  { exampleArgs with
    processedSizes := fun k =>
      ([268435456, 700, 4, 112, 128, 300, 100, 400, 4, 112, 128, 300, 100, 400, 4, 112, 128,
        300] : List Int).getD k 0 }

/-- Output parameters before the call: nothing allocated, six result offsets. -/
def emptyHost : HostData :=
  { totalSize := [], result_offsets := [0, 0, 0, 0, 0, 0], setupArray := [] }

/-! ## bicgstab_utils.cpp: decode_debuginfo_bicgstab -/

/-- The expression `(val >> shift) & mask` on `unsigned long` values. -/
def bitField (val shift mask : Nat) : Nat := (val >>> shift) &&& mask

/-- The value that `fpga_fill_host_debugbuf` fills the debug buffer with, and that
the decoder compares the first word of a line with. -/
def DEBUG_UNWRITTEN : Nat := 0x5a5a5a5a5a5a5a5a

/-- The signature that the kernel writes to bits 40..63 of word 7 of line 0. -/
def SIGNATURE : Nat := 0x414442

/-- Size of the local array `overflow` of the decoder. -/
def OVERFLOW_BUFFER : Nat := 30

/-- The outputs of `decode_debuginfo_bicgstab` (the return code `ret` and the
values behind the output pointers) and the local `dbgcount_max`.  The doubles
`norms[0..3]` are kept as the 64-bit patterns that `union double2int` converts. -/
structure DecodeState where
  ret : Int
  kernel_cycles : Nat
  kernel_iterations : Nat
  norms : List Nat
  last_norm_idx : Nat
  kernel_aborted : Bool
  kernel_signature : Bool
  kernel_overflow : Bool
  kernel_noresults : Bool
  kernel_wrafterend : Bool
  kernel_dbgfifofull : Bool
  dbgcount_max : Nat
  deriving DecidableEq, Repr

/-- Lines 142 to 162: the local array `overflow` after word 0 of a sample line has
been decoded; entries 21 to 29 keep their initial value 0. -/
def overflow_fields (val : Nat) : List Nat :=
  [ bitField val 0 1, bitField val 4 1, bitField val 8 0xFF, bitField val 16 0xF,
    bitField val 20 0xF, bitField val 24 0xF, bitField val 32 1, bitField val 33 1,
    bitField val 34 1, bitField val 35 1, bitField val 36 1, bitField val 40 1,
    bitField val 41 1, bitField val 42 1, bitField val 44 1, bitField val 45 1,
    bitField val 46 1, bitField val 48 0x1F, bitField val 53 0x7, bitField val 56 0xF,
    bitField val 60 0xF ] ++ List.replicate (OVERFLOW_BUFFER - 21) 0

/-- Lines 119 to 136: the general status in line `l = 0`.  A cast `(bool)` binds
tighter than `&`, so `(bool)(w >> 1) & 1` is true when `w >> 1` is not zero. -/
def decode_status (debugBuffer : Nat → Nat) (cacheline_dbl_words l : Nat) (s : DecodeState) :
    DecodeState :=
  if bitField (debugBuffer (7 + l * cacheline_dbl_words)) 40 0xFFFFFF ≠ SIGNATURE then
    { s with kernel_signature := true, ret := 1 }
  else
    let s :=
      if debugBuffer (0 + l * cacheline_dbl_words) &&& 1 ≠ 0 then
        { s with kernel_aborted := true, ret := 1 }
      else
        { s with kernel_cycles := debugBuffer (1 + l * cacheline_dbl_words) &&& 0xFFFFFFFF }
    { s with
      kernel_noresults := decide (debugBuffer (0 + l * cacheline_dbl_words) >>> 1 ≠ 0)
      kernel_wrafterend := decide (debugBuffer (0 + l * cacheline_dbl_words) >>> 2 ≠ 0)
      kernel_dbgfifofull := decide (debugBuffer (0 + l * cacheline_dbl_words) >>> 3 ≠ 0) }

/-- Lines 138 to 260: the kernel-specific status in a line `l > 0`.  The sum `of`
runs over the `OVERFLOW_BUFFER` entries of `overflow`.  The counters `trans` and
the states `states` are decoded for the printout only. -/
def decode_sample (debugBuffer : Nat → Nat) (debug_outbuf_words cacheline_dbl_words l : Nat)
    (s : DecodeState) : DecodeState :=
  let val := debugBuffer (0 + l * cacheline_dbl_words)
  if val ≠ DEBUG_UNWRITTEN then
    let overflow := overflow_fields val
    let of := overflow.sum
    let s := if of ≠ 0 then { s with kernel_overflow := true, ret := 1 } else s
    let val := debugBuffer (3 + l * cacheline_dbl_words)
    let dbgcount := bitField val 16 0xFFFF
    let itrcount := bitField val 32 0xFFFF
    let cur_norms :=
      [ debugBuffer (4 + l * cacheline_dbl_words), debugBuffer (5 + l * cacheline_dbl_words),
        debugBuffer (6 + l * cacheline_dbl_words), debugBuffer (7 + l * cacheline_dbl_words) ]
    if dbgcount > s.dbgcount_max ∨ debug_outbuf_words < 3 then
      { s with
        dbgcount_max := dbgcount
        kernel_iterations := itrcount
        norms := cur_norms
        last_norm_idx := (itrcount % 3) + 1 }
    else s
  else s

/-- The body of the loop over the lines of the debug buffer. -/
def decode_line (debugBuffer : Nat → Nat) (debug_outbuf_words cacheline_dbl_words : Nat)
    (s : DecodeState) (l : Nat) : DecodeState :=
  if l = 0 then decode_status debugBuffer cacheline_dbl_words l s
  else decode_sample debugBuffer debug_outbuf_words cacheline_dbl_words l s

/-- Function `decode_debuginfo_bicgstab`.  `debugBuffer i` is the word
`debugBuffer[i]`; `norms` and `last_norm_idx` are the values that the caller holds
on entry, which the function does not initialise.  The parameters `quiet`,
`print_legend` and `abort_cycles` only change what is printed.  The loop is
`for (int l = 0; l < (int)debug_outbuf_words; l++)`: it makes
`(int)debug_outbuf_words` iterations, and none when the cast is negative.  The
index `k + l*cacheline_dbl_words` is taken exactly; the source computes it in
`unsigned int`, which gives the same index when `linesFit` holds. -/
def decode_debuginfo_bicgstab (debugBuffer : Nat → Nat)
    (debug_outbuf_words cacheline_dbl_words : Nat) (norms : List Nat) (last_norm_idx : Nat) :
    DecodeState :=
  (List.range (toInt debug_outbuf_words).toNat).foldl
    (decode_line debugBuffer debug_outbuf_words cacheline_dbl_words)
    { ret := 0, kernel_cycles := 0, kernel_iterations := 0, norms := norms,
      last_norm_idx := last_norm_idx, kernel_aborted := false, kernel_signature := false,
      kernel_overflow := false, kernel_noresults := false, kernel_wrafterend := false,
      kernel_dbgfifofull := false, dbgcount_max := 0 }

/-- The lines of the buffer are within the reach of the decoder: the number of
lines fits in the `int` line counter of the loop, and the index
`7 + (debug_outbuf_words - 1) * cacheline_dbl_words` of the last word of the last
line fits in the `unsigned int` in which the source computes the index. -/
def linesFit (debug_outbuf_words cacheline_dbl_words : Nat) : Prop :=
  debug_outbuf_words ≤ 2147483647 ∧
    7 + (debug_outbuf_words - 1) * cacheline_dbl_words < 4294967296

instance (debug_outbuf_words cacheline_dbl_words : Nat) :
    Decidable (linesFit debug_outbuf_words cacheline_dbl_words) :=
  inferInstanceAs (Decidable (_ ∧ _))

/-- Line `l` is a written sample line whose overflow fields are not all zero. -/
def sampleOverflow (debugBuffer : Nat → Nat) (cacheline_dbl_words l : Nat) : Prop :=
  debugBuffer (0 + l * cacheline_dbl_words) ≠ DEBUG_UNWRITTEN ∧
    (overflow_fields (debugBuffer (0 + l * cacheline_dbl_words))).sum ≠ 0

/-- Line 0 carries the signature. -/
def signatureValid (debugBuffer : Nat → Nat) (cacheline_dbl_words : Nat) : Prop :=
  bitField (debugBuffer (7 + 0 * cacheline_dbl_words)) 40 0xFFFFFF = SIGNATURE

/-- The abort bit (bit 0 of word 0) of line 0 is set. -/
def abortBit (debugBuffer : Nat → Nat) (cacheline_dbl_words : Nat) : Prop :=
  debugBuffer (0 + 0 * cacheline_dbl_words) &&& 1 ≠ 0

instance (debugBuffer : Nat → Nat) (cacheline_dbl_words l : Nat) :
    Decidable (sampleOverflow debugBuffer cacheline_dbl_words l) :=
  inferInstanceAs (Decidable (_ ∧ _))

instance (debugBuffer : Nat → Nat) (cacheline_dbl_words : Nat) :
    Decidable (signatureValid debugBuffer cacheline_dbl_words) :=
  inferInstanceAs (Decidable (_ = _))

instance (debugBuffer : Nat → Nat) (cacheline_dbl_words : Nat) :
    Decidable (abortBit debugBuffer cacheline_dbl_words) :=
  inferInstanceAs (Decidable (_ ≠ _))

/-- The state on entry to the loop of `decode_debuginfo_bicgstab`. -/
def decode_init (norms : List Nat) (last_norm_idx : Nat) : DecodeState :=
  { ret := 0, kernel_cycles := 0, kernel_iterations := 0, norms := norms,
    last_norm_idx := last_norm_idx, kernel_aborted := false, kernel_signature := false,
    kernel_overflow := false, kernel_noresults := false, kernel_wrafterend := false,
    kernel_dbgfifofull := false, dbgcount_max := 0 }

/-- The state after the first `n` iterations of the loop of
`decode_debuginfo_bicgstab`, which makes `(int)debug_outbuf_words` of them. -/
def decode_upto (debugBuffer : Nat → Nat) (debug_outbuf_words cacheline_dbl_words : Nat)
    (norms : List Nat) (last_norm_idx : Nat) (n : Nat) : DecodeState :=
  (List.range n).foldl (decode_line debugBuffer debug_outbuf_words cacheline_dbl_words)
    (decode_init norms last_norm_idx)

/-! ## Concrete debug buffers -/

/-- The debug buffer whose words are the entries of `ws` (0 beyond them). -/
def bufferOf (ws : List Nat) : Nat → Nat := fun i => ws.getD i 0

/-- Four lines of 8 words.  Line 0: abort bit clear, 12345 cycles, signature
`0x414442` in bits 40..63 of word 7; line 1 unwritten; line 2: no overflow,
`dbgcount` 1, `itrcount` 0, norms (1.0, 0, 0, 0); line 3: the reduce unit overflow
bit set, `dbgcount` 2, `itrcount` 1, norms (1.0, 0.5, 0, 0). -/
def overflowBuffer : Nat → Nat :=
  bufferOf
    ([0, 12345, 0, 0, 0, 0, 0, 0x414442 <<< 40] ++ List.replicate 8 DEBUG_UNWRITTEN ++
      [0, 0, 0, (0 <<< 32) + (1 <<< 16), 0x3FF0000000000000, 0, 0, 0] ++
      [1, 0, 0, (1 <<< 32) + (2 <<< 16), 0x3FF0000000000000, 0x3FE0000000000000, 0, 0])

/-- Four lines of 8 words.  Line 0 without the signature (word 7 is 0); line 1
unwritten; line 2: `dbgcount` 1, `itrcount` 0; line 3: `dbgcount` 2, `itrcount` 1;
no overflow field is set. -/
def unsignedBuffer : Nat → Nat :=
  bufferOf
    ([0, 12345, 0, 0, 0, 0, 0, 0] ++ List.replicate 8 DEBUG_UNWRITTEN ++
      [0, 0, 0, (0 <<< 32) + (1 <<< 16), 0x3FF0000000000000, 0, 0, 0] ++
      [0, 0, 0, (1 <<< 32) + (2 <<< 16), 0x3FF0000000000000, 0x3FE0000000000000, 0, 0])

/-- The buffer `unsignedBuffer` with the signature in line 0. -/
def signedBuffer : Nat → Nat :=
  bufferOf
    ([0, 12345, 0, 0, 0, 0, 0, 0x414442 <<< 40] ++ List.replicate 8 DEBUG_UNWRITTEN ++
      [0, 0, 0, (0 <<< 32) + (1 <<< 16), 0x3FF0000000000000, 0, 0, 0] ++
      [0, 0, 0, (1 <<< 32) + (2 <<< 16), 0x3FF0000000000000, 0x3FE0000000000000, 0, 0])

/-- One line of 8 words: a valid line 0 with 12345 cycles whose word 0 is 4, that
is with the write-after-end bit (bit 2) set and the bits 0, 1 and 3 clear. -/
def writeAfterEndBuffer : Nat → Nat :=
  bufferOf [4, 12345, 0, 0, 0, 0, 0, 0x414442 <<< 40]

/-- Two lines of 8 words: a valid line 0 with the abort bit set (word 0 is 1) and
12345 in word 1, and an unwritten line 1. -/
def abortedBuffer : Nat → Nat :=
  bufferOf ([1, 12345, 0, 0, 0, 0, 0, 0x414442 <<< 40] ++ List.replicate 8 DEBUG_UNWRITTEN)

/-- The 21 overflow fields of word 0 of a sample line as the specification lists
them, each as (bit offset, bit width). -/
def overflowLayout : List (Nat × Nat) :=
  [ (0, 1), (4, 1), (8, 8), (16, 4), (20, 4), (24, 4), (32, 1), (33, 1), (34, 1), (35, 1),
    (36, 1), (40, 1), (41, 1), (42, 1), (44, 1), (45, 1), (46, 1), (48, 5), (53, 3), (56, 4),
    (60, 4) ]

/-- The buffer `overflowBuffer` with other bits in word 0 of the written sample
lines: word 0 of line 2 is `0xFF00` (the merge overflow field) and word 0 of line 3
is 0. -/
def overflowBuffer2 : Nat → Nat :=
  bufferOf
    ([0, 12345, 0, 0, 0, 0, 0, 0x414442 <<< 40] ++ List.replicate 8 DEBUG_UNWRITTEN ++
      [0xFF00, 0, 0, (0 <<< 32) + (1 <<< 16), 0x3FF0000000000000, 0, 0, 0] ++
      [0, 0, 0, (1 <<< 32) + (2 <<< 16), 0x3FF0000000000000, 0x3FE0000000000000, 0, 0])

/-- The buffer `signedBuffer` with other words 1..7 in the unwritten line 1: they
look like a sample with `dbgcount` 9 and `itrcount` 8. -/
def signedBuffer2 : Nat → Nat :=
  bufferOf
    ([0, 12345, 0, 0, 0, 0, 0, 0x414442 <<< 40] ++
      [DEBUG_UNWRITTEN, 1, 2, (8 <<< 32) + (9 <<< 16), 4, 5, 6, 7] ++
      [0, 0, 0, (0 <<< 32) + (1 <<< 16), 0x3FF0000000000000, 0, 0, 0] ++
      [0, 0, 0, (1 <<< 32) + (2 <<< 16), 0x3FF0000000000000, 0x3FE0000000000000, 0, 0])

/-- The decoder retains the sample of line `l`: line `l` is a written sample line
that passes the test of line 251, `dbgcount > dbgcount_max || debug_outbuf_words<3`,
with the value that `dbgcount_max` has when the loop reaches line `l`. -/
def retainsAt (debugBuffer : Nat → Nat) (debug_outbuf_words cacheline_dbl_words : Nat)
    (norms : List Nat) (last_norm_idx l : Nat) : Prop :=
  1 ≤ l ∧ l < debug_outbuf_words ∧
    debugBuffer (0 + l * cacheline_dbl_words) ≠ DEBUG_UNWRITTEN ∧
    (bitField (debugBuffer (3 + l * cacheline_dbl_words)) 16 0xFFFF >
        (decode_upto debugBuffer debug_outbuf_words cacheline_dbl_words norms last_norm_idx
          l).dbgcount_max ∨
      debug_outbuf_words < 3)

/-- The loop of `decode_debuginfo_bicgstab` reaches line `l`, which is below its
bound `(int)debug_outbuf_words`, and retains the sample of the line. -/
def decoderRetains (debugBuffer : Nat → Nat) (debug_outbuf_words cacheline_dbl_words : Nat)
    (norms : List Nat) (last_norm_idx l : Nat) : Prop :=
  l < (toInt debug_outbuf_words).toNat ∧
    retainsAt debugBuffer debug_outbuf_words cacheline_dbl_words norms last_norm_idx l

/-- A valid line 0 and three written sample lines with `dbgcount` 5, 3, 7 and
`itrcount` 4, 2, 6 in buffer order; the norm words of line `l` are `10 l + k`. -/
def wrappedBuffer : Nat → Nat :=
  bufferOf
    ([0, 12345, 0, 0, 0, 0, 0, 0x414442 <<< 40] ++
      [0, 0, 0, (4 <<< 32) + (5 <<< 16), 10, 11, 12, 13] ++
      [0, 0, 0, (2 <<< 32) + (3 <<< 16), 20, 21, 22, 23] ++
      [0, 0, 0, (6 <<< 32) + (7 <<< 16), 30, 31, 32, 33])

/-- Two lines: a valid line 0 and a written sample line with `dbgcount` 0,
`itrcount` 7 and norm words 40..43. -/
def shortBuffer : Nat → Nat :=
  bufferOf
    ([0, 12345, 0, 0, 0, 0, 0, 0x414442 <<< 40] ++
      [0, 0, 0, (7 <<< 32) + (0 <<< 16), 40, 41, 42, 43])

/-- The buffer `wrappedBuffer` followed by unwritten lines: every word from index
32 on is the unwritten marker. -/
def paddedBuffer : Nat → Nat :=
  fun i => if i < 32 then wrappedBuffer i else DEBUG_UNWRITTEN

/-! ## The reference definition of the specification for roundUpTo -/

/-- Reference definition `round_up(value, unit)` of the specification: "if
`value % unit == 0` return `value`, else return `value + (unit - value % unit)`",
over the integers without overflow; `%` is the remainder operator of the code (the
remainder of the truncating division).  It is compared with `roundUpTo`. -/
def round_up_reference (value unit : Int) : Int :=
  if value.tmod unit = 0 then value else value + (unit - value.tmod unit)

/-! ## Words of the setup array -/

/-- The six words of the setup array that hold sizes (lines 424, 426, 437, 439, 450
and 452): the sizes of A, of L and of U. -/
def sizeWords (a : DatamemArgs) : List Int :=
  [ sizePair (a.processedSizes 1) (a.processedSizes 0),
    sizePair a.config_bits (a.processedSizes 2),
    sizePair (a.processedSizes 7) (a.processedSizes 6),
    toULong (a.processedSizes 8),
    sizePair (a.processedSizes 13) (a.processedSizes 12),
    toULong (a.processedSizes 14) ]

/-- Word `i` of the setup array `s` is the pointer that the documented map gives
for `i`: the position of an array, counted in cachelines. -/
def isPointerWord (l : ArrayLens) (s : List Int) (i : Nat) : Prop :=
  ∃ arr : ArrayId, (i, arr) ∈ setupMap ∧
    s[i]? = some (dbufposAt l (arrayPlace arr).1 (arrayPlace arr).2 / CACHELINE_BYTES)

/-- The small system with `rowSize = 3 * 2^26`: a row vector takes `3 * 2^29`
bytes, two of them fit in an `unsigned int` and three do not. -/
def wideArgs : DatamemArgs :=
  { exampleArgs with
    processedSizes := fun k =>
      ([201326592, 700, 4, 112, 128, 300, 100, 400, 4, 112, 128, 300, 100, 400, 4, 112, 128,
        300] : List Int).getD k 0 }

/-! ## bicgstab_utils.cpp: decode_debuginfo_bicgstab_query -/

/-- The values behind the 17 output pointers of `decode_debuginfo_bicgstab_query`. -/
structure QueryInfo where
  x_vector_elem : Nat
  max_row_size : Nat
  max_column_size : Nat
  max_colors_size : Nat
  max_nnzs_per_row : Nat
  max_matrix_size : Nat
  use_uram : Bool
  write_ilu0_results : Bool
  dma_data_width : Nat
  mult_num : Nat
  x_vector_latency : Nat
  add_latency : Nat
  mult_latency : Nat
  num_read_ports : Nat
  num_write_ports : Nat
  reset_cycles : Nat
  reset_settle : Nat
  deriving DecidableEq, Repr

/-- Function `decode_debuginfo_bicgstab_query` (lines 282 to 368).  The result is
the return code and the values behind the output pointers, which are `out` on
entry.  Only line `l = 0` of the buffer is read; `quiet` and the dump of the
buffer at debug level 2 only change what is printed.  Every cast keeps the value,
which the mask has already reduced to the width of the target. -/
def decode_debuginfo_bicgstab_query (debugBuffer : Nat → Nat) (cacheline_dbl_words : Nat)
    (out : QueryInfo) : Int × QueryInfo :=
  let l := 0
  if bitField (debugBuffer (7 + l * cacheline_dbl_words)) 40 0xFFFFFF ≠ 0x414442 then (1, out)
  else
    let val := debugBuffer (0 + l * cacheline_dbl_words)
    if val ≠ 0x5a5a5a5a5a5a5a5a then
      let out := { out with
        x_vector_elem := bitField val 0 0xFFFFFFFF
        max_row_size := bitField val 32 0xFFFFFFFF }
      let val := debugBuffer (1 + l * cacheline_dbl_words)
      let out := { out with
        max_column_size := bitField val 0 0xFFFFFFFF
        max_colors_size := bitField val 32 0xFFFFFFFF }
      let val := debugBuffer (2 + l * cacheline_dbl_words)
      let out := { out with
        max_nnzs_per_row := bitField val 0 0xFFFF
        max_matrix_size := bitField val 16 0xFFFFFFFF }
      let val := debugBuffer (5 + l * cacheline_dbl_words)
      let out := { out with
        reset_cycles := bitField val 0 0xFFFF
        reset_settle := bitField val 16 0xFFFF }
      let val := debugBuffer (6 + l * cacheline_dbl_words)
      let out := { out with
        use_uram := decide (bitField val 0 0x1 ≠ 0)
        write_ilu0_results := decide (bitField val 1 0x1 ≠ 0)
        dma_data_width := bitField val 16 0xFFFF
        x_vector_latency := bitField val 32 0xFF
        add_latency := bitField val 40 0xFF
        mult_latency := bitField val 48 0xFF
        mult_num := bitField val 56 0xFF }
      let val := debugBuffer (7 + l * cacheline_dbl_words)
      let out := { out with
        num_read_ports := bitField val 0 0xF
        num_write_ports := bitField val 4 0xF }
      (0, out)
    else (1, out)

/-- Output values before a query: all zero. -/
def emptyQuery : QueryInfo :=
  { x_vector_elem := 0, max_row_size := 0, max_column_size := 0, max_colors_size := 0,
    max_nnzs_per_row := 0, max_matrix_size := 0, use_uram := false,
    write_ilu0_results := false, dma_data_width := 0, mult_num := 0, x_vector_latency := 0,
    add_latency := 0, mult_latency := 0, num_read_ports := 0, num_write_ports := 0,
    reset_cycles := 0, reset_settle := 0 }

/-- A capability record: 8 elements per vector word, at most 1000 rows, 2000
columns, 16 colors, 32 values per row and 50000 values, reset timings 10 and 20,
URAM in use, data path of 512 bits, latencies 3, 7 and 5, 4 multipliers, 2 read
ports and 1 write port, and the signature in the bits 40..63 of word 7. -/
def capabilityBuffer : Nat → Nat :=
  bufferOf
    [8 + (1000 <<< 32), 2000 + (16 <<< 32), 32 + (50000 <<< 16), 0, 0, 10 + (20 <<< 16),
      1 + (512 <<< 16) + (3 <<< 32) + (7 <<< 40) + (5 <<< 48) + (4 <<< 56),
      2 + (1 <<< 4) + (0x414442 <<< 40)]

/-- A line 0 with the signature in word 7 whose word 0 is the value of the pre-fill. -/
def unwrittenQueryBuffer : Nat → Nat :=
  bufferOf [0x5a5a5a5a5a5a5a5a, 0, 0, 0, 0, 0, 0, 0x414442 <<< 40]

/-- A line 0 of a capability record without the signature. -/
def unsignedQueryBuffer : Nat → Nat :=
  bufferOf [8 + (1000 <<< 32), 2000 + (16 <<< 32), 32 + (50000 <<< 16), 0, 0, 10 + (20 <<< 16), 1,
    2 + (1 <<< 4)]

/-! ## fpga_functions_bicgstab.cpp: fpga_fill_host_debugbuf -/

/-- Lines 705 to 709: the value `val` that is built from 16 nibbles, `0xA` in the
even and `0x5` in the odd positions `j = 15 .. 0`. -/
def fill_value : Nat :=
  (List.range 16).reverse.foldl
    (fun val j => val ||| ((((if j % 2 = 0 then 0xA else 0x5) : Nat) &&& 0xF) <<< (j * 4))) 0

/-- The body of the outer loop of `fpga_fill_host_debugbuf`: the words
`i = 0 .. CACHELINE_DBL_WORDS - 1` of line `l` are set.  The index
`i + l * CACHELINE_DBL_WORDS` is an `int`, reduced to 32 bits here; it is the exact
index for every line `l < 2^28`, and from line `2^28` on the `int` arithmetic of
the source overflows, which C leaves undefined. -/
def fill_line (debugBuffer : Int → Nat) (l : Nat) : Int → Nat :=
  (List.range CACHELINE_DBL_WORDS.toNat).foldl
    (fun (buf : Int → Nat) (i : Nat) =>
      Function.update buf (toInt ((i : Int) + toInt ((l : Int) * CACHELINE_DBL_WORDS)))
        fill_value)
    debugBuffer

/-- Function `fpga_fill_host_debugbuf` (lines 697 to 719).  `debugBuffer i` is the
word `debugBuffer[i]`, for the `int` index `i`; the loop runs over the lines
`l < (int)debug_outbuf_words`.  The result is the return code and the buffer. -/
def fpga_fill_host_debugbuf (debug_outbuf_words : Nat) (debugBuffer : Int → Nat) :
    Int × (Int → Nat) :=
  (0, (List.range (toInt debug_outbuf_words).toNat).foldl fill_line debugBuffer)

/-- The words of a buffer as the decoder indexes them. -/
def wordsOf (debugBuffer : Int → Nat) : Nat → Nat := fun i => debugBuffer i

/-- Three lines: a valid line 0, a sample line with `dbgcount` 65535 and
`itrcount` 9, and a sample line with `dbgcount` 0 and `itrcount` 10, written
after the sequence counter has wrapped. -/
def wrapCountBuffer : Nat → Nat :=
  bufferOf
    ([0, 12345, 0, 0, 0, 0, 0, 0x414442 <<< 40] ++
      [0, 0, 0, (9 <<< 32) + (65535 <<< 16), 10, 11, 12, 13] ++
      [0, 0, 0, (10 <<< 32) + (0 <<< 16), 20, 21, 22, 23])

/-! ## hls_sdaccel_kernel_iostreams_hls.cpp: the pass-through kernel

A 512-bit word `ap_uint<512>` is a natural number.  A memory port is a function
from the index of a word, an `unsigned long long`, to the word.  A stream
`hls::stream` is the list of the words that were written and not yet read, the
oldest first. -/

/-- Size of the input buffer in 512-bit words. -/
def INPUT_BUF_LEN : Int := 512

/-- Size of the output buffer in 512-bit words. -/
def RESULTS_BUF_LEN : Int := 512

/-- The statement `stream.write(e)`. -/
def stream_write (stream : List Nat) (e : Nat) : List Nat := stream ++ [e]

/-- The expression `stream.read()`: the oldest word and the rest of the stream (the
word 0 when the stream is empty). -/
def stream_read (stream : List Nat) : Nat × List Nat := (stream.headD 0, stream.tail)

/-- The number `rounds` of passes of `read_input` and of `write_output` after
line 57 (198): `data_len / 512`, and one more when `data_len % 512` is not 0.
For an `unsigned int data_len` both fit in the `int` variables. -/
def buffer_rounds (data_len : Nat) : Nat :=
  if data_len % 512 ≠ 0 then data_len / 512 + 1 else data_len / 512

/-- The number `elem` of words of pass `j` (lines 59, 60 and 200, 201). -/
def round_elem (data_len j : Nat) : Nat :=
  if data_len % 512 ≠ 0 ∧ j = buffer_rounds data_len - 1 then data_len % 512 else 512

/-- The index `address + (INPUT_BUF_LEN*j) + i` of lines 66 and 212: the product is
an `int`, which is converted to `unsigned long long`, and the sum is taken in
`unsigned long long`.  The product is the exact one: it fits in an `int` in every
pass of a transfer of `data_len <= INT_MAX` words, the transfers for which the
kernel has a result. -/
def word_index (address : Int) (j i : Nat) : Int :=
  toULong (address + INPUT_BUF_LEN * (j : Int) + (i : Int))

/-- The loop `read_memory` of `read_input` (lines 64 to 67). -/
def read_memory (mem : Int → Nat) (address : Int) (j elem : Nat) (buffer : Nat → Nat) :
    Nat → Nat :=
  (List.range elem).foldl
    (fun (b : Nat → Nat) (i : Nat) => Function.update b i (mem (word_index address j i))) buffer

/-- The loop `write_stream` of `read_input` (lines 69 to 72). -/
def write_stream (buffer : Nat → Nat) (elem : Nat) (elemStream : List Nat) : List Nat :=
  (List.range elem).foldl (fun (s : List Nat) (i : Nat) => stream_write s (buffer i)) elemStream

/-- Function `read_input` (lines 35 to 79); `buffer` is the static array of the
function.  The result is the stream and the buffer. -/
def read_input (mem : Int → Nat) (address : Int) (data_len : Nat) (elemStream : List Nat)
    (buffer : Nat → Nat) : List Nat × (Nat → Nat) :=
  (List.range (buffer_rounds data_len)).foldl
    (fun (st : List Nat × (Nat → Nat)) (j : Nat) =>
      let elem := round_elem data_len j
      let buffer := read_memory mem address j elem st.2
      (write_stream buffer elem st.1, buffer))
    (elemStream, buffer)

/-- Function `dummy_compute` (lines 83 to 108): `data_len` words are moved from
`elemStream` to `resultStream`.  The counter of `for (int elem=0; elem<data_len;
elem++)` is an `int`: for `data_len` above `INT_MAX` the increment overflows, which
C leaves undefined, and the function has no result.  The result is the two
streams. -/
def dummy_compute (elemStream : List Nat) (data_len : Nat) (resultStream : List Nat) :
    Option (List Nat × List Nat) :=
  if data_len ≤ 2147483647 then
    some ((List.range data_len).foldl
      (fun (st : List Nat × List Nat) (_ : Nat) =>
        let r := stream_read st.1
        (r.2, stream_write st.2 r.1))
      (elemStream, resultStream))
  else none

/-- The loop `read_stream` of `write_output` (lines 204 to 207). -/
def read_stream (elem : Nat) (st : List Nat × (Nat → Nat)) : List Nat × (Nat → Nat) :=
  (List.range elem).foldl
    (fun (st : List Nat × (Nat → Nat)) (i : Nat) =>
      let r := stream_read st.1
      (r.2, Function.update st.2 i r.1))
    st

/-- The loop `write_memory` of `write_output` (lines 210 to 213). -/
def write_memory (buffer : Nat → Nat) (address : Int) (j elem : Nat) (mem : Int → Nat) :
    Int → Nat :=
  (List.range elem).foldl
    (fun (m : Int → Nat) (i : Nat) => Function.update m (word_index address j i) (buffer i)) mem

/-- Function `write_output` (lines 172 to 220); `buffer` is the static array of
the function.  The result is the memory behind `out`, the stream and the
buffer. -/
def write_output (resultStream : List Nat) (mem : Int → Nat) (address : Int) (data_len : Nat)
    (buffer : Nat → Nat) : (Int → Nat) × List Nat × (Nat → Nat) :=
  (List.range (buffer_rounds data_len)).foldl
    (fun (st : (Int → Nat) × List Nat × (Nat → Nat)) (j : Nat) =>
      let elem := round_elem data_len j
      let sb := read_stream elem st.2
      (write_memory sb.2 address j elem st.1, sb))
    (mem, resultStream, buffer)

/-- Function `flow_in_compute_out` (lines 224 to 250) with the pass-through
compute core `dummy_compute` (`DUMMY_COMPUTE_VADD1` is not defined); the two
streams are empty on entry.  `in_buffer` and `out_buffer` are the static arrays
of `read_input` and `write_output`.  The result is the memory behind `out`;
there is none when `dummy_compute` has no result. -/
def flow_in_compute_out (mem_in mem_out : Int → Nat) (mem_in_address mem_out_address : Int)
    (data_len : Nat) (in_buffer out_buffer : Nat → Nat) : Option (Int → Nat) :=
  let elemStream : List Nat := []
  let resultStream : List Nat := []
  let r := read_input mem_in mem_in_address data_len elemStream in_buffer
  match dummy_compute r.1 data_len resultStream with
  | none => none
  | some c => some (write_output c.2 mem_out mem_out_address data_len out_buffer).1

/-- Function `hls_sdaccel_kernel_iostreams_hls` (lines 254 to 278): the memory
behind `mem_out` after the call.  `mem_in_address` and `mem_out_address` are
`unsigned long long` and `data_len` is an `unsigned int`. -/
def hls_sdaccel_kernel_iostreams_hls (mem_in mem_out : Int → Nat)
    (mem_in_address mem_out_address : Int) (data_len : Nat) (in_buffer out_buffer : Nat → Nat) :
    Option (Int → Nat) :=
  flow_in_compute_out mem_in mem_out mem_in_address mem_out_address data_len in_buffer
    out_buffer

/-! ## bicgstab_utils.cpp: bicgstab_unit_states -/

/-- Function `bicgstab_unit_states` (lines 31 to 88): the string that is copied to
`state_str` for the code `state` of unit `unit`.  For unit 5 the seven
characters show the bits 6..0 of `state`, bit `i` at position `6 - i`. -/
def bicgstab_unit_states (unit state : Nat) : String :=
  match unit with
  | 0 =>
    match state with
    | 0 => "idle"
    | 1 => "init_read"
    | 2 => "read_x"
    | 3 => "SpMV"
    | 4 => "wait_write"
    | 5 => "ILU0_L_fs"
    | 6 => "ILU0_U_bs"
    | 7 => "calc_p"
    | 8 => "dot1"
    | 9 => "dot2"
    | 10 => "axpy1"
    | 11 => "axpy2"
    | 12 => "wait_debug"
    | _ => "*UNKNOWN*"
  | 1 | 2 =>
    match state with
    | 0 => "idle"
    | 1 => "dot"
    | 2 => "axpy"
    | _ => "*UNKNOWN*"
  | 3 =>
    match state with
    | 0 => "idle"
    | 1 => "wait_sizes_read"
    | 2 => "wait_first_vec_read"
    | 3 => "wait_transfer"
    | 4 => "wait_P_vector_read"
    | 5 => "running"
    | 6 => "init_U"
    | 7 => "finished"
    | _ => "*UNKNOWN*"
  | 4 =>
    match state with
    | 1 => "fwd_subst"
    | 2 => "bck_subst"
    | 3 => "SpMV"
    | _ => "*UNKNOWN*"
  | 5 =>
    String.mk ((List.range 7).map (fun (p : Nat) =>
      if state &&& (1 <<< (6 - p)) ≠ 0 then 'x' else '.'))
  | _ => "*UNKNOWN_UNIT*"

/-- The codes below `2 ^ bits` that `bicgstab_unit_states` names for a unit: the
codes whose string is not `*UNKNOWN*`. -/
def namedStates (unit bits : Nat) : List Nat :=
  (List.range (2 ^ bits)).filter (fun state => bicgstab_unit_states unit state ≠ "*UNKNOWN*")

/-! ## bda_utils.hpp: union double2int

A `double` is an IEEE-754 binary64 value, given by the fields of its encoding; the
code moves doubles and never computes with them.  The members of the union
share 8 bytes; on the little-endian host byte `i` holds the bits `8 i .. 8 i + 7`
of the 64-bit content. -/

/-- A `double`: the sign bit, the 11 exponent bits and the 52 fraction bits of its
IEEE-754 binary64 encoding. -/
structure binary64 where
  sign : Nat
  exponent : Nat
  fraction : Nat
  deriving DecidableEq, Repr

/-- The fields of a double are within their widths. -/
def binary64.valid (d : binary64) : Prop :=
  d.sign < 2 ∧ d.exponent < 2 ^ 11 ∧ d.fraction < 2 ^ 52

/-- The 64-bit pattern of a double: bit 63 is the sign, the bits 52..62 are the
exponent and the bits 0..51 the fraction. -/
def binary64.bits (d : binary64) : Nat :=
  d.sign % 2 * 2 ^ 63 + d.exponent % 2 ^ 11 * 2 ^ 52 + d.fraction % 2 ^ 52

/-- The double that a 64-bit pattern encodes. -/
def binary64.ofBits (p : Nat) : binary64 :=
  { sign := p / 2 ^ 63 % 2, exponent := p / 2 ^ 52 % 2 ^ 11, fraction := p % 2 ^ 52 }

/-- The eight bytes of an object with the 64-bit content `v`, in the order of
their addresses. -/
def bytesOf (v : Nat) : List Nat :=
  [ v % 256, v / 2 ^ 8 % 256, v / 2 ^ 16 % 256, v / 2 ^ 24 % 256, v / 2 ^ 32 % 256,
    v / 2 ^ 40 % 256, v / 2 ^ 48 % 256, v / 2 ^ 56 % 256 ]

/-- The 64-bit content of eight bytes. -/
def contentOf (bytes : List Nat) : Nat :=
  bytes.getD 0 0 + bytes.getD 1 0 * 2 ^ 8 + bytes.getD 2 0 * 2 ^ 16 + bytes.getD 3 0 * 2 ^ 24 +
    bytes.getD 4 0 * 2 ^ 32 + bytes.getD 5 0 * 2 ^ 40 + bytes.getD 6 0 * 2 ^ 48 +
    bytes.getD 7 0 * 2 ^ 56

/-- The union `double2int`: the members `int_val` (an `unsigned long`) and
`double_val` (a `double`) share the 8 bytes `storage`. -/
structure double2int where
  storage : List Nat
  deriving DecidableEq, Repr

/-- The assignment `conv.int_val = v`. -/
def double2int.set_int_val (v : Nat) : double2int := { storage := bytesOf v }

/-- The assignment `conv.double_val = d`. -/
def double2int.set_double_val (d : binary64) : double2int := { storage := bytesOf d.bits }

/-- The expression `conv.int_val`: the 8 bytes read as an `unsigned long`. -/
def double2int.int_val (conv : double2int) : Nat := contentOf conv.storage

/-- The expression `conv.double_val`: the 8 bytes read as a `double`. -/
def double2int.double_val (conv : double2int) : binary64 :=
  binary64.ofBits (contentOf conv.storage)

/-- Lines 229 to 240 of `decode_debuginfo_bicgstab`: the array `cur_norms` of
line `l`, each word converted through `conv.int_val = val; conv.double_val`. -/
def cur_norms (debugBuffer : Nat → Nat) (cacheline_dbl_words l : Nat) : List binary64 :=
  [ (double2int.set_int_val (debugBuffer (4 + l * cacheline_dbl_words))).double_val,
    (double2int.set_int_val (debugBuffer (5 + l * cacheline_dbl_words))).double_val,
    (double2int.set_int_val (debugBuffer (6 + l * cacheline_dbl_words))).double_val,
    (double2int.set_int_val (debugBuffer (7 + l * cacheline_dbl_words))).double_val ]

/-- Every word of the buffer is an `unsigned long`. -/
def wordsFit (debugBuffer : Nat → Nat) : Prop := ∀ i, debugBuffer i < 2 ^ 64

/-! ## fpga_functions_bicgstab.cpp: the scalar parameters of the kernel -/

/-- Lines 1254 to 1268 of `fpga_set_kernel_parameters`: the array `clparam` of the
three scalar parameters of a solve.  The four `unsigned int` arguments are
converted to `unsigned long`; `kernel_precision` is the double with the given
pattern. -/
def fpga_set_kernel_parameters (abort_cycles debug_lines kernel_iter debug_sample_rate
    kernel_precision : Nat) : List Nat :=
  [ abort_cycles % 2 ^ 64,
    (((debug_lines &&& 0xFFFF) <<< 32) ||| ((debug_sample_rate &&& 0xFFFF) <<< 16) |||
      (kernel_iter &&& 0xFFFF)) % 2 ^ 64,
    (double2int.set_double_val (binary64.ofBits kernel_precision)).int_val ]

/-- Lines 1375 to 1378 of `fpga_kernel_query`: the array `clparam` of the three
scalar parameters of a configuration query; the sum is taken in `unsigned long`. -/
def fpga_kernel_query (rst_assert_cycles rst_settle_cycles : Nat) : List Nat :=
  [ 0, ((1 <<< 48) + (rst_settle_cycles <<< 16) + rst_assert_cycles) % 2 ^ 64, 0 ]

/-! ## fpga_functions_bicgstab.cpp: the writes of fpga_copy_host_datamem -/

/-- The arguments of `fpga_copy_host_datamem` that decide how much is written. -/
structure CopyArgs where
  vectorSizes : Nat → Int
  nnzValArrays_sizes : Nat → Int
  L_nnzValArrays_sizes : Nat → Int
  U_nnzValArrays_sizes : Nat → Int
  use_LU_res : Bool
  fill_results_buffers : Bool

/-- The size argument `sizeof(T) * count` of a `memcpy` or `memset`: the `int`
count is converted to `size_t` and the product is taken in `size_t`. -/
def sizeArg (size count : Int) : Int := toULong (size * toULong count)

/-- The number of bytes from the start of an array that the loop of lines 572 to
592 writes: the elements `d = 0 .. roundUpTo(rowSize, 8) - 1` of 8 bytes. -/
def fillBytes (rowSize : Int) : Int := 8 * max 0 (roundUpTo rowSize 8 (by decide))

/-- The writes of `fpga_copy_host_datamem` to the arrays of the data buffers, in
the order of the source: the bank and the entry of `dbufpos` of the array that
the pointer refers to (lines 333 to 364 of `fpga_setup_host_datamem`) and the
number of bytes that are written from the start of the array.  The setup array
is written up to word 16. -/
def copy_writes (c : CopyArgs) : List (Nat × Nat × Int) :=
  let rowSize := c.vectorSizes 0
  let columnSize := c.vectorSizes 3
  let valSize := c.vectorSizes 1
  let numColors := c.vectorSizes 2
  let newrowSize := c.vectorSizes 4
  let blkdiagSize := c.vectorSizes 5
  let L_columnSize := c.vectorSizes 9
  let L_valSize := c.vectorSizes 7
  let L_numColors := c.vectorSizes 8
  let L_newrowSize := c.vectorSizes 10
  let U_columnSize := c.vectorSizes 15
  let U_valSize := c.vectorSizes 13
  let U_numColors := c.vectorSizes 14
  let U_newrowSize := c.vectorSizes 16
  (if c.fill_results_buffers then
      [(2, 0, fillBytes rowSize), (3, 1, fillBytes rowSize)] ++
        (if c.use_LU_res then [(4, 2, fillBytes rowSize), (4, 3, fillBytes rowSize)] else [])
    else []) ++
  [ (0, 0, 8 * 17),
    (0, 4, toULong (toULong (4 * 4) * toULong numColors)),
    (0, 5, toULong (toULong (4 * 4) * toULong L_numColors)),
    (0, 6, toULong (toULong (4 * 4) * toULong U_numColors)),
    (1, 0, sizeArg 4 columnSize),
    (1, 1, sizeArg 4 L_columnSize),
    (1, 2, sizeArg 4 U_columnSize),
    (0, 1, sizeArg 8 (c.nnzValArrays_sizes 0)),
    (0, 2, sizeArg 8 (c.L_nnzValArrays_sizes 0)),
    (0, 3, sizeArg 8 (c.U_nnzValArrays_sizes 0)),
    (1, 3, sizeArg 2 valSize),
    (1, 4, sizeArg 2 L_valSize),
    (1, 5, sizeArg 2 U_valSize),
    (1, 6, sizeArg 1 newrowSize),
    (1, 7, sizeArg 1 L_newrowSize),
    (1, 8, sizeArg 1 U_newrowSize),
    (2, 1, sizeArg 8 rowSize),
    (3, 1, sizeArg 8 rowSize),
    (3, 0, sizeArg 8 rowSize),
    (2, 0, sizeArg 8 rowSize),
    (0, 7, sizeArg 8 blkdiagSize) ]

/-- The element counts of a solve are not negative and not above the counts that
`fpga_setup_host_datamem` was given. -/
def CountsWithin (c : CopyArgs) (a : DatamemArgs) : Prop :=
  (∀ i, i < 18 → 0 ≤ c.vectorSizes i ∧ c.vectorSizes i ≤ a.processedSizes i) ∧
  (0 ≤ c.nnzValArrays_sizes 0 ∧ c.nnzValArrays_sizes 0 ≤ a.nnzValArrays_sizes 0) ∧
  (0 ≤ c.L_nnzValArrays_sizes 0 ∧ c.L_nnzValArrays_sizes 0 ≤ a.L_nnzValArrays_sizes 0) ∧
  (0 ≤ c.U_nnzValArrays_sizes 0 ∧ c.U_nnzValArrays_sizes 0 ≤ a.U_nnzValArrays_sizes 0)

/-- The arguments of a solve with the counts that the setup was given. -/
def copyArgsOf (a : DatamemArgs) : CopyArgs :=
  { vectorSizes := a.processedSizes
    nnzValArrays_sizes := a.nnzValArrays_sizes
    L_nnzValArrays_sizes := a.L_nnzValArrays_sizes
    U_nnzValArrays_sizes := a.U_nnzValArrays_sizes
    use_LU_res := true
    fill_results_buffers := true }

/-! ## A debug buffer without a fresh sample -/

theorem toInt_of_range {x : Int} (h0 : -2147483648 ≤ x) (h1 : x ≤ 2147483647) :
    toInt x = x := by
  unfold toInt; omega

theorem toUInt_of_range {x : Int} (h0 : 0 ≤ x) (h1 : x < 4294967296) : toUInt x = x := by
  unfold toUInt; omega

/-- On non-negative arguments the body of `roundUpTo` is, before the reduction to
32 bits, the least multiple of `n` that is not below `i`. -/
theorem roundUpTo_exact {i n : Int} (hi : 0 ≤ i) (hn : 0 < n) :
    ∃ r : Int, (roundUpTo i n (ne_of_gt hn) = if i % n = 0 then i else toInt r) ∧
      i ≤ r ∧ n ∣ r ∧ (i % n ≠ 0 → r - i < n) ∧
      (∀ m : Int, n ∣ m → i ≤ m → i % n ≠ 0 → r ≤ m) := by
  refine ⟨(i / n + 1) * n, ?_, ?_, ?_, ?_, ?_⟩
  · unfold roundUpTo
    rw [Int.tmod_eq_emod hi (le_of_lt hn), Int.tdiv_eq_ediv hi (le_of_lt hn)]
  · have h1 := Int.emod_add_ediv i n
    have h2 := Int.emod_lt_of_pos i hn
    nlinarith
  · exact Dvd.intro_left _ rfl
  · intro hne
    have h1 := Int.emod_add_ediv i n
    have h2 := Int.emod_nonneg i (ne_of_gt hn)
    have h3 : 0 < i % n := lt_of_le_of_ne h2 (Ne.symm hne)
    nlinarith
  · rintro m ⟨k, rfl⟩ him hne
    have h1 := Int.emod_add_ediv i n
    have h2 := Int.emod_lt_of_pos i hn
    have h3 := Int.emod_nonneg i (ne_of_gt hn)
    have hk : i / n < k := by
      by_contra hcon
      have : k ≤ i / n := not_lt.mp hcon
      have : n * k ≤ n * (i / n) := Int.mul_le_mul_of_nonneg_left this (le_of_lt hn)
      have : i % n = 0 := by omega
      exact hne this
    have : n * (i / n + 1) ≤ n * k := Int.mul_le_mul_of_nonneg_left (by omega) (le_of_lt hn)
    nlinarith

/-! ## Lemmas on the layout -/

theorem roundUpTo_dvd {w n : Int} (hwn : widthUnit w n) (c : Int) (hn : n ≠ 0) :
    n ∣ roundUpTo c n hn := by
  unfold roundUpTo
  split
  · next h => exact Int.dvd_of_tmod_eq_zero h
  · unfold toInt
    generalize c.tdiv n = q
    rcases hwn with ⟨-, rfl⟩ | ⟨-, rfl⟩ | ⟨-, rfl⟩ | ⟨-, rfl⟩ <;> omega

theorem sizeofTimes_dvd {w n : Int} (hwn : widthUnit w n) (c : Int) (hn : n ≠ 0) :
    64 ∣ sizeofTimes w (roundUpTo c n hn) := by
  obtain ⟨k, hk⟩ := roundUpTo_dvd hwn c hn
  rw [hk]
  unfold sizeofTimes toInt toULong
  rcases hwn with ⟨rfl, rfl⟩ | ⟨rfl, rfl⟩ | ⟨rfl, rfl⟩ | ⟨rfl, rfl⟩ <;> omega

theorem arrayLen_dvd (a : DatamemArgs) (b k : Nat) : 64 ∣ arrayLen (array_lens a) b k := by
  have h8 : widthUnit 8 (CACHELINE_BYTES / 8) := Or.inl ⟨rfl, by decide⟩
  have h4 : widthUnit 4 (CACHELINE_BYTES / 4) := Or.inr (Or.inl ⟨rfl, by decide⟩)
  have h2 : widthUnit 2 (CACHELINE_BYTES / 2) := Or.inr (Or.inr (Or.inl ⟨rfl, by decide⟩))
  have h1 : widthUnit 1 (CACHELINE_BYTES / 1) := Or.inr (Or.inr (Or.inr ⟨rfl, by decide⟩))
  by_cases hb : b < 5
  · by_cases hk : k < 9
    · interval_cases b <;> interval_cases k <;>
        simp only [arrayLen, bankLens, array_lens, List.getD_cons_zero, List.getD_cons_succ,
          List.getD_nil] <;> first
        | with_reducible exact dvd_zero _
        | with_reducible exact sizeofTimes_dvd h8 _ _
        | with_reducible exact sizeofTimes_dvd h4 _ _
        | with_reducible exact sizeofTimes_dvd h2 _ _
        | with_reducible exact sizeofTimes_dvd h1 _ _
        | decide
    · have h0 : arrayLen (array_lens a) b k = 0 := by
        unfold arrayLen
        apply List.getD_eq_default
        interval_cases b <;> simp [bankLens] <;> omega
      rw [h0]; exact dvd_zero _
  · have h0 : arrayLen (array_lens a) b k = 0 := by
      unfold arrayLen
      rw [List.getD_eq_default (bankLens (array_lens a)) [] (by simp [bankLens]; omega)]
      rfl
    rw [h0]; exact dvd_zero _

theorem dbufposAt_dvd (l : ArrayLens) (hl : LensAligned l) (b k : Nat) :
    64 ∣ dbufposAt l b k := by
  have a00 : 64 ∣ l.len_setup := hl 0 0
  have a01 : 64 ∣ l.len_nzval := hl 0 1
  have a02 : 64 ∣ l.len_L_nzval := hl 0 2
  have a03 : 64 ∣ l.len_U_nzval := hl 0 3
  have a04 : 64 ∣ l.len_color_sizes := hl 0 4
  have a05 : 64 ∣ l.len_L_color_sizes := hl 0 5
  have a06 : 64 ∣ l.len_U_color_sizes := hl 0 6
  have a07 : 64 ∣ l.len_blkd_vector := hl 0 7
  have a10 : 64 ∣ l.len_p_index := hl 1 0
  have a11 : 64 ∣ l.len_L_p_index := hl 1 1
  have a12 : 64 ∣ l.len_U_p_index := hl 1 2
  have a13 : 64 ∣ l.len_col_index := hl 1 3
  have a14 : 64 ∣ l.len_L_col_index := hl 1 4
  have a15 : 64 ∣ l.len_U_col_index := hl 1 5
  have a16 : 64 ∣ l.len_newrow_offset := hl 1 6
  have a17 : 64 ∣ l.len_L_newrow_offset := hl 1 7
  have a18 : 64 ∣ l.len_U_newrow_offset := hl 1 8
  have a20 : 64 ∣ l.len_x2_vector := hl 2 0
  have a21 : 64 ∣ l.len_r1_vector := hl 2 1
  have a30 : 64 ∣ l.len_x1_vector := hl 3 0
  have a31 : 64 ∣ l.len_r2_vector := hl 3 1
  have a32 : 64 ∣ l.len_p1_vector := hl 3 2
  have a33 : 64 ∣ l.len_p2_vector := hl 3 3
  have a34 : 64 ∣ l.len_rt_vector := hl 3 4
  have a40 : 64 ∣ l.len_t_vector := hl 4 0
  have a41 : 64 ∣ l.len_v_vector := hl 4 1
  have a42 : 64 ∣ l.len_L_res_vector := hl 4 2
  have a43 : 64 ∣ l.len_U_res_vector := hl 4 3
  by_cases hb : b < 5
  · by_cases hk : k < 20
    · interval_cases b <;> interval_cases k <;>
        simp only [dbufposAt, dbufpos, toUInt, List.getD_cons_zero, List.getD_cons_succ,
          List.cons_append, List.nil_append, List.replicate, List.getD_nil] <;> omega
    · have h0 : dbufposAt l b k = 0 := by
        unfold dbufposAt
        apply List.getD_eq_default
        interval_cases b <;> simp [dbufpos] <;> omega
      rw [h0]; exact dvd_zero _
  · have h0 : dbufposAt l b k = 0 := by
      unfold dbufposAt
      rw [List.getD_eq_default (dbufpos l) [] (by simp [dbufpos]; omega)]
      rfl
    rw [h0]; exact dvd_zero _

theorem roundUpTo_nonneg_eq {w n : Int} (hwn : widthUnit w n) (c : Int) (hn : n ≠ 0)
    (h : fitsInt w c) : roundUpTo c n hn = (c + n - 1) / n * n := by
  obtain ⟨h0, h1⟩ := h
  unfold roundUpTo
  have hn0 : 0 ≤ n := by rcases hwn with ⟨-, rfl⟩ | ⟨-, rfl⟩ | ⟨-, rfl⟩ | ⟨-, rfl⟩ <;> omega
  rw [Int.tmod_eq_emod h0 hn0, Int.tdiv_eq_ediv h0 hn0]
  unfold toInt
  rcases hwn with ⟨rfl, rfl⟩ | ⟨rfl, rfl⟩ | ⟨rfl, rfl⟩ | ⟨rfl, rfl⟩ <;> split <;> omega

theorem sizeofTimes_exact {w n : Int} (hwn : widthUnit w n) (c : Int) (hn : n ≠ 0)
    (h : fitsInt w c) :
    sizeofTimes w (roundUpTo c n hn) = w * roundUpTo c n hn ∧
      w * c ≤ sizeofTimes w (roundUpTo c n hn) ∧
      sizeofTimes w (roundUpTo c n hn) < w * c + 64 := by
  rw [roundUpTo_nonneg_eq hwn c hn h]
  obtain ⟨h0, h1⟩ := h
  unfold sizeofTimes toInt toULong
  rcases hwn with ⟨rfl, rfl⟩ | ⟨rfl, rfl⟩ | ⟨rfl, rfl⟩ | ⟨rfl, rfl⟩ <;> omega

theorem sizeofTimes_nonneg {w n : Int} (hwn : widthUnit w n) (c : Int) (hn : n ≠ 0)
    (h : fitsInt w c) : 0 ≤ sizeofTimes w (roundUpTo c n hn) := by
  have h1 := (sizeofTimes_exact hwn c hn h).2.1
  have h2 : 0 ≤ w * c := by
    obtain ⟨h0, -⟩ := h
    rcases hwn with ⟨rfl, -⟩ | ⟨rfl, -⟩ | ⟨rfl, -⟩ | ⟨rfl, -⟩ <;> omega
  omega

theorem fitsInt_colors {c : Int} (h : fitsInt 16 c) : toInt (4 * c) = 4 * c ∧ fitsInt 4 (4 * c) := by
  obtain ⟨h0, h1⟩ := h
  unfold toInt fitsInt
  omega

theorem arrayLen_nonneg (a : DatamemArgs) (hs : SizesFit a) (b k : Nat) :
    0 ≤ arrayLen (array_lens a) b k := by
  have h8 : widthUnit 8 (CACHELINE_BYTES / 8) := Or.inl ⟨rfl, by decide⟩
  have h4 : widthUnit 4 (CACHELINE_BYTES / 4) := Or.inr (Or.inl ⟨rfl, by decide⟩)
  have h2 : widthUnit 2 (CACHELINE_BYTES / 2) := Or.inr (Or.inr (Or.inl ⟨rfl, by decide⟩))
  have h1 : widthUnit 1 (CACHELINE_BYTES / 1) := Or.inr (Or.inr (Or.inr ⟨rfl, by decide⟩))
  obtain ⟨s0, s1, s2, s3, s4, s5, s7, s8, s9, s10, s13, s14, s15, s16, n0, n1, n2⟩ := hs
  have c2 := fitsInt_colors s2
  have c8 := fitsInt_colors s8
  have c14 := fitsInt_colors s14
  by_cases hb : b < 5
  · by_cases hk : k < 9
    · interval_cases b <;> interval_cases k <;>
        simp only [arrayLen, bankLens, array_lens, List.getD_cons_zero, List.getD_cons_succ,
          List.getD_nil, c2.1, c8.1, c14.1] <;> first
        | with_reducible exact le_refl _
        | with_reducible exact sizeofTimes_nonneg h8 _ _ (by assumption)
        | with_reducible exact sizeofTimes_nonneg h4 _ _ (by first | assumption | exact c2.2 | exact c8.2 | exact c14.2)
        | with_reducible exact sizeofTimes_nonneg h2 _ _ (by assumption)
        | with_reducible exact sizeofTimes_nonneg h1 _ _ (by assumption)
        | decide
    · have h0 : arrayLen (array_lens a) b k = 0 := by
        unfold arrayLen
        apply List.getD_eq_default
        interval_cases b <;> simp [bankLens] <;> omega
      rw [h0]
  · have h0 : arrayLen (array_lens a) b k = 0 := by
      unfold arrayLen
      rw [List.getD_eq_default (bankLens (array_lens a)) [] (by simp [bankLens]; omega)]
      rfl
    rw [h0]

/-- Without overflow every position is the position of the previous array plus
the size of that array. -/
theorem dbufposAt_succ (l : ArrayLens) (hpos : ∀ b k, 0 ≤ arrayLen l b k) (hfit : BanksFit l)
    (b k : Nat) (hb : b < 5) (hk : k < bankArrays b) :
    0 ≤ dbufposAt l b k ∧ dbufposAt l b (k + 1) = dbufposAt l b k + arrayLen l b k ∧
      dbufposAt l b (k + 1) ≤ bankSum l b := by
  have a00 : 0 ≤ l.len_setup := hpos 0 0
  have a01 : 0 ≤ l.len_nzval := hpos 0 1
  have a02 : 0 ≤ l.len_L_nzval := hpos 0 2
  have a03 : 0 ≤ l.len_U_nzval := hpos 0 3
  have a04 : 0 ≤ l.len_color_sizes := hpos 0 4
  have a05 : 0 ≤ l.len_L_color_sizes := hpos 0 5
  have a06 : 0 ≤ l.len_U_color_sizes := hpos 0 6
  have a07 : 0 ≤ l.len_blkd_vector := hpos 0 7
  have a10 : 0 ≤ l.len_p_index := hpos 1 0
  have a11 : 0 ≤ l.len_L_p_index := hpos 1 1
  have a12 : 0 ≤ l.len_U_p_index := hpos 1 2
  have a13 : 0 ≤ l.len_col_index := hpos 1 3
  have a14 : 0 ≤ l.len_L_col_index := hpos 1 4
  have a15 : 0 ≤ l.len_U_col_index := hpos 1 5
  have a16 : 0 ≤ l.len_newrow_offset := hpos 1 6
  have a17 : 0 ≤ l.len_L_newrow_offset := hpos 1 7
  have a18 : 0 ≤ l.len_U_newrow_offset := hpos 1 8
  have a20 : 0 ≤ l.len_x2_vector := hpos 2 0
  have a21 : 0 ≤ l.len_r1_vector := hpos 2 1
  have a30 : 0 ≤ l.len_x1_vector := hpos 3 0
  have a31 : 0 ≤ l.len_r2_vector := hpos 3 1
  have a32 : 0 ≤ l.len_p1_vector := hpos 3 2
  have a33 : 0 ≤ l.len_p2_vector := hpos 3 3
  have a34 : 0 ≤ l.len_rt_vector := hpos 3 4
  have a40 : 0 ≤ l.len_t_vector := hpos 4 0
  have a41 : 0 ≤ l.len_v_vector := hpos 4 1
  have a42 : 0 ≤ l.len_L_res_vector := hpos 4 2
  have a43 : 0 ≤ l.len_U_res_vector := hpos 4 3
  have f0 := hfit 0 (by decide)
  have f1 := hfit 1 (by decide)
  have f2 := hfit 2 (by decide)
  have f3 := hfit 3 (by decide)
  have f4 := hfit 4 (by decide)
  simp only [bankSum, bankLens, List.getD_cons_zero, List.getD_cons_succ, List.sum_cons,
    List.sum_nil] at f0 f1 f2 f3 f4
  interval_cases b <;> simp only [bankArrays, List.getD_cons_zero, List.getD_cons_succ] at hk <;>
    interval_cases k <;>
    simp only [dbufposAt, dbufpos, arrayLen, bankLens, bankSum, toUInt, List.getD_cons_zero,
      List.getD_cons_succ, List.cons_append, List.nil_append, List.replicate, List.getD_nil,
      List.sum_cons, List.sum_nil] <;> omega

/-- Without overflow the entry after the last array of a bank is the sum of the
sizes of the arrays of the bank. -/
theorem dbufposAt_total (l : ArrayLens) (hpos : ∀ b k, 0 ≤ arrayLen l b k) (hfit : BanksFit l)
    (b : Nat) (hb : b < 5) : dbufposAt l b (bankArrays b) = bankSum l b := by
  have a00 : 0 ≤ l.len_setup := hpos 0 0
  have a01 : 0 ≤ l.len_nzval := hpos 0 1
  have a02 : 0 ≤ l.len_L_nzval := hpos 0 2
  have a03 : 0 ≤ l.len_U_nzval := hpos 0 3
  have a04 : 0 ≤ l.len_color_sizes := hpos 0 4
  have a05 : 0 ≤ l.len_L_color_sizes := hpos 0 5
  have a06 : 0 ≤ l.len_U_color_sizes := hpos 0 6
  have a07 : 0 ≤ l.len_blkd_vector := hpos 0 7
  have a10 : 0 ≤ l.len_p_index := hpos 1 0
  have a11 : 0 ≤ l.len_L_p_index := hpos 1 1
  have a12 : 0 ≤ l.len_U_p_index := hpos 1 2
  have a13 : 0 ≤ l.len_col_index := hpos 1 3
  have a14 : 0 ≤ l.len_L_col_index := hpos 1 4
  have a15 : 0 ≤ l.len_U_col_index := hpos 1 5
  have a16 : 0 ≤ l.len_newrow_offset := hpos 1 6
  have a17 : 0 ≤ l.len_L_newrow_offset := hpos 1 7
  have a18 : 0 ≤ l.len_U_newrow_offset := hpos 1 8
  have a20 : 0 ≤ l.len_x2_vector := hpos 2 0
  have a21 : 0 ≤ l.len_r1_vector := hpos 2 1
  have a30 : 0 ≤ l.len_x1_vector := hpos 3 0
  have a31 : 0 ≤ l.len_r2_vector := hpos 3 1
  have a32 : 0 ≤ l.len_p1_vector := hpos 3 2
  have a33 : 0 ≤ l.len_p2_vector := hpos 3 3
  have a34 : 0 ≤ l.len_rt_vector := hpos 3 4
  have a40 : 0 ≤ l.len_t_vector := hpos 4 0
  have a41 : 0 ≤ l.len_v_vector := hpos 4 1
  have a42 : 0 ≤ l.len_L_res_vector := hpos 4 2
  have a43 : 0 ≤ l.len_U_res_vector := hpos 4 3
  have f0 := hfit 0 (by decide)
  have f1 := hfit 1 (by decide)
  have f2 := hfit 2 (by decide)
  have f3 := hfit 3 (by decide)
  have f4 := hfit 4 (by decide)
  simp only [bankSum, bankLens, List.getD_cons_zero, List.getD_cons_succ, List.sum_cons,
    List.sum_nil] at f0 f1 f2 f3 f4
  interval_cases b <;>
    simp only [dbufposAt, dbufpos, bankArrays, bankSum, bankLens, toUInt, List.getD_cons_zero,
      List.getD_cons_succ, List.cons_append, List.nil_append, List.replicate, List.getD_nil,
      List.sum_cons, List.sum_nil] <;> omega

theorem totalSize_getD (l : ArrayLens) (b : Nat) (hb : b < 5) :
    (totalSize l).getD b 0 = dbufposAt l b (bankArrays b) := by
  interval_cases b <;> rfl

theorem setupArray_fill_eq (a : DatamemArgs) (l : ArrayLens) :
    setupArray_fill a l =
      [ sizePair (a.processedSizes 1) (a.processedSizes 0),
        sizePair a.config_bits (a.processedSizes 2),
        dbufposAt l 2 1 / CACHELINE_BYTES, dbufposAt l 3 1 / CACHELINE_BYTES,
        dbufposAt l 3 0 / CACHELINE_BYTES, dbufposAt l 2 0 / CACHELINE_BYTES,
        dbufposAt l 3 2 / CACHELINE_BYTES, dbufposAt l 3 3 / CACHELINE_BYTES,
        sizePair (a.processedSizes 7) (a.processedSizes 6),
        toULong (a.processedSizes 8),
        dbufposAt l 0 4 / CACHELINE_BYTES, dbufposAt l 1 0 / CACHELINE_BYTES,
        dbufposAt l 0 1 / CACHELINE_BYTES, dbufposAt l 1 3 / CACHELINE_BYTES,
        dbufposAt l 1 6 / CACHELINE_BYTES, dbufposAt l 3 4 / CACHELINE_BYTES,
        sizePair (a.processedSizes 13) (a.processedSizes 12),
        toULong (a.processedSizes 14),
        dbufposAt l 0 5 / CACHELINE_BYTES, dbufposAt l 1 1 / CACHELINE_BYTES,
        dbufposAt l 0 2 / CACHELINE_BYTES, dbufposAt l 1 4 / CACHELINE_BYTES,
        dbufposAt l 1 7 / CACHELINE_BYTES, dbufposAt l 0 7 / CACHELINE_BYTES,
        dbufposAt l 0 6 / CACHELINE_BYTES, dbufposAt l 1 2 / CACHELINE_BYTES,
        dbufposAt l 0 3 / CACHELINE_BYTES, dbufposAt l 1 5 / CACHELINE_BYTES,
        dbufposAt l 1 8 / CACHELINE_BYTES, dbufposAt l 4 0 / CACHELINE_BYTES,
        dbufposAt l 4 1 / CACHELINE_BYTES ] ++ List.replicate 9 SETUP_UNUSED := by
  have h40 : (SETUP_LINES * CACHELINE_DBL_WORDS).toNat = 40 := by decide
  simp only [setupArray_fill, h40, List.replicate, List.set_cons_zero, List.set_cons_succ,
    List.cons_append, List.nil_append]


/-! ## Lemmas on the decoder -/

/-- The decoder is the loop after `(int)debug_outbuf_words` iterations. -/
theorem decode_eq_loop (buf : Nat → Nat) (N cdw : Nat) (norms : List Nat) (idx : Nat) :
    decode_debuginfo_bicgstab buf N cdw norms idx =
      decode_upto buf N cdw norms idx (toInt (N : Int)).toNat := rfl

/-- A line count up to `INT_MAX` is kept by the cast to `int`. -/
theorem loop_count_eq (N : Nat) (h : N ≤ 2147483647) : (toInt (N : Int)).toNat = N := by
  unfold toInt
  omega

/-- The loop never makes more iterations than the buffer has lines. -/
theorem loop_count_le (N : Nat) : (toInt (N : Int)).toNat ≤ N := by
  unfold toInt
  omega

theorem decode_eq_upto (buf : Nat → Nat) (N cdw : Nat) (norms : List Nat) (idx : Nat)
    (hN : N ≤ 2147483647) :
    decode_debuginfo_bicgstab buf N cdw norms idx = decode_upto buf N cdw norms idx N := by
  rw [decode_eq_loop, loop_count_eq N hN]

theorem decode_upto_zero (buf : Nat → Nat) (N cdw : Nat) (norms : List Nat) (idx : Nat) :
    decode_upto buf N cdw norms idx 0 = decode_init norms idx := rfl

theorem decode_upto_succ (buf : Nat → Nat) (N cdw : Nat) (norms : List Nat) (idx n : Nat) :
    decode_upto buf N cdw norms idx (n + 1) =
      decode_line buf N cdw (decode_upto buf N cdw norms idx n) n := by
  unfold decode_upto
  rw [List.range_succ, List.foldl_append]
  rfl

theorem decode_status_bad (buf : Nat → Nat) (cdw : Nat) (s : DecodeState)
    (h : ¬ signatureValid buf cdw) :
    decode_status buf cdw 0 s = { s with kernel_signature := true, ret := 1 } := by
  unfold signatureValid at h
  unfold decode_status
  rw [if_pos h]

theorem decode_status_abort (buf : Nat → Nat) (cdw : Nat) (s : DecodeState)
    (h : signatureValid buf cdw) (ha : abortBit buf cdw) :
    decode_status buf cdw 0 s =
      { s with
        kernel_aborted := true
        ret := 1
        kernel_noresults := decide (buf (0 + 0 * cdw) >>> 1 ≠ 0)
        kernel_wrafterend := decide (buf (0 + 0 * cdw) >>> 2 ≠ 0)
        kernel_dbgfifofull := decide (buf (0 + 0 * cdw) >>> 3 ≠ 0) } := by
  unfold signatureValid at h
  unfold abortBit at ha
  unfold decode_status
  rw [if_neg (not_not.mpr h), if_pos ha]

theorem decode_status_good (buf : Nat → Nat) (cdw : Nat) (s : DecodeState)
    (h : signatureValid buf cdw) (ha : ¬ abortBit buf cdw) :
    decode_status buf cdw 0 s =
      { s with
        kernel_cycles := buf (1 + 0 * cdw) &&& 0xFFFFFFFF
        kernel_noresults := decide (buf (0 + 0 * cdw) >>> 1 ≠ 0)
        kernel_wrafterend := decide (buf (0 + 0 * cdw) >>> 2 ≠ 0)
        kernel_dbgfifofull := decide (buf (0 + 0 * cdw) >>> 3 ≠ 0) } := by
  unfold signatureValid at h
  unfold abortBit at ha
  unfold decode_status
  rw [if_neg (not_not.mpr h), if_neg ha]

/-- A sample line changes neither the outputs that line 0 sets, nor anything when
it is unwritten; its overflow fields decide the overflow flag and the return
code. -/
theorem decode_sample_status (buf : Nat → Nat) (N cdw l : Nat) (s : DecodeState) :
    (decode_sample buf N cdw l s).kernel_signature = s.kernel_signature ∧
      (decode_sample buf N cdw l s).kernel_aborted = s.kernel_aborted ∧
      (decode_sample buf N cdw l s).kernel_cycles = s.kernel_cycles ∧
      (decode_sample buf N cdw l s).kernel_noresults = s.kernel_noresults ∧
      (decode_sample buf N cdw l s).kernel_wrafterend = s.kernel_wrafterend ∧
      (decode_sample buf N cdw l s).kernel_dbgfifofull = s.kernel_dbgfifofull ∧
      ((decode_sample buf N cdw l s).kernel_overflow = true ↔
        s.kernel_overflow = true ∨ sampleOverflow buf cdw l) ∧
      (sampleOverflow buf cdw l → (decode_sample buf N cdw l s).ret = 1) ∧
      (¬ sampleOverflow buf cdw l → (decode_sample buf N cdw l s).ret = s.ret) := by
  unfold sampleOverflow decode_sample
  simp only []
  generalize buf (0 + l * cdw) = w0
  generalize bitField (buf (3 + l * cdw)) 16 0xFFFF = dc
  by_cases hw : w0 = DEBUG_UNWRITTEN
  · rw [if_neg (not_not.mpr hw)]
    simp [hw]
  · rw [if_pos hw]
    by_cases ho : (overflow_fields w0).sum = 0
    · rw [if_neg (not_not.mpr ho)]
      split <;> simp [hw, ho]
    · rw [if_pos ho]
      split <;> simp [hw, ho]

/-- What the loop has established after `n` lines. -/
theorem decode_upto_status (buf : Nat → Nat) (N cdw : Nat) (norms : List Nat) (idx n : Nat) :
    ((decode_upto buf N cdw norms idx n).kernel_signature = true ↔
        0 < n ∧ ¬ signatureValid buf cdw) ∧
      ((decode_upto buf N cdw norms idx n).kernel_aborted = true ↔
        0 < n ∧ signatureValid buf cdw ∧ abortBit buf cdw) ∧
      ((decode_upto buf N cdw norms idx n).kernel_overflow = true ↔
        ∃ l, 1 ≤ l ∧ l < n ∧ sampleOverflow buf cdw l) ∧
      ((decode_upto buf N cdw norms idx n).ret =
        if (decode_upto buf N cdw norms idx n).kernel_signature = true ∨
            (decode_upto buf N cdw norms idx n).kernel_aborted = true ∨
            (decode_upto buf N cdw norms idx n).kernel_overflow = true then 1 else 0) ∧
      ((decode_upto buf N cdw norms idx n).kernel_cycles =
        if 0 < n ∧ signatureValid buf cdw ∧ ¬ abortBit buf cdw then
          buf (1 + 0 * cdw) &&& 0xFFFFFFFF else 0) := by
  induction n with
  | zero => simp [decode_upto_zero, decode_init]
  | succ n ih =>
    rw [decode_upto_succ]
    generalize decode_upto buf N cdw norms idx n = s at ih ⊢
    obtain ⟨i1, i2, i3, i4, i5⟩ := ih
    by_cases hn : n = 0
    · subst hn
      have j1 : s.kernel_signature = false := by
        cases h : s.kernel_signature
        · rfl
        · exact absurd (i1.mp h).1 (Nat.lt_irrefl 0)
      have j2 : s.kernel_aborted = false := by
        cases h : s.kernel_aborted
        · rfl
        · exact absurd (i2.mp h).1 (Nat.lt_irrefl 0)
      have j3 : s.kernel_overflow = false := by
        cases h : s.kernel_overflow
        · rfl
        · obtain ⟨l, h1, h2, -⟩ := i3.mp h
          omega
      have j5 : s.kernel_cycles = 0 := by
        rw [i5, if_neg]
        rintro ⟨h, -⟩
        exact Nat.lt_irrefl 0 h
      have hno : ¬ ∃ l, 1 ≤ l ∧ l < 0 + 1 ∧ sampleOverflow buf cdw l := by
        rintro ⟨l, h1, h2, -⟩
        omega
      have hno2 : ∀ x : Nat, 1 ≤ x → x = 0 → ¬ sampleOverflow buf cdw x := by
        intro x h1 h2
        omega
      unfold decode_line
      rw [if_pos rfl]
      by_cases hs : signatureValid buf cdw
      · by_cases ha : abortBit buf cdw
        · rw [decode_status_abort buf cdw s hs ha]
          simp [hs, ha, j1, j3, j5]
          intro x h1 h2; omega
        · rw [decode_status_good buf cdw s hs ha]
          simp [hs, ha, j1, j2, j3, i4]
          intro x h1 h2; omega
      · rw [decode_status_bad buf cdw s hs]
        simp [hs, j2, j3, j5]
        intro x h1 h2; omega
    · have hpos : 0 < n := Nat.pos_of_ne_zero hn
      unfold decode_line
      rw [if_neg hn]
      obtain ⟨k1, k2, k3, k4, k5, k6, k7, k8, k9⟩ := decode_sample_status buf N cdw n s
      have e3 : (decode_sample buf N cdw n s).kernel_overflow = true ↔
          ∃ l, 1 ≤ l ∧ l < n + 1 ∧ sampleOverflow buf cdw l := by
        rw [k7, i3]
        constructor
        · rintro (⟨l, h1, h2, h3⟩ | h)
          · exact ⟨l, h1, by omega, h3⟩
          · exact ⟨n, hpos, by omega, h⟩
        · rintro ⟨l, h1, h2, h3⟩
          by_cases hl : l = n
          · subst hl; exact Or.inr h3
          · exact Or.inl ⟨l, h1, by omega, h3⟩
      refine ⟨?_, ?_, e3, ?_, ?_⟩
      · rw [k1, i1]; simp [hpos]
      · rw [k2, i2]; simp [hpos]
      · by_cases ho : sampleOverflow buf cdw n
        · rw [k8 ho, if_pos (Or.inr (Or.inr (k7.mpr (Or.inr ho))))]
        · rw [k9 ho, i4]
          simp only [k1, k2, k7, ho, or_false]
      · rw [k3, i5]; simp [hpos]

/-- Line 0 leaves the retained sample untouched. -/
theorem decode_status_retained (buf : Nat → Nat) (cdw : Nat) (s : DecodeState) :
    (decode_status buf cdw 0 s).kernel_iterations = s.kernel_iterations ∧
      (decode_status buf cdw 0 s).norms = s.norms ∧
      (decode_status buf cdw 0 s).last_norm_idx = s.last_norm_idx ∧
      (decode_status buf cdw 0 s).dbgcount_max = s.dbgcount_max ∧
      (decode_status buf cdw 0 s).kernel_overflow = s.kernel_overflow := by
  by_cases hs : signatureValid buf cdw
  · by_cases ha : abortBit buf cdw
    · rw [decode_status_abort buf cdw s hs ha]
      exact ⟨rfl, rfl, rfl, rfl, rfl⟩
    · rw [decode_status_good buf cdw s hs ha]
      exact ⟨rfl, rfl, rfl, rfl, rfl⟩
  · rw [decode_status_bad buf cdw s hs]
    exact ⟨rfl, rfl, rfl, rfl, rfl⟩

/-- The flags that only line 0 sets, after `n` lines. -/
theorem decode_upto_flags (buf : Nat → Nat) (N cdw : Nat) (norms : List Nat) (idx n : Nat) :
    ((decode_upto buf N cdw norms idx n).kernel_noresults = true ↔
        0 < n ∧ signatureValid buf cdw ∧ buf (0 + 0 * cdw) >>> 1 ≠ 0) ∧
      ((decode_upto buf N cdw norms idx n).kernel_wrafterend = true ↔
        0 < n ∧ signatureValid buf cdw ∧ buf (0 + 0 * cdw) >>> 2 ≠ 0) ∧
      ((decode_upto buf N cdw norms idx n).kernel_dbgfifofull = true ↔
        0 < n ∧ signatureValid buf cdw ∧ buf (0 + 0 * cdw) >>> 3 ≠ 0) := by
  induction n with
  | zero => simp [decode_upto_zero, decode_init]
  | succ n ih =>
    rw [decode_upto_succ]
    generalize decode_upto buf N cdw norms idx n = s at ih ⊢
    obtain ⟨i1, i2, i3⟩ := ih
    by_cases hn : n = 0
    · subst hn
      have j1 : s.kernel_noresults = false := by
        cases h : s.kernel_noresults
        · rfl
        · exact absurd (i1.mp h).1 (Nat.lt_irrefl 0)
      have j2 : s.kernel_wrafterend = false := by
        cases h : s.kernel_wrafterend
        · rfl
        · exact absurd (i2.mp h).1 (Nat.lt_irrefl 0)
      have j3 : s.kernel_dbgfifofull = false := by
        cases h : s.kernel_dbgfifofull
        · rfl
        · exact absurd (i3.mp h).1 (Nat.lt_irrefl 0)
      unfold decode_line
      rw [if_pos rfl]
      by_cases hs : signatureValid buf cdw
      · by_cases ha : abortBit buf cdw
        · rw [decode_status_abort buf cdw s hs ha]
          simp only [decide_eq_true_eq, Nat.lt_add_one, hs, true_and, and_self]
        · rw [decode_status_good buf cdw s hs ha]
          simp only [decide_eq_true_eq, Nat.lt_add_one, hs, true_and, and_self]
      · rw [decode_status_bad buf cdw s hs]
        simp only [j1, j2, j3, hs, false_and, and_false, Bool.false_eq_true, and_self]
    · have hpos : 0 < n := Nat.pos_of_ne_zero hn
      unfold decode_line
      rw [if_neg hn]
      obtain ⟨k1, k2, k3, k4, k5, k6, k7, k8, k9⟩ := decode_sample_status buf N cdw n s
      rw [k4, k5, k6, i1, i2, i3]
      simp [hpos]

/-- The retained sample after a sample line depends only on the retained sample
before it and on the words of that line. -/
theorem decode_sample_retained (buf buf2 : Nat → Nat) (N cdw l : Nat) (s s2 : DecodeState)
    (hb : ∀ k, buf (k + l * cdw) = buf2 (k + l * cdw))
    (h1 : s.kernel_iterations = s2.kernel_iterations) (h2 : s.norms = s2.norms)
    (h3 : s.last_norm_idx = s2.last_norm_idx) (h4 : s.dbgcount_max = s2.dbgcount_max) :
    (decode_sample buf N cdw l s).kernel_iterations =
        (decode_sample buf2 N cdw l s2).kernel_iterations ∧
      (decode_sample buf N cdw l s).norms = (decode_sample buf2 N cdw l s2).norms ∧
      (decode_sample buf N cdw l s).last_norm_idx =
        (decode_sample buf2 N cdw l s2).last_norm_idx ∧
      (decode_sample buf N cdw l s).dbgcount_max =
        (decode_sample buf2 N cdw l s2).dbgcount_max := by
  unfold decode_sample
  simp only []
  rw [hb 0, hb 3, hb 4, hb 5, hb 6, hb 7]
  generalize buf2 (0 + l * cdw) = w0
  generalize bitField (buf2 (3 + l * cdw)) 16 0xFFFF = dc
  by_cases hw : w0 = DEBUG_UNWRITTEN
  · rw [if_neg (not_not.mpr hw), if_neg (not_not.mpr hw)]
    exact ⟨h1, h2, h3, h4⟩
  · rw [if_pos hw, if_pos hw]
    have e1 : (if (overflow_fields w0).sum ≠ 0 then
        { s with kernel_overflow := true, ret := 1 } else s).dbgcount_max = s.dbgcount_max := by
      split <;> rfl
    have e2 : (if (overflow_fields w0).sum ≠ 0 then
        { s2 with kernel_overflow := true, ret := 1 } else s2).dbgcount_max =
          s2.dbgcount_max := by
      split <;> rfl
    rw [e1, e2, h4]
    by_cases hf : dc > s2.dbgcount_max ∨ N < 3
    · rw [if_pos hf, if_pos hf]
      exact ⟨rfl, rfl, rfl, rfl⟩
    · rw [if_neg hf, if_neg hf]
      by_cases ho : (overflow_fields w0).sum = 0
      · rw [if_neg (not_not.mpr ho), if_neg (not_not.mpr ho)]
        exact ⟨h1, h2, h3, h4⟩
      · rw [if_pos ho, if_pos ho]
        exact ⟨h1, h2, h3, rfl⟩

/-- The retained sample does not depend on line 0: two buffers with the same
sample lines give the same iteration count, norms and newest index. -/
theorem decode_upto_retained (buf buf2 : Nat → Nat) (N cdw : Nat) (norms : List Nat)
    (idx n : Nat) (hb : ∀ l, 1 ≤ l → ∀ k, buf (k + l * cdw) = buf2 (k + l * cdw)) :
    (decode_upto buf N cdw norms idx n).kernel_iterations =
        (decode_upto buf2 N cdw norms idx n).kernel_iterations ∧
      (decode_upto buf N cdw norms idx n).norms =
        (decode_upto buf2 N cdw norms idx n).norms ∧
      (decode_upto buf N cdw norms idx n).last_norm_idx =
        (decode_upto buf2 N cdw norms idx n).last_norm_idx ∧
      (decode_upto buf N cdw norms idx n).dbgcount_max =
        (decode_upto buf2 N cdw norms idx n).dbgcount_max := by
  induction n with
  | zero =>
    rw [decode_upto_zero, decode_upto_zero]
    exact ⟨rfl, rfl, rfl, rfl⟩
  | succ n ih =>
    rw [decode_upto_succ, decode_upto_succ]
    generalize decode_upto buf N cdw norms idx n = s at ih ⊢
    generalize decode_upto buf2 N cdw norms idx n = s2 at ih ⊢
    obtain ⟨i1, i2, i3, i4⟩ := ih
    unfold decode_line
    by_cases hn : n = 0
    · subst hn
      rw [if_pos rfl, if_pos rfl]
      obtain ⟨a1, a2, a3, a4, -⟩ := decode_status_retained buf cdw s
      obtain ⟨b1, b2, b3, b4, -⟩ := decode_status_retained buf2 cdw s2
      rw [a1, a2, a3, a4, b1, b2, b3, b4]
      exact ⟨i1, i2, i3, i4⟩
    · rw [if_neg hn, if_neg hn]
      exact decode_sample_retained buf buf2 N cdw n s s2 (hb n (Nat.pos_of_ne_zero hn))
        i1 i2 i3 i4

/-- When all sample lines are unwritten nothing is retained. -/
theorem decode_upto_unwritten (buf : Nat → Nat) (N cdw : Nat) (norms : List Nat)
    (idx n : Nat) (hu : ∀ l, 1 ≤ l → l < n → buf (0 + l * cdw) = DEBUG_UNWRITTEN) :
    (decode_upto buf N cdw norms idx n).kernel_iterations = 0 ∧
      (decode_upto buf N cdw norms idx n).norms = norms ∧
      (decode_upto buf N cdw norms idx n).last_norm_idx = idx := by
  induction n with
  | zero =>
    rw [decode_upto_zero]
    exact ⟨rfl, rfl, rfl⟩
  | succ n ih =>
    rw [decode_upto_succ]
    have ih2 := ih (fun l h1 h2 => hu l h1 (by omega))
    generalize decode_upto buf N cdw norms idx n = s at ih2 ⊢
    unfold decode_line
    by_cases hn : n = 0
    · subst hn
      rw [if_pos rfl]
      obtain ⟨a1, a2, a3, -, -⟩ := decode_status_retained buf cdw s
      rw [a1, a2, a3]
      exact ih2
    · rw [if_neg hn]
      have hw := hu n (Nat.pos_of_ne_zero hn) (by omega)
      have e : decode_sample buf N cdw n s = s := by
        unfold decode_sample
        simp only []
        rw [if_neg (not_not.mpr hw)]
      rw [e]
      exact ih2

/-! ## Bit fields and the retained sample -/

theorem bitField_eq (w o n : Nat) : bitField w o (2 ^ n - 1) = w / 2 ^ o % 2 ^ n := by
  unfold bitField
  rw [Nat.and_pow_two_sub_one_eq_mod, Nat.shiftRight_eq_div_pow]

theorem bitField_dbgcount (w : Nat) : bitField w 16 0xFFFF = w / 65536 % 65536 :=
  bitField_eq w 16 16

theorem bitField_itrcount (w : Nat) : bitField w 32 0xFFFF = w / 4294967296 % 65536 :=
  bitField_eq w 32 16

/-- An unwritten line changes nothing. -/
theorem decode_sample_skip (buf : Nat → Nat) (N cdw l : Nat) (s : DecodeState)
    (hw : buf (0 + l * cdw) = DEBUG_UNWRITTEN) : decode_sample buf N cdw l s = s := by
  unfold decode_sample
  simp only []
  rw [if_neg (not_not.mpr hw)]

/-- A written line that passes the freshness test is retained. -/
theorem decode_sample_take (buf : Nat → Nat) (N cdw l : Nat) (s : DecodeState)
    (hw : buf (0 + l * cdw) ≠ DEBUG_UNWRITTEN)
    (hf : bitField (buf (3 + l * cdw)) 16 0xFFFF > s.dbgcount_max ∨ N < 3) :
    (decode_sample buf N cdw l s).dbgcount_max = bitField (buf (3 + l * cdw)) 16 0xFFFF ∧
      (decode_sample buf N cdw l s).kernel_iterations =
        bitField (buf (3 + l * cdw)) 32 0xFFFF ∧
      (decode_sample buf N cdw l s).norms =
        [buf (4 + l * cdw), buf (5 + l * cdw), buf (6 + l * cdw), buf (7 + l * cdw)] ∧
      (decode_sample buf N cdw l s).last_norm_idx =
        bitField (buf (3 + l * cdw)) 32 0xFFFF % 3 + 1 := by
  unfold decode_sample
  simp only []
  rw [if_pos hw]
  have e1 : (if (overflow_fields (buf (0 + l * cdw))).sum ≠ 0 then
      { s with kernel_overflow := true, ret := 1 } else s).dbgcount_max = s.dbgcount_max := by
    split <;> rfl
  rw [e1, if_pos hf]
  exact ⟨rfl, rfl, rfl, rfl⟩

/-- A written line that fails the freshness test leaves the retained sample. -/
theorem decode_sample_keep (buf : Nat → Nat) (N cdw l : Nat) (s : DecodeState)
    (hf : ¬ (bitField (buf (3 + l * cdw)) 16 0xFFFF > s.dbgcount_max ∨ N < 3)) :
    (decode_sample buf N cdw l s).dbgcount_max = s.dbgcount_max ∧
      (decode_sample buf N cdw l s).kernel_iterations = s.kernel_iterations ∧
      (decode_sample buf N cdw l s).norms = s.norms ∧
      (decode_sample buf N cdw l s).last_norm_idx = s.last_norm_idx := by
  by_cases hw : buf (0 + l * cdw) = DEBUG_UNWRITTEN
  · rw [decode_sample_skip buf N cdw l s hw]
    exact ⟨rfl, rfl, rfl, rfl⟩
  · unfold decode_sample
    simp only []
    rw [if_pos hw]
    have e1 : (if (overflow_fields (buf (0 + l * cdw))).sum ≠ 0 then
        { s with kernel_overflow := true, ret := 1 } else s).dbgcount_max = s.dbgcount_max := by
      split <;> rfl
    rw [e1, if_neg hf]
    split <;> exact ⟨rfl, rfl, rfl, rfl⟩

theorem decode_line_zero (buf : Nat → Nat) (N cdw : Nat) (s : DecodeState) :
    decode_line buf N cdw s 0 = decode_status buf cdw 0 s := by
  unfold decode_line
  rw [if_pos rfl]

theorem decode_line_pos (buf : Nat → Nat) (N cdw l : Nat) (s : DecodeState) (hl : 1 ≤ l) :
    decode_line buf N cdw s l = decode_sample buf N cdw l s := by
  unfold decode_line
  rw [if_neg (by omega)]
/-! ## The claims -/

/-- Claim C1, as amended.  For `n > 0` and `u > 0` such that some multiple of `u`
that is not below `n` fits in a 32-bit `int`, `roundUpTo n u` is at least `n`, is
a multiple of `u`, and exceeds `n` by less than `u`. -/
theorem roundUpTo_bounds (n u : Int) (hn : 0 < n) (hu : 0 < u)
    (hfit : ∃ m : Int, m ≤ INT_MAX ∧ u ∣ m ∧ n ≤ m) :
    n ≤ roundUpTo n u (ne_of_gt hu) ∧ u ∣ roundUpTo n u (ne_of_gt hu) ∧
      roundUpTo n u (ne_of_gt hu) - n < u := by
  obtain ⟨r, hr, h1, h2, h3, h4⟩ := roundUpTo_exact (le_of_lt hn) hu
  obtain ⟨m, hm, hdvd, hnm⟩ := hfit
  rw [hr]
  by_cases h0 : n % u = 0
  · simp only [h0, if_true]
    exact ⟨le_refl _, Int.dvd_of_emod_eq_zero h0, by omega⟩
  · simp only [h0, if_false]
    have hrm := h4 m hdvd hnm h0
    have : toInt r = r := toInt_of_range (by omega) (by unfold INT_MAX at hm; omega)
    rw [this]
    exact ⟨h1, h2, h3 h0⟩

/-- Witness for `roundUpTo_bounds`: `roundUpTo(5, 4) = 8`. -/
theorem roundUpTo_bounds_witness :
    (5 : Int) ≤ roundUpTo 5 4 (by decide) ∧ (4 : Int) ∣ roundUpTo 5 4 (by decide) ∧
      roundUpTo 5 4 (by decide) - 5 < 4 :=
  roundUpTo_bounds 5 4 (by decide) (by decide) ⟨8, by decide, ⟨2, by decide⟩, by decide⟩

/-- Claim C1, counterexample.  At `n = 2147483647 = INT_MAX`, `u = 64` the product
`(n / u + 1) * u = 2^31` does not fit in an `int`: the 32-bit result is `-2^31`,
which is below `n`.  No `int` is both at least `INT_MAX` and a multiple of 64. -/
theorem roundUpTo_bounds_fails_at_int_max :
    roundUpTo 2147483647 64 (by decide) = -2147483648 ∧
      ¬ ((2147483647 : Int) ≤ roundUpTo 2147483647 64 (by decide) ∧
          (64 : Int) ∣ roundUpTo 2147483647 64 (by decide) ∧
          roundUpTo 2147483647 64 (by decide) - 2147483647 < 64) := by
  have h : roundUpTo 2147483647 64 (by decide) = -2147483648 := by decide
  refine ⟨h, ?_⟩
  rw [h]; omega



theorem setup_success (a : DatamemArgs) (ok : Nat → Bool) (h : HostData)
    (hret : (fpga_setup_host_datamem a ok h).1 = 0) :
    (array_lens a).len_dbg_buffer.tmod CACHELINE_BYTES = 0 ∧
      (fpga_setup_host_datamem a ok h).2 =
        { totalSize := totalSize (array_lens a)
          result_offsets := result_offsets_fill (array_lens a) h.result_offsets
          setupArray := setupArray_fill a (array_lens a) } := by
  unfold fpga_setup_host_datamem at hret ⊢
  by_cases h1 : (array_lens a).len_dbg_buffer.tmod CACHELINE_BYTES = 0
  · by_cases h2 : (List.range RW_BUF).all ok = true
    · simp [h1, h2]
    · simp [h1, h2] at hret
  · simp [h1] at hret

theorem dbufposAt_le (l : ArrayLens) (hpos : ∀ b k, 0 ≤ arrayLen l b k) (hfit : BanksFit l)
    (b j : Nat) (hb : b < 5) (k : Nat) (hjk : j + 1 ≤ k) (hk : k < bankArrays b) :
    dbufposAt l b j + arrayLen l b j ≤ dbufposAt l b k := by
  induction k, hjk using Nat.le_induction with
  | base => exact le_of_eq (dbufposAt_succ l hpos hfit b j hb (by omega)).2.1.symm
  | succ n hn ih =>
    have h1 := ih (by omega)
    have h2 := (dbufposAt_succ l hpos hfit b n hb (by omega)).2.1
    have h3 := hpos b n
    omega

/-- Claim C2, as amended.  For input lengths that are not negative and for which
every array size fits in an `int` and every bank total fits in an `unsigned int`:
within each of the five banks the positions `dbufpos[b][0], dbufpos[b][1], ...` of
the arrays are non-decreasing in declared order, the byte range of an array ends
at or before the position of every later array of the bank (the ranges do not
overlap) and inside the bank total, and the position of a later array is strictly
greater whenever the earlier array has a non-zero size. -/
theorem dbufpos_ordered (a : DatamemArgs) (hs : SizesFit a) (hfit : BanksFit (array_lens a))
    (b j k : Nat) (hb : b < 5) (hjk : j < k) (hk : k < bankArrays b) :
    dbufposAt (array_lens a) b j ≤ dbufposAt (array_lens a) b k ∧
      dbufposAt (array_lens a) b j + arrayLen (array_lens a) b j ≤
        dbufposAt (array_lens a) b k ∧
      dbufposAt (array_lens a) b k + arrayLen (array_lens a) b k ≤
        (totalSize (array_lens a)).getD b 0 ∧
      (0 < arrayLen (array_lens a) b j →
        dbufposAt (array_lens a) b j < dbufposAt (array_lens a) b k) := by
  have hpos := arrayLen_nonneg a hs
  have h1 := dbufposAt_le (array_lens a) hpos hfit b j hb k hjk hk
  have h2 := hpos b j
  have h3 := dbufposAt_succ (array_lens a) hpos hfit b k hb hk
  have h4 : (totalSize (array_lens a)).getD b 0 = bankSum (array_lens a) b := by
    rw [totalSize_getD _ b hb, dbufposAt_total _ hpos hfit b hb]
  refine ⟨by omega, h1, ?_, fun h => by omega⟩
  rw [h4]
  omega

/-- Witness for `dbufpos_ordered`: the small system, bank 1, arrays 2 and 5. -/
theorem dbufpos_ordered_witness :
    dbufposAt (array_lens exampleArgs) 1 2 ≤ dbufposAt (array_lens exampleArgs) 1 5 ∧
      dbufposAt (array_lens exampleArgs) 1 2 + arrayLen (array_lens exampleArgs) 1 2 ≤
        dbufposAt (array_lens exampleArgs) 1 5 ∧
      dbufposAt (array_lens exampleArgs) 1 5 + arrayLen (array_lens exampleArgs) 1 5 ≤
        (totalSize (array_lens exampleArgs)).getD 1 0 ∧
      (0 < arrayLen (array_lens exampleArgs) 1 2 →
        dbufposAt (array_lens exampleArgs) 1 2 < dbufposAt (array_lens exampleArgs) 1 5) :=
  dbufpos_ordered exampleArgs (by unfold SizesFit fitsInt; decide)
    (by intro b hb; interval_cases b <;> decide) 1 2 5 (by decide) (by decide) (by decide)

/-- Claim C2, counterexample.  With all input lengths zero the arrays X2 and R1 of
bank 2 are both at position 0, so the positions are not strictly increasing.  With
`rowSize = 2^28` and all other lengths positive, the position of P1 in bank 3 wraps
around to 0: it is below the position `2^31` of R2 and equal to the position of
X1, so two non-empty arrays of the bank start at the same byte. -/
theorem dbufpos_not_strictly_increasing :
    ¬ (dbufposAt (array_lens zeroArgs) 2 0 < dbufposAt (array_lens zeroArgs) 2 1) ∧
      dbufposAt (array_lens hugeArgs) 3 1 = 2147483648 ∧
      dbufposAt (array_lens hugeArgs) 3 2 = 0 ∧
      ¬ (dbufposAt (array_lens hugeArgs) 3 1 < dbufposAt (array_lens hugeArgs) 3 2) ∧
      dbufposAt (array_lens hugeArgs) 3 0 = dbufposAt (array_lens hugeArgs) 3 2 := by
  decide

theorem rowVector_len (a : DatamemArgs) (hs : SizesFit a) :
    sizeofTimes 8 (roundUpTo (a.processedSizes 0) (CACHELINE_BYTES / 8) (by decide)) =
      8 * roundUpTo (a.processedSizes 0) (CACHELINE_BYTES / 8) (by decide) :=
  (sizeofTimes_exact (Or.inl ⟨rfl, by decide⟩) _ _ hs.1).1

/-- Claim C3, as amended.  When `fpga_setup_host_datamem` succeeds on input lengths
that are not negative and for which every array size fits in an `int` and every
bank total fits in an `unsigned int`, each bank total `totalSize[b]` is the
position of the last array of the bank plus the size of that array, which is the
sum of the sizes of all arrays of the bank; for banks 2, 3 and 4 this is 2, 5 and
4 times the row vector size `8 * roundUpTo(rowSize, 8)`. -/
theorem totalSize_is_bank_sum (a : DatamemArgs) (ok : Nat → Bool) (h : HostData)
    (hs : SizesFit a) (hfit : BanksFit (array_lens a))
    (hret : (fpga_setup_host_datamem a ok h).1 = 0) :
    (fpga_setup_host_datamem a ok h).2.totalSize =
        [bankSum (array_lens a) 0, bankSum (array_lens a) 1, bankSum (array_lens a) 2,
          bankSum (array_lens a) 3, bankSum (array_lens a) 4] ∧
      (∀ b, b < 5 → bankSum (array_lens a) b =
        dbufposAt (array_lens a) b (bankArrays b - 1) +
          arrayLen (array_lens a) b (bankArrays b - 1)) ∧
      bankSum (array_lens a) 2 =
        2 * (8 * roundUpTo (a.processedSizes 0) (CACHELINE_BYTES / 8) (by decide)) ∧
      bankSum (array_lens a) 3 =
        5 * (8 * roundUpTo (a.processedSizes 0) (CACHELINE_BYTES / 8) (by decide)) ∧
      bankSum (array_lens a) 4 =
        4 * (8 * roundUpTo (a.processedSizes 0) (CACHELINE_BYTES / 8) (by decide)) := by
  have hpos := arrayLen_nonneg a hs
  have hrow := rowVector_len a hs
  refine ⟨?_, ?_, ?_, ?_, ?_⟩
  · rw [(setup_success a ok h hret).2]
    show totalSize (array_lens a) = _
    have t := fun b hb => dbufposAt_total (array_lens a) hpos hfit b hb
    rw [← t 0 (by decide), ← t 1 (by decide), ← t 2 (by decide), ← t 3 (by decide),
      ← t 4 (by decide)]
    rfl
  · intro b hb
    have h1 := dbufposAt_succ (array_lens a) hpos hfit b (bankArrays b - 1) hb
      (by interval_cases b <;> decide)
    have h2 : bankArrays b - 1 + 1 = bankArrays b := by interval_cases b <;> decide
    rw [h2, dbufposAt_total _ hpos hfit b hb] at h1
    exact h1.2.1
  · simp only [bankSum, bankLens, array_lens, List.getD_cons_zero, List.getD_cons_succ,
      List.sum_cons, List.sum_nil, hrow]
    omega
  · simp only [bankSum, bankLens, array_lens, List.getD_cons_zero, List.getD_cons_succ,
      List.sum_cons, List.sum_nil, hrow]
    omega
  · simp only [bankSum, bankLens, array_lens, List.getD_cons_zero, List.getD_cons_succ,
      List.sum_cons, List.sum_nil, hrow]
    omega

/-- Witness for `totalSize_is_bank_sum`: the small system; its bank totals are
110976, 4800, 1664, 4160 and 3328 bytes. -/
theorem totalSize_is_bank_sum_witness :
    (fpga_setup_host_datamem exampleArgs (fun _ => true) emptyHost).2.totalSize =
        [110976, 4800, 1664, 4160, 3328] ∧
      (fpga_setup_host_datamem exampleArgs (fun _ => true) emptyHost).2.totalSize =
        [bankSum (array_lens exampleArgs) 0, bankSum (array_lens exampleArgs) 1,
          bankSum (array_lens exampleArgs) 2, bankSum (array_lens exampleArgs) 3,
          bankSum (array_lens exampleArgs) 4] :=
  ⟨by decide,
    (totalSize_is_bank_sum exampleArgs (fun _ => true) emptyHost
      (by unfold SizesFit fitsInt; decide) (by intro b hb; interval_cases b <;> decide)
      (by decide)).1⟩

/-- Claim C3, counterexample.  With `rowSize = 2^28` the call succeeds and the two
row vectors of bank 2 take `2 * (8 * roundUpTo(rowSize, 8)) = 2^32` bytes, but the
32-bit total `totalSize[2]` is 0 (and `totalSize[4]` is 0, `totalSize[3]` is
`2^31`). -/
theorem totalSize_wraps_around :
    (fpga_setup_host_datamem hugeArgs (fun _ => true) emptyHost).1 = 0 ∧
      (fpga_setup_host_datamem hugeArgs (fun _ => true) emptyHost).2.totalSize =
        [110976, 4800, 0, 2147483648, 0] ∧
      2 * (8 * roundUpTo (hugeArgs.processedSizes 0) (CACHELINE_BYTES / 8) (by decide)) =
        4294967296 ∧
      (fpga_setup_host_datamem hugeArgs (fun _ => true) emptyHost).2.totalSize.getD 2 0 ≠
        2 * (8 * roundUpTo (hugeArgs.processedSizes 0) (CACHELINE_BYTES / 8) (by decide)) := by
  decide

/-- Claim C4.  For all input lengths (in particular the non-negative ones) the
byte size of every array, every position `dbufpos[b][k]` and every bank total
`totalSize[b]` computed by `fpga_setup_host_datamem` is a multiple of
`CACHELINE_BYTES = 64`; the size `len_dbg_buffer` of the debug buffer is a
multiple of 64 whenever the function succeeds, and the bank totals that the
function returns are those of the layout. -/
theorem layout_is_cacheline_aligned (a : DatamemArgs) (ok : Nat → Bool) (h : HostData) :
    CACHELINE_BYTES = 64 ∧
      (∀ b k, 64 ∣ arrayLen (array_lens a) b k) ∧
      (∀ b k, 64 ∣ dbufposAt (array_lens a) b k) ∧
      (∀ t, t ∈ totalSize (array_lens a) → 64 ∣ t) ∧
      ((fpga_setup_host_datamem a ok h).1 = 0 →
        64 ∣ (array_lens a).len_dbg_buffer ∧
        (fpga_setup_host_datamem a ok h).2.totalSize = totalSize (array_lens a)) := by
  have hd := dbufposAt_dvd (array_lens a) (arrayLen_dvd a)
  refine ⟨rfl, arrayLen_dvd a, hd, ?_, ?_⟩
  · intro t ht
    simp only [totalSize, List.mem_cons, List.mem_singleton, List.not_mem_nil, or_false] at ht
    rcases ht with rfl | rfl | rfl | rfl | rfl <;> exact hd _ _
  · intro hret
    obtain ⟨h1, h2⟩ := setup_success a ok h hret
    refine ⟨?_, by rw [h2]⟩
    exact Int.dvd_of_tmod_eq_zero h1

/-- Claim C5.  The update of the sizes done by `fpga_copy_host_datamem` changes
only the words 0, 8 and 16 of the setup array: for every setup array (of 40
words or of any other length) and all `vectorSizes`, every word with an index
other than 0, 8 and 16 keeps its value, and the array keeps its length. -/
theorem copy_changes_only_size_words (vectorSizes : Nat → Int) (setupArray : List Int)
    (i : Nat) (h0 : i ≠ 0) (h8 : i ≠ 8) (h16 : i ≠ 16) :
    (fpga_copy_host_datamem vectorSizes setupArray)[i]? = setupArray[i]? ∧
      (fpga_copy_host_datamem vectorSizes setupArray).length = setupArray.length := by
  unfold fpga_copy_host_datamem
  refine ⟨?_, by simp⟩
  simp only []
  rw [List.getElem?_set_ne (Ne.symm h16), List.getElem?_set_ne (Ne.symm h8),
    List.getElem?_set_ne (Ne.symm h0)]

/-- Witness for `copy_changes_only_size_words`: pointer word 2 (the position of
R1) of the setup array built for the small system is 13 before and after the
update with other sizes. -/
theorem copy_changes_only_size_words_witness :
    (fpga_copy_host_datamem (fun _ => 50)
        (fpga_setup_host_datamem exampleArgs (fun _ => true) emptyHost).2.setupArray)[2]? =
      (fpga_setup_host_datamem exampleArgs (fun _ => true) emptyHost).2.setupArray[2]? ∧
    (fpga_setup_host_datamem exampleArgs (fun _ => true) emptyHost).2.setupArray[2]? =
      some 13 :=
  ⟨(copy_changes_only_size_words (fun _ => 50)
      (fpga_setup_host_datamem exampleArgs (fun _ => true) emptyHost).2.setupArray 2
      (by decide) (by decide) (by decide)).1, by decide⟩

/-- Claim C6.  After a successful `fpga_setup_host_datamem`, for all input lengths
and for every pointer word `i` of the documented setup array map (indices 2..7,
10..15 and 18..30), `setupArray[i]` is the position `dbufpos[b][k]` of the array
documented for `i`, divided by `CACHELINE_BYTES = 64`, and the division is exact:
`setupArray[i] * 64` is that position. -/
theorem setup_pointers_are_positions (a : DatamemArgs) (ok : Nat → Bool) (h : HostData)
    (hret : (fpga_setup_host_datamem a ok h).1 = 0) (i : Nat) (arr : ArrayId)
    (hi : (i, arr) ∈ setupMap) :
    (fpga_setup_host_datamem a ok h).2.setupArray[i]? =
        some (dbufposAt (array_lens a) (arrayPlace arr).1 (arrayPlace arr).2 / CACHELINE_BYTES) ∧
      dbufposAt (array_lens a) (arrayPlace arr).1 (arrayPlace arr).2 / CACHELINE_BYTES * 64 =
        dbufposAt (array_lens a) (arrayPlace arr).1 (arrayPlace arr).2 := by
  refine ⟨?_, ?_⟩
  · have e : (fpga_setup_host_datamem a ok h).2.setupArray =
        setupArray_fill a (array_lens a) := by rw [(setup_success a ok h hret).2]
    rw [e]
    have key : ∀ p, p ∈ setupMap →
        (setupArray_fill a (array_lens a))[p.1]? =
          some (dbufposAt (array_lens a) (arrayPlace p.2).1 (arrayPlace p.2).2 /
            CACHELINE_BYTES) := by
      rw [setupArray_fill_eq]
      simp only [setupMap, List.forall_mem_cons, List.not_mem_nil, false_implies,
        implies_true, and_true, List.cons_append, List.getElem?_cons_succ,
        List.getElem?_cons_zero, arrayPlace]
    exact key (i, arr) hi
  · have hd := dbufposAt_dvd (array_lens a) (arrayLen_dvd a) (arrayPlace arr).1 (arrayPlace arr).2
    have hc : CACHELINE_BYTES = 64 := rfl
    rw [hc]
    omega

/-- Witness for `setup_pointers_are_positions`: in the small system word 12 is
the cacheline index 5 of the nnz values, which are at byte 320 of bank 0. -/
theorem setup_pointers_are_positions_witness :
    (fpga_setup_host_datamem exampleArgs (fun _ => true) emptyHost).2.setupArray[12]? =
        some (dbufposAt (array_lens exampleArgs) (arrayPlace ArrayId.nnzVals).1
          (arrayPlace ArrayId.nnzVals).2 / CACHELINE_BYTES) ∧
      dbufposAt (array_lens exampleArgs) (arrayPlace ArrayId.nnzVals).1
          (arrayPlace ArrayId.nnzVals).2 / CACHELINE_BYTES * 64 =
        dbufposAt (array_lens exampleArgs) (arrayPlace ArrayId.nnzVals).1
          (arrayPlace ArrayId.nnzVals).2 :=
  setup_pointers_are_positions exampleArgs (fun _ => true) emptyHost (by decide) 12
    ArrayId.nnzVals (by decide)

theorem sizePair_split {hi lo : Int} (h1 : 0 ≤ hi) (h2 : hi ≤ 2147483647) (h3 : 0 ≤ lo)
    (h4 : lo ≤ 2147483647) :
    sizePair hi lo / 4294967296 = hi ∧ sizePair hi lo % 4294967296 = lo := by
  unfold sizePair toULong
  omega

theorem toULong_split {lo : Int} (h3 : 0 ≤ lo) (h4 : lo ≤ 2147483647) :
    toULong lo / 4294967296 = 0 ∧ toULong lo % 4294967296 = lo := by
  unfold toULong
  omega

/-- Claim C7.  For all sizes and config bits in the range `0 .. 2^31-1`, the six
size-pair words written by a successful `fpga_setup_host_datamem` split at bit 32
into their two fields: the high 32 bits of words 0, 8, 16 are the value counts of
A, L, U and their low 32 bits are the row counts of A, L, U; the low 32 bits of
words 1, 9, 17 are the color counts of A, L, U, the high 32 bits of word 1 are
`config_bits` and the high 32 bits of words 9 and 17 are 0.  The same split holds
for the words 0, 8, 16 that `fpga_copy_host_datamem` rewrites in a setup array of
40 words. -/
theorem size_pair_words_split (a : DatamemArgs) (ok : Nat → Bool) (h : HostData)
    (vectorSizes : Nat → Int) (s : List Int)
    (hc : 0 ≤ a.config_bits ∧ a.config_bits ≤ 2147483647)
    (hp : ∀ k, 0 ≤ a.processedSizes k ∧ a.processedSizes k ≤ 2147483647)
    (hv : ∀ k, 0 ≤ vectorSizes k ∧ vectorSizes k ≤ 2147483647)
    (hret : (fpga_setup_host_datamem a ok h).1 = 0) (hs : s.length = 40) :
    (∃ w0 w1 w8 w9 w16 w17 : Int,
      (fpga_setup_host_datamem a ok h).2.setupArray[0]? = some w0 ∧
      (fpga_setup_host_datamem a ok h).2.setupArray[1]? = some w1 ∧
      (fpga_setup_host_datamem a ok h).2.setupArray[8]? = some w8 ∧
      (fpga_setup_host_datamem a ok h).2.setupArray[9]? = some w9 ∧
      (fpga_setup_host_datamem a ok h).2.setupArray[16]? = some w16 ∧
      (fpga_setup_host_datamem a ok h).2.setupArray[17]? = some w17 ∧
      w0 / 4294967296 = a.processedSizes 1 ∧ w0 % 4294967296 = a.processedSizes 0 ∧
      w8 / 4294967296 = a.processedSizes 7 ∧ w8 % 4294967296 = a.processedSizes 6 ∧
      w16 / 4294967296 = a.processedSizes 13 ∧ w16 % 4294967296 = a.processedSizes 12 ∧
      w1 / 4294967296 = a.config_bits ∧ w1 % 4294967296 = a.processedSizes 2 ∧
      w9 / 4294967296 = 0 ∧ w9 % 4294967296 = a.processedSizes 8 ∧
      w17 / 4294967296 = 0 ∧ w17 % 4294967296 = a.processedSizes 14) ∧
    (∃ v0 v8 v16 : Int,
      (fpga_copy_host_datamem vectorSizes s)[0]? = some v0 ∧
      (fpga_copy_host_datamem vectorSizes s)[8]? = some v8 ∧
      (fpga_copy_host_datamem vectorSizes s)[16]? = some v16 ∧
      v0 / 4294967296 = vectorSizes 1 ∧ v0 % 4294967296 = vectorSizes 0 ∧
      v8 / 4294967296 = vectorSizes 7 ∧ v8 % 4294967296 = vectorSizes 6 ∧
      v16 / 4294967296 = vectorSizes 13 ∧ v16 % 4294967296 = vectorSizes 12) := by
  have e : (fpga_setup_host_datamem a ok h).2.setupArray =
      setupArray_fill a (array_lens a) := by rw [(setup_success a ok h hret).2]
  have p := fun i j => sizePair_split (hp i).1 (hp i).2 (hp j).1 (hp j).2
  have q := fun j => sizePair_split hc.1 hc.2 (hp j).1 (hp j).2
  have r := fun j => toULong_split (hp j).1 (hp j).2
  have pv := fun i j => sizePair_split (hv i).1 (hv i).2 (hv j).1 (hv j).2
  refine ⟨⟨_, _, _, _, _, _, ?_, ?_, ?_, ?_, ?_, ?_, (p 1 0).1, (p 1 0).2, (p 7 6).1, (p 7 6).2,
    (p 13 12).1, (p 13 12).2, (q 2).1, (q 2).2, (r 8).1, (r 8).2, (r 14).1, (r 14).2⟩,
    ⟨_, _, _, ?_, ?_, ?_, (pv 1 0).1, (pv 1 0).2, (pv 7 6).1, (pv 7 6).2, (pv 13 12).1,
      (pv 13 12).2⟩⟩
  all_goals first
    | (rw [e, setupArray_fill_eq]
       simp only [List.cons_append, List.getElem?_cons_succ, List.getElem?_cons_zero])
    | (unfold fpga_copy_host_datamem
       simp only []
       first
        | (rw [List.getElem?_set_ne (by decide), List.getElem?_set_ne (by decide),
            List.getElem?_set_self (by omega)])
        | (rw [List.getElem?_set_ne (by decide), List.getElem?_set_self (by simp; omega)])
        | (rw [List.getElem?_set_self (by simp; omega)]))

/-- Witness for `size_pair_words_split`: the small system, updated with 50 for
every size in a setup array of 40 words. -/
theorem size_pair_words_split_witness :
    (∃ w0 : Int,
      (fpga_setup_host_datamem exampleArgs (fun _ => true) emptyHost).2.setupArray[0]? =
        some w0 ∧ w0 / 4294967296 = 700 ∧ w0 % 4294967296 = 100) ∧
    (∃ v0 : Int,
      (fpga_copy_host_datamem (fun _ => 50) (List.replicate 40 SETUP_UNUSED))[0]? = some v0 ∧
        v0 / 4294967296 = 50 ∧ v0 % 4294967296 = 50) := by
  have t := size_pair_words_split exampleArgs (fun _ => true) emptyHost (fun _ => 50)
    (List.replicate 40 SETUP_UNUSED) (by decide)
    (by
      intro k
      by_cases hk : k < 18
      · interval_cases k <;> decide
      · have e : exampleArgs.processedSizes k = 0 := by
          unfold exampleArgs
          exact List.getD_eq_default _ _ (by simp; omega)
        rw [e]; decide)
    (fun _ => by simp) (by decide) (by decide)
  obtain ⟨⟨w0, _, _, _, _, _, h0, _, _, _, _, _, a0, b0, _⟩, ⟨v0, _, _, g0, _, _, c0, d0, _⟩⟩ := t
  exact ⟨⟨w0, h0, a0, b0⟩, ⟨v0, g0, c0, d0⟩⟩

/-- Claim C8.  The setup array built by a successful `fpga_setup_host_datamem` has
`SETUP_LINES * CACHELINE_DBL_WORDS = 40` words; the 31 words with index 0..30 are
the six size words and the 25 pointer words, and every word with index 31..39
holds the value `0xDEADC0DEDEADC0DE`, for all input lengths. -/
theorem setup_array_shape (a : DatamemArgs) (ok : Nat → Bool) (h : HostData)
    (hret : (fpga_setup_host_datamem a ok h).1 = 0) :
    SETUP_LINES * CACHELINE_DBL_WORDS = 40 ∧
      (fpga_setup_host_datamem a ok h).2.setupArray.length = 40 ∧
      (∀ i, 31 ≤ i → i < 40 →
        (fpga_setup_host_datamem a ok h).2.setupArray[i]? = some 0xDEADC0DEDEADC0DE) ∧
      (fpga_setup_host_datamem a ok h).2.setupArray =
        [ sizePair (a.processedSizes 1) (a.processedSizes 0),
          sizePair a.config_bits (a.processedSizes 2),
          dbufposAt (array_lens a) 2 1 / CACHELINE_BYTES,
          dbufposAt (array_lens a) 3 1 / CACHELINE_BYTES,
          dbufposAt (array_lens a) 3 0 / CACHELINE_BYTES,
          dbufposAt (array_lens a) 2 0 / CACHELINE_BYTES,
          dbufposAt (array_lens a) 3 2 / CACHELINE_BYTES,
          dbufposAt (array_lens a) 3 3 / CACHELINE_BYTES,
          sizePair (a.processedSizes 7) (a.processedSizes 6),
          toULong (a.processedSizes 8),
          dbufposAt (array_lens a) 0 4 / CACHELINE_BYTES,
          dbufposAt (array_lens a) 1 0 / CACHELINE_BYTES,
          dbufposAt (array_lens a) 0 1 / CACHELINE_BYTES,
          dbufposAt (array_lens a) 1 3 / CACHELINE_BYTES,
          dbufposAt (array_lens a) 1 6 / CACHELINE_BYTES,
          dbufposAt (array_lens a) 3 4 / CACHELINE_BYTES,
          sizePair (a.processedSizes 13) (a.processedSizes 12),
          toULong (a.processedSizes 14),
          dbufposAt (array_lens a) 0 5 / CACHELINE_BYTES,
          dbufposAt (array_lens a) 1 1 / CACHELINE_BYTES,
          dbufposAt (array_lens a) 0 2 / CACHELINE_BYTES,
          dbufposAt (array_lens a) 1 4 / CACHELINE_BYTES,
          dbufposAt (array_lens a) 1 7 / CACHELINE_BYTES,
          dbufposAt (array_lens a) 0 7 / CACHELINE_BYTES,
          dbufposAt (array_lens a) 0 6 / CACHELINE_BYTES,
          dbufposAt (array_lens a) 1 2 / CACHELINE_BYTES,
          dbufposAt (array_lens a) 0 3 / CACHELINE_BYTES,
          dbufposAt (array_lens a) 1 5 / CACHELINE_BYTES,
          dbufposAt (array_lens a) 1 8 / CACHELINE_BYTES,
          dbufposAt (array_lens a) 4 0 / CACHELINE_BYTES,
          dbufposAt (array_lens a) 4 1 / CACHELINE_BYTES ] ++
        List.replicate 9 0xDEADC0DEDEADC0DE := by
  have e : (fpga_setup_host_datamem a ok h).2.setupArray =
      setupArray_fill a (array_lens a) := by rw [(setup_success a ok h hret).2]
  rw [e, setupArray_fill_eq]
  refine ⟨by decide, by simp, ?_, rfl⟩
  intro i h1 h2
  interval_cases i <;> rfl

/-- Witness for `setup_array_shape`: the setup array of the small system. -/
theorem setup_array_shape_witness :
    (fpga_setup_host_datamem exampleArgs (fun _ => true) emptyHost).2.setupArray.length = 40 ∧
      (fpga_setup_host_datamem exampleArgs (fun _ => true) emptyHost).2.setupArray[31]? =
        some 0xDEADC0DEDEADC0DE :=
  ⟨(setup_array_shape exampleArgs (fun _ => true) emptyHost (by decide)).2.1,
    (setup_array_shape exampleArgs (fun _ => true) emptyHost (by decide)).2.2.1 31
      (by decide) (by decide)⟩

/-- Claim C9, as amended.  For every debug buffer whose `N` lines are within the
reach of the decoder (`N <= INT_MAX`, word indices below `2^32`) and whose line 0
carries the signature and has the abort bit clear, `decode_debuginfo_bicgstab`
returns 0 if and only if no written sample line has a non-zero overflow field, and
returns 1 (with `kernel_overflow` set) otherwise, whatever the no-results,
write-after-end and debug-fifo-full bits are: of the informational conditions only
the overflow of a sample line changes the return code. -/
theorem decode_ret_with_valid_status (buf : Nat → Nat) (N cdw : Nat) (norms : List Nat)
    (idx : Nat) (hfit : linesFit N cdw) (hs : signatureValid buf cdw)
    (ha : ¬ abortBit buf cdw) :
    ((decode_debuginfo_bicgstab buf N cdw norms idx).ret = 0 ↔
        ¬ ∃ l, 1 ≤ l ∧ l < N ∧ sampleOverflow buf cdw l) ∧
      ((decode_debuginfo_bicgstab buf N cdw norms idx).ret = 1 ↔
        ∃ l, 1 ≤ l ∧ l < N ∧ sampleOverflow buf cdw l) ∧
      ((decode_debuginfo_bicgstab buf N cdw norms idx).kernel_overflow = true ↔
        ∃ l, 1 ≤ l ∧ l < N ∧ sampleOverflow buf cdw l) ∧
      (decode_debuginfo_bicgstab buf N cdw norms idx).kernel_signature = false ∧
      (decode_debuginfo_bicgstab buf N cdw norms idx).kernel_aborted = false := by
  rw [decode_eq_upto _ _ _ _ _ hfit.1]
  obtain ⟨i1, i2, i3, i4, -⟩ := decode_upto_status buf N cdw norms idx N
  generalize decode_upto buf N cdw norms idx N = s at i1 i2 i3 i4 ⊢
  have j1 : s.kernel_signature = false := by
    cases h : s.kernel_signature
    · rfl
    · exact absurd hs (i1.mp h).2
  have j2 : s.kernel_aborted = false := by
    cases h : s.kernel_aborted
    · rfl
    · exact absurd (i2.mp h).2.2 ha
  rw [j1, j2] at i4
  refine ⟨?_, ?_, i3, j1, j2⟩
  · rw [← i3, i4]
    cases s.kernel_overflow <;> simp
  · rw [← i3, i4]
    cases s.kernel_overflow <;> simp

/-- Witness for `decode_ret_with_valid_status`: the buffer `signedBuffer` has no
overflow and is decoded with return code 0. -/
theorem decode_ret_with_valid_status_witness :
    (decode_debuginfo_bicgstab signedBuffer 4 8 [0, 0, 0, 0] 0).ret = 0 ∧
      ((decode_debuginfo_bicgstab signedBuffer 4 8 [0, 0, 0, 0] 0).ret = 0 ↔
        ¬ ∃ l, 1 ≤ l ∧ l < 4 ∧ sampleOverflow signedBuffer 8 l) :=
  ⟨by decide,
    (decode_ret_with_valid_status signedBuffer 4 8 [0, 0, 0, 0] 0 (by decide) (by decide)
      (by decide)).1⟩

/-- Claim C9, counterexample.  Line 0 of `overflowBuffer` carries the signature
and has the abort bit clear, and line 3 has the reduce unit overflow bit set: the
decoder sets `kernel_overflow` and returns 1, not 0; the cycles, the iteration
count, the norms and the newest index are still those of line 3.  With the line
count `2^31` the cast `(int)debug_outbuf_words` is negative, the loop reads no
line, and the decoder returns 0 without the overflow flag for the same words. -/
theorem decode_overflow_is_a_failure :
    signatureValid overflowBuffer 8 ∧ ¬ abortBit overflowBuffer 8 ∧
      (decode_debuginfo_bicgstab overflowBuffer 4 8 [0, 0, 0, 0] 0).ret ≠ 0 ∧
      decode_debuginfo_bicgstab overflowBuffer 4 8 [0, 0, 0, 0] 0 =
        { ret := 1, kernel_cycles := 12345, kernel_iterations := 1,
          norms := [0x3FF0000000000000, 0x3FE0000000000000, 0, 0], last_norm_idx := 2,
          kernel_aborted := false, kernel_signature := false, kernel_overflow := true,
          kernel_noresults := false, kernel_wrafterend := false,
          kernel_dbgfifofull := false, dbgcount_max := 2 } ∧
      sampleOverflow overflowBuffer 8 3 ∧
      (decode_debuginfo_bicgstab overflowBuffer 2147483648 8 [0, 0, 0, 0] 0).ret = 0 ∧
      (decode_debuginfo_bicgstab overflowBuffer 2147483648 8 [0, 0, 0, 0] 0).kernel_overflow =
        false := by
  decide

/-- Claim C10, as amended.  For every debug buffer with `N >= 1` lines within
the reach of the decoder (`N <= INT_MAX`, word indices below `2^32`) whose line
0 has a signature field (word 7, bits 40..63) different from `0x414442`,
`decode_debuginfo_bicgstab` returns 1 with the signature flag set, with
`kernel_cycles = 0` and with the abort, no-results, write-after-end and fifo-full
flags false.  The iteration count, the norms and the newest index are still taken
from the sample lines: they are the same as for every buffer with the same sample
lines (for instance one with a valid line 0), and `kernel_iterations = 0` when all
sample lines are unwritten. -/
theorem decode_wrong_signature (buf : Nat → Nat) (N cdw : Nat) (norms : List Nat)
    (idx : Nat) (hN : 1 ≤ N) (hfit : linesFit N cdw) (hs : ¬ signatureValid buf cdw) :
    (decode_debuginfo_bicgstab buf N cdw norms idx).ret = 1 ∧
      (decode_debuginfo_bicgstab buf N cdw norms idx).kernel_signature = true ∧
      (decode_debuginfo_bicgstab buf N cdw norms idx).kernel_cycles = 0 ∧
      (decode_debuginfo_bicgstab buf N cdw norms idx).kernel_aborted = false ∧
      (decode_debuginfo_bicgstab buf N cdw norms idx).kernel_noresults = false ∧
      (decode_debuginfo_bicgstab buf N cdw norms idx).kernel_wrafterend = false ∧
      (decode_debuginfo_bicgstab buf N cdw norms idx).kernel_dbgfifofull = false ∧
      (∀ buf2 : Nat → Nat, (∀ l, 1 ≤ l → ∀ k, buf (k + l * cdw) = buf2 (k + l * cdw)) →
        (decode_debuginfo_bicgstab buf N cdw norms idx).kernel_iterations =
            (decode_debuginfo_bicgstab buf2 N cdw norms idx).kernel_iterations ∧
          (decode_debuginfo_bicgstab buf N cdw norms idx).norms =
            (decode_debuginfo_bicgstab buf2 N cdw norms idx).norms ∧
          (decode_debuginfo_bicgstab buf N cdw norms idx).last_norm_idx =
            (decode_debuginfo_bicgstab buf2 N cdw norms idx).last_norm_idx) ∧
      ((∀ l, 1 ≤ l → l < N → buf (0 + l * cdw) = DEBUG_UNWRITTEN) →
        (decode_debuginfo_bicgstab buf N cdw norms idx).kernel_iterations = 0) := by
  have hr : ∀ buf2 : Nat → Nat, (∀ l, 1 ≤ l → ∀ k, buf (k + l * cdw) = buf2 (k + l * cdw)) →
      (decode_debuginfo_bicgstab buf N cdw norms idx).kernel_iterations =
          (decode_debuginfo_bicgstab buf2 N cdw norms idx).kernel_iterations ∧
        (decode_debuginfo_bicgstab buf N cdw norms idx).norms =
          (decode_debuginfo_bicgstab buf2 N cdw norms idx).norms ∧
        (decode_debuginfo_bicgstab buf N cdw norms idx).last_norm_idx =
          (decode_debuginfo_bicgstab buf2 N cdw norms idx).last_norm_idx := by
    intro buf2 hb
    rw [decode_eq_upto _ _ _ _ _ hfit.1, decode_eq_upto _ _ _ _ _ hfit.1]
    obtain ⟨r1, r2, r3, -⟩ := decode_upto_retained buf buf2 N cdw norms idx N hb
    exact ⟨r1, r2, r3⟩
  have hu : (∀ l, 1 ≤ l → l < N → buf (0 + l * cdw) = DEBUG_UNWRITTEN) →
      (decode_debuginfo_bicgstab buf N cdw norms idx).kernel_iterations = 0 := by
    intro h
    rw [decode_eq_upto _ _ _ _ _ hfit.1]
    exact (decode_upto_unwritten buf N cdw norms idx N h).1
  refine ⟨?_, ?_, ?_, ?_, ?_, ?_, ?_, hr, hu⟩ <;> rw [decode_eq_upto _ _ _ _ _ hfit.1]
  all_goals
    obtain ⟨i1, i2, i3, i4, i5⟩ := decode_upto_status buf N cdw norms idx N
    obtain ⟨f1, f2, f3⟩ := decode_upto_flags buf N cdw norms idx N
    generalize decode_upto buf N cdw norms idx N = s at i1 i2 i3 i4 i5 f1 f2 f3 ⊢
  · rw [i4, if_pos (Or.inl (i1.mpr ⟨hN, hs⟩))]
  · exact i1.mpr ⟨hN, hs⟩
  · rw [i5, if_neg]
    rintro ⟨-, h, -⟩
    exact hs h
  · cases h : s.kernel_aborted
    · rfl
    · exact absurd (i2.mp h).2.1 hs
  · cases h : s.kernel_noresults
    · rfl
    · exact absurd (f1.mp h).2.1 hs
  · cases h : s.kernel_wrafterend
    · rfl
    · exact absurd (f2.mp h).2.1 hs
  · cases h : s.kernel_dbgfifofull
    · rfl
    · exact absurd (f3.mp h).2.1 hs

/-- Witness for `decode_wrong_signature`: the buffer `unsignedBuffer` is decoded
with return code 1 and the signature flag, and with the iteration count of the
buffer `signedBuffer`, which has the same sample lines. -/
theorem decode_wrong_signature_witness :
    (decode_debuginfo_bicgstab unsignedBuffer 4 8 [0, 0, 0, 0] 0).ret = 1 ∧
      (decode_debuginfo_bicgstab unsignedBuffer 4 8 [0, 0, 0, 0] 0).kernel_signature = true ∧
      (decode_debuginfo_bicgstab unsignedBuffer 4 8 [0, 0, 0, 0] 0).kernel_cycles = 0 :=
  ⟨(decode_wrong_signature unsignedBuffer 4 8 [0, 0, 0, 0] 0 (by decide) (by decide)
      (by decide)).1,
    (decode_wrong_signature unsignedBuffer 4 8 [0, 0, 0, 0] 0 (by decide) (by decide)
      (by decide)).2.1,
    (decode_wrong_signature unsignedBuffer 4 8 [0, 0, 0, 0] 0 (by decide) (by decide)
      (by decide)).2.2.1⟩

/-- Claim C10, counterexample.  Line 0 of `unsignedBuffer` has the signature field
0, and the decoder returns 1 with the signature flag set and `kernel_cycles = 0`,
but `kernel_iterations` is 1, the iteration count of sample line 3, and not 0; the
norms of line 3 are returned as well.  With the line count `2^31` the cast
`(int)debug_outbuf_words` is negative, the loop reads no line, and the decoder
returns 0 without the signature flag. -/
theorem decode_wrong_signature_keeps_iterations :
    ¬ signatureValid unsignedBuffer 8 ∧
      (decode_debuginfo_bicgstab unsignedBuffer 4 8 [0, 0, 0, 0] 0).kernel_iterations ≠ 0 ∧
      decode_debuginfo_bicgstab unsignedBuffer 4 8 [0, 0, 0, 0] 0 =
        { ret := 1, kernel_cycles := 0, kernel_iterations := 1,
          norms := [0x3FF0000000000000, 0x3FE0000000000000, 0, 0], last_norm_idx := 2,
          kernel_aborted := false, kernel_signature := true, kernel_overflow := false,
          kernel_noresults := false, kernel_wrafterend := false,
          kernel_dbgfifofull := false, dbgcount_max := 2 } ∧
      (decode_debuginfo_bicgstab unsignedBuffer 2147483648 8 [0, 0, 0, 0] 0).ret = 0 ∧
      (decode_debuginfo_bicgstab unsignedBuffer 2147483648 8 [0, 0, 0, 0] 0).kernel_signature =
        false := by
  decide

theorem abortBit_iff (buf : Nat → Nat) (cdw : Nat) : abortBit buf cdw ↔ buf 0 % 2 = 1 := by
  unfold abortBit
  rw [Nat.and_one_is_mod, Nat.zero_mul, Nat.add_zero]
  omega

/-- Claim C11, as amended.  For every debug buffer with `N` lines,
`1 <= N <= INT_MAX`, whose line 0 carries the valid signature,
`decode_debuginfo_bicgstab` sets `kernel_aborted` to true if and only if bit 0 of
word 0 of line 0 is 1, and when the flag is set the decoder returns 1, a
failure. -/
theorem decode_aborted_iff_abort_bit (buf : Nat → Nat) (N cdw : Nat) (norms : List Nat)
    (idx : Nat) (hN : 1 ≤ N) (hmax : N ≤ 2147483647) (hs : signatureValid buf cdw) :
    ((decode_debuginfo_bicgstab buf N cdw norms idx).kernel_aborted = true ↔
        buf 0 % 2 = 1) ∧
      ((decode_debuginfo_bicgstab buf N cdw norms idx).kernel_aborted = true →
        (decode_debuginfo_bicgstab buf N cdw norms idx).ret = 1 ∧
          (decode_debuginfo_bicgstab buf N cdw norms idx).ret ≠ 0) := by
  rw [decode_eq_upto _ _ _ _ _ hmax]
  obtain ⟨-, i2, -, i4, -⟩ := decode_upto_status buf N cdw norms idx N
  generalize decode_upto buf N cdw norms idx N = s at i2 i4 ⊢
  refine ⟨?_, ?_⟩
  · rw [i2, ← abortBit_iff buf cdw]
    exact ⟨fun h => h.2.2, fun h => ⟨hN, hs, h⟩⟩
  · intro h
    rw [i4, if_pos (Or.inr (Or.inl h))]
    exact ⟨rfl, by decide⟩

/-- Witness for `decode_aborted_iff_abort_bit`: the buffer `abortedBuffer` is
decoded with the abort flag and the return code 1. -/
theorem decode_aborted_iff_abort_bit_witness :
    (decode_debuginfo_bicgstab abortedBuffer 2 8 [0, 0, 0, 0] 0).kernel_aborted = true ∧
      (decode_debuginfo_bicgstab abortedBuffer 2 8 [0, 0, 0, 0] 0).ret = 1 :=
  ⟨(decode_aborted_iff_abort_bit abortedBuffer 2 8 [0, 0, 0, 0] 0 (by decide) (by decide)
      (by decide)).1.mpr (by decide),
    ((decode_aborted_iff_abort_bit abortedBuffer 2 8 [0, 0, 0, 0] 0 (by decide) (by decide)
      (by decide)).2 (by decide)).1⟩

/-- Claim C11, counterexample.  Line 0 of `abortedBuffer` carries the valid
signature and has bit 0 of word 0 set.  For the line count `2^31` the cast
`(int)debug_outbuf_words` is negative and the loop reads no line: the decoder
leaves `kernel_aborted` false and returns 0. -/
theorem decode_abort_bit_unread :
    signatureValid abortedBuffer 8 ∧ abortedBuffer 0 % 2 = 1 ∧
      (decode_debuginfo_bicgstab abortedBuffer 2147483648 8 [0, 0, 0, 0] 0).kernel_aborted =
        false ∧
      (decode_debuginfo_bicgstab abortedBuffer 2147483648 8 [0, 0, 0, 0] 0).ret = 0 := by
  decide

/-- Claim C12, as amended.  For every debug buffer with `N` lines,
`1 <= N <= INT_MAX`, `decode_debuginfo_bicgstab` returns `kernel_cycles` equal to
the low 32 bits of word 1 of line 0 when line 0 has the valid signature and the
abort bit (bit 0 of word 0) clear, and `kernel_cycles = 0` otherwise. -/
theorem decode_cycles (buf : Nat → Nat) (N cdw : Nat) (norms : List Nat) (idx : Nat)
    (hN : 1 ≤ N) (hmax : N ≤ 2147483647) :
    (signatureValid buf cdw ∧ buf 0 % 2 = 0 →
        (decode_debuginfo_bicgstab buf N cdw norms idx).kernel_cycles =
          buf 1 % 4294967296) ∧
      (¬ (signatureValid buf cdw ∧ buf 0 % 2 = 0) →
        (decode_debuginfo_bicgstab buf N cdw norms idx).kernel_cycles = 0) := by
  rw [decode_eq_upto _ _ _ _ _ hmax]
  obtain ⟨-, -, -, -, i5⟩ := decode_upto_status buf N cdw norms idx N
  generalize decode_upto buf N cdw norms idx N = s at i5 ⊢
  have hab : ¬ abortBit buf cdw ↔ buf 0 % 2 = 0 := by
    rw [abortBit_iff]; omega
  have hw : buf (1 + 0 * cdw) &&& 0xFFFFFFFF = buf 1 % 4294967296 := by
    rw [Nat.zero_mul, Nat.add_zero]
    exact Nat.and_pow_two_sub_one_eq_mod (buf 1) 32
  refine ⟨?_, ?_⟩
  · rintro ⟨h1, h2⟩
    rw [i5, if_pos ⟨hN, h1, hab.mpr h2⟩, hw]
  · intro h
    rw [i5, if_neg]
    rintro ⟨-, h1, h2⟩
    exact h ⟨h1, hab.mp h2⟩

/-- Witness for `decode_cycles`: 12345 cycles are returned for `signedBuffer`, and
0 cycles for `abortedBuffer`, whose word 1 is 12345 as well. -/
theorem decode_cycles_witness :
    (decode_debuginfo_bicgstab signedBuffer 4 8 [0, 0, 0, 0] 0).kernel_cycles =
        signedBuffer 1 % 4294967296 ∧
      (decode_debuginfo_bicgstab abortedBuffer 2 8 [0, 0, 0, 0] 0).kernel_cycles = 0 :=
  ⟨(decode_cycles signedBuffer 4 8 [0, 0, 0, 0] 0 (by decide) (by decide)).1 (by decide),
    (decode_cycles abortedBuffer 2 8 [0, 0, 0, 0] 0 (by decide) (by decide)).2 (by decide)⟩

/-- Claim C12, counterexample.  Line 0 of `signedBuffer` has the valid signature,
the abort bit clear and 12345 in the low 32 bits of word 1.  For the line count
`2^31` the cast `(int)debug_outbuf_words` is negative and the loop reads no line:
the decoder returns `kernel_cycles = 0`. -/
theorem decode_cycles_unread :
    signatureValid signedBuffer 8 ∧ signedBuffer 0 % 2 = 0 ∧
      signedBuffer 1 % 4294967296 = 12345 ∧
      (decode_debuginfo_bicgstab signedBuffer 2147483648 8 [0, 0, 0, 0] 0).kernel_cycles =
        0 := by
  decide

/-- Claim C13, the code at the failing input.  Line 0 of `writeAfterEndBuffer` has
the valid signature and word 0 equal to 4: bit 2 (write after end) is 1 and the
bits 1 (no results) and 3 (debug fifo full) are 0.  The decoder returns
`kernel_wrafterend = true` and also `kernel_noresults = true`: the expression
`(bool)(w >> 1) & 1` converts `w >> 1` to `bool` before the mask is applied, so the
flag is set when any of the bits 1..63 is set. -/
theorem decode_noresults_set_by_higher_bit :
    signatureValid writeAfterEndBuffer 8 ∧
      writeAfterEndBuffer 0 / 2 % 2 = 0 ∧ writeAfterEndBuffer 0 / 4 % 2 = 1 ∧
      writeAfterEndBuffer 0 / 8 % 2 = 0 ∧
      decode_debuginfo_bicgstab writeAfterEndBuffer 1 8 [0, 0, 0, 0] 0 =
        { ret := 0, kernel_cycles := 12345, kernel_iterations := 0, norms := [0, 0, 0, 0],
          last_norm_idx := 0, kernel_aborted := false, kernel_signature := false,
          kernel_overflow := false, kernel_noresults := true, kernel_wrafterend := true,
          kernel_dbgfifofull := false, dbgcount_max := 0 } := by
  decide

/-- The entries of `overflow` are the fields of the listed layout, followed by the
nine entries that are never assigned. -/
theorem overflow_fields_eq_layout (w : Nat) :
    overflow_fields w =
      overflowLayout.map (fun p => w / 2 ^ p.1 % 2 ^ p.2) ++ List.replicate 9 0 := by
  have h1 : ∀ o, bitField w o 1 = w / 2 ^ o % 2 ^ 1 := fun o => bitField_eq w o 1
  have h3 : ∀ o, bitField w o 0x7 = w / 2 ^ o % 2 ^ 3 := fun o => bitField_eq w o 3
  have h4 : ∀ o, bitField w o 0xF = w / 2 ^ o % 2 ^ 4 := fun o => bitField_eq w o 4
  have h5 : ∀ o, bitField w o 0x1F = w / 2 ^ o % 2 ^ 5 := fun o => bitField_eq w o 5
  have h8 : ∀ o, bitField w o 0xFF = w / 2 ^ o % 2 ^ 8 := fun o => bitField_eq w o 8
  unfold overflow_fields overflowLayout
  rw [h1, h1, h8, h4, h4, h4, h1, h1, h1, h1, h1, h1, h1, h1, h1, h1, h1, h5, h3, h4, h4]
  rfl

theorem overflow_sum_ne_zero_iff (w : Nat) :
    (overflow_fields w).sum ≠ 0 ↔ ∃ p, p ∈ overflowLayout ∧ w / 2 ^ p.1 % 2 ^ p.2 ≠ 0 := by
  rw [overflow_fields_eq_layout, List.sum_append, List.sum_replicate, smul_zero, add_zero,
    Ne, List.sum_eq_zero_iff]
  simp only [List.mem_map, forall_exists_index, and_imp, forall_apply_eq_imp_iff₂, not_forall,
    exists_prop]

/-- Claim C14, as amended.  For every debug buffer whose `N` lines are within
the reach of the decoder (`N <= INT_MAX`, word indices below `2^32`),
`decode_debuginfo_bicgstab` sets `kernel_overflow` to true if and only if some
sample line `l` (`1 <= l < N`) whose word 0 differs from `0x5A5A5A5A5A5A5A5A` has
at least one non-zero field among the 21 overflow fields of word 0, taken at the
bit offsets and with the bit widths of `overflowLayout`; when all these fields are
zero in every sample line the flag is false, whatever the other bits of word 0
are. -/
theorem decode_overflow_iff_field (buf : Nat → Nat) (N cdw : Nat) (norms : List Nat)
    (idx : Nat) (hfit : linesFit N cdw) :
    ((decode_debuginfo_bicgstab buf N cdw norms idx).kernel_overflow = true ↔
        ∃ l, 1 ≤ l ∧ l < N ∧ buf (l * cdw) ≠ 0x5A5A5A5A5A5A5A5A ∧
          ∃ p, p ∈ overflowLayout ∧ buf (l * cdw) / 2 ^ p.1 % 2 ^ p.2 ≠ 0) ∧
      ((∀ l, 1 ≤ l → l < N → ∀ p, p ∈ overflowLayout →
          buf (l * cdw) / 2 ^ p.1 % 2 ^ p.2 = 0) →
        (decode_debuginfo_bicgstab buf N cdw norms idx).kernel_overflow = false) := by
  have key : (decode_debuginfo_bicgstab buf N cdw norms idx).kernel_overflow = true ↔
      ∃ l, 1 ≤ l ∧ l < N ∧ buf (l * cdw) ≠ 0x5A5A5A5A5A5A5A5A ∧
        ∃ p, p ∈ overflowLayout ∧ buf (l * cdw) / 2 ^ p.1 % 2 ^ p.2 ≠ 0 := by
    rw [decode_eq_upto _ _ _ _ _ hfit.1, (decode_upto_status buf N cdw norms idx N).2.2.1]
    have e : ∀ l, sampleOverflow buf cdw l ↔
        (buf (l * cdw) ≠ 0x5A5A5A5A5A5A5A5A ∧
          ∃ p, p ∈ overflowLayout ∧ buf (l * cdw) / 2 ^ p.1 % 2 ^ p.2 ≠ 0) := by
      intro l
      unfold sampleOverflow
      rw [overflow_sum_ne_zero_iff, Nat.zero_add]
      rfl
    constructor
    · rintro ⟨l, h1, h2, h3⟩
      exact ⟨l, h1, h2, (e l).mp h3⟩
    · rintro ⟨l, h1, h2, h3⟩
      exact ⟨l, h1, h2, (e l).mpr h3⟩
  refine ⟨key, ?_⟩
  intro hz
  cases h : (decode_debuginfo_bicgstab buf N cdw norms idx).kernel_overflow
  · rfl
  · obtain ⟨l, h1, h2, -, p, hp, hne⟩ := key.mp h
    exact absurd (hz l h1 h2 p hp) hne

/-- Witness for `decode_overflow_iff_field`: the overflow flag is set for
`overflowBuffer`, whose line 3 has the reduce unit overflow bit set. -/
theorem decode_overflow_iff_field_witness :
    linesFit 4 8 ∧
      (decode_debuginfo_bicgstab overflowBuffer 4 8 [0, 0, 0, 0] 0).kernel_overflow = true :=
  ⟨by decide,
    (decode_overflow_iff_field overflowBuffer 4 8 [0, 0, 0, 0] 0 (by decide)).1.mpr
      ⟨3, by decide, by decide, by decide, (0, 1), by decide, by decide⟩⟩

/-- Claim C14, counterexample.  Word 0 of line 3 of `overflowBuffer` is 1: the
line is written and its first overflow field (bit 0) is not zero.  For the line
count `2^31` the cast `(int)debug_outbuf_words` is negative and the loop reads no
line: the decoder leaves `kernel_overflow` false. -/
theorem decode_overflow_unread :
    (1 ≤ 3 ∧ 3 < 2147483648 ∧ overflowBuffer (3 * 8) ≠ 0x5A5A5A5A5A5A5A5A ∧
      ((0, 1) : Nat × Nat) ∈ overflowLayout ∧ overflowBuffer (3 * 8) / 2 ^ 0 % 2 ^ 1 ≠ 0) ∧
      (decode_debuginfo_bicgstab overflowBuffer 2147483648 8 [0, 0, 0, 0] 0).kernel_overflow =
        false := by
  decide

/-- The retained sample after a sample line depends on word 0 of the line only
through the comparison with the unwritten marker. -/
theorem decode_sample_retained_written (buf buf2 : Nat → Nat) (N cdw l : Nat)
    (s s2 : DecodeState)
    (hb0 : buf (0 + l * cdw) = DEBUG_UNWRITTEN ↔ buf2 (0 + l * cdw) = DEBUG_UNWRITTEN)
    (hb : ∀ k, 3 ≤ k → k ≤ 7 → buf (k + l * cdw) = buf2 (k + l * cdw))
    (h1 : s.kernel_iterations = s2.kernel_iterations) (h2 : s.norms = s2.norms)
    (h3 : s.last_norm_idx = s2.last_norm_idx) (h4 : s.dbgcount_max = s2.dbgcount_max) :
    (decode_sample buf N cdw l s).kernel_iterations =
        (decode_sample buf2 N cdw l s2).kernel_iterations ∧
      (decode_sample buf N cdw l s).norms = (decode_sample buf2 N cdw l s2).norms ∧
      (decode_sample buf N cdw l s).last_norm_idx =
        (decode_sample buf2 N cdw l s2).last_norm_idx ∧
      (decode_sample buf N cdw l s).dbgcount_max =
        (decode_sample buf2 N cdw l s2).dbgcount_max := by
  by_cases hw : buf (0 + l * cdw) = DEBUG_UNWRITTEN
  · rw [decode_sample_skip buf N cdw l s hw, decode_sample_skip buf2 N cdw l s2 (hb0.mp hw)]
    exact ⟨h1, h2, h3, h4⟩
  · have hw2 : buf2 (0 + l * cdw) ≠ DEBUG_UNWRITTEN := fun h => hw (hb0.mpr h)
    by_cases hf : bitField (buf (3 + l * cdw)) 16 0xFFFF > s.dbgcount_max ∨ N < 3
    · have hf2 : bitField (buf2 (3 + l * cdw)) 16 0xFFFF > s2.dbgcount_max ∨ N < 3 := by
        rw [← hb 3 (le_refl 3) (by omega), ← h4]; exact hf
      obtain ⟨a1, a2, a3, a4⟩ := decode_sample_take buf N cdw l s hw hf
      obtain ⟨b1, b2, b3, b4⟩ := decode_sample_take buf2 N cdw l s2 hw2 hf2
      rw [a1, a2, a3, a4, b1, b2, b3, b4, hb 3 (by omega) (by omega),
        hb 4 (by omega) (by omega), hb 5 (by omega) (by omega), hb 6 (by omega) (by omega),
        hb 7 (by omega) (by omega)]
      exact ⟨rfl, rfl, rfl, rfl⟩
    · have hf2 : ¬ (bitField (buf2 (3 + l * cdw)) 16 0xFFFF > s2.dbgcount_max ∨ N < 3) := by
        rw [← hb 3 (le_refl 3) (by omega), ← h4]; exact hf
      obtain ⟨a1, a2, a3, a4⟩ := decode_sample_keep buf N cdw l s hf
      obtain ⟨b1, b2, b3, b4⟩ := decode_sample_keep buf2 N cdw l s2 hf2
      rw [a1, a2, a3, a4, b1, b2, b3, b4]
      exact ⟨h1, h2, h3, h4⟩

theorem decode_upto_retained_written (buf buf2 : Nat → Nat) (N cdw : Nat) (norms : List Nat)
    (idx n : Nat)
    (hb0 : ∀ l, 1 ≤ l →
      (buf (0 + l * cdw) = DEBUG_UNWRITTEN ↔ buf2 (0 + l * cdw) = DEBUG_UNWRITTEN))
    (hb : ∀ l, 1 ≤ l → ∀ k, 3 ≤ k → k ≤ 7 → buf (k + l * cdw) = buf2 (k + l * cdw)) :
    (decode_upto buf N cdw norms idx n).kernel_iterations =
        (decode_upto buf2 N cdw norms idx n).kernel_iterations ∧
      (decode_upto buf N cdw norms idx n).norms =
        (decode_upto buf2 N cdw norms idx n).norms ∧
      (decode_upto buf N cdw norms idx n).last_norm_idx =
        (decode_upto buf2 N cdw norms idx n).last_norm_idx ∧
      (decode_upto buf N cdw norms idx n).dbgcount_max =
        (decode_upto buf2 N cdw norms idx n).dbgcount_max := by
  induction n with
  | zero =>
    rw [decode_upto_zero, decode_upto_zero]
    exact ⟨rfl, rfl, rfl, rfl⟩
  | succ n ih =>
    rw [decode_upto_succ, decode_upto_succ]
    generalize decode_upto buf N cdw norms idx n = s at ih ⊢
    generalize decode_upto buf2 N cdw norms idx n = s2 at ih ⊢
    obtain ⟨i1, i2, i3, i4⟩ := ih
    by_cases hn : n = 0
    · subst hn
      rw [decode_line_zero, decode_line_zero]
      obtain ⟨a1, a2, a3, a4, -⟩ := decode_status_retained buf cdw s
      obtain ⟨b1, b2, b3, b4, -⟩ := decode_status_retained buf2 cdw s2
      rw [a1, a2, a3, a4, b1, b2, b3, b4]
      exact ⟨i1, i2, i3, i4⟩
    · have hpos : 1 ≤ n := Nat.pos_of_ne_zero hn
      rw [decode_line_pos buf N cdw n s hpos, decode_line_pos buf2 N cdw n s2 hpos]
      exact decode_sample_retained_written buf buf2 N cdw n s s2 (hb0 n hpos) (hb n hpos)
        i1 i2 i3 i4

/-- Claim C15.  Overflow does not change the numeric results: for every two debug
buffers (lines of 8 words) that differ only in word 0 of sample lines (index
`>= 1`), where that word differs from the unwritten marker in both buffers,
`decode_debuginfo_bicgstab` returns the same `kernel_cycles`, `kernel_iterations`,
four norms and `last_norm_idx` for both. -/
theorem overflow_word_keeps_results (buf buf2 : Nat → Nat) (N : Nat) (norms : List Nat)
    (idx : Nat) (hsame : ∀ i, (∀ l, 1 ≤ l → i ≠ l * 8) → buf i = buf2 i)
    (hwr : ∀ l, 1 ≤ l → buf (l * 8) ≠ buf2 (l * 8) →
      buf (l * 8) ≠ DEBUG_UNWRITTEN ∧ buf2 (l * 8) ≠ DEBUG_UNWRITTEN) :
    (decode_debuginfo_bicgstab buf N 8 norms idx).kernel_cycles =
        (decode_debuginfo_bicgstab buf2 N 8 norms idx).kernel_cycles ∧
      (decode_debuginfo_bicgstab buf N 8 norms idx).kernel_iterations =
        (decode_debuginfo_bicgstab buf2 N 8 norms idx).kernel_iterations ∧
      (decode_debuginfo_bicgstab buf N 8 norms idx).norms =
        (decode_debuginfo_bicgstab buf2 N 8 norms idx).norms ∧
      (decode_debuginfo_bicgstab buf N 8 norms idx).last_norm_idx =
        (decode_debuginfo_bicgstab buf2 N 8 norms idx).last_norm_idx := by
  rw [decode_eq_loop, decode_eq_loop]
  generalize (toInt (N : Int)).toNat = n
  have hb0 : ∀ l, 1 ≤ l →
      (buf (0 + l * 8) = DEBUG_UNWRITTEN ↔ buf2 (0 + l * 8) = DEBUG_UNWRITTEN) := by
    intro l hl
    rw [Nat.zero_add]
    by_cases he : buf (l * 8) = buf2 (l * 8)
    · rw [he]
    · obtain ⟨h1, h2⟩ := hwr l hl he
      exact ⟨fun h => absurd h h1, fun h => absurd h h2⟩
  have hb : ∀ l, 1 ≤ l → ∀ k, 3 ≤ k → k ≤ 7 → buf (k + l * 8) = buf2 (k + l * 8) := by
    intro l _ k h3 h7
    apply hsame
    intro l2 _
    omega
  obtain ⟨r1, r2, r3, -⟩ := decode_upto_retained_written buf buf2 N 8 norms idx n hb0 hb
  refine ⟨?_, r1, r2, r3⟩
  have e0 : buf (0 + 0 * 8) = buf2 (0 + 0 * 8) := hsame _ (fun l hl => by omega)
  have e1 : buf (1 + 0 * 8) = buf2 (1 + 0 * 8) := hsame _ (fun l hl => by omega)
  have e7 : buf (7 + 0 * 8) = buf2 (7 + 0 * 8) := hsame _ (fun l hl => by omega)
  have hsig : signatureValid buf 8 ↔ signatureValid buf2 8 := by
    unfold signatureValid; rw [e7]
  have hab : abortBit buf 8 ↔ abortBit buf2 8 := by
    unfold abortBit; rw [e0]
  rw [(decode_upto_status buf N 8 norms idx n).2.2.2.2,
    (decode_upto_status buf2 N 8 norms idx n).2.2.2.2, e1]
  by_cases hc : 0 < n ∧ signatureValid buf 8 ∧ ¬ abortBit buf 8
  · rw [if_pos hc, if_pos ⟨hc.1, hsig.mp hc.2.1, fun h => hc.2.2 (hab.mpr h)⟩]
  · rw [if_neg hc, if_neg]
    rintro ⟨h1, h2, h3⟩
    exact hc ⟨h1, hsig.mpr h2, fun h => h3 (hab.mp h)⟩

/-- Witness for `overflow_word_keeps_results`: the buffers `overflowBuffer` and
`overflowBuffer2` differ in word 0 of the lines 2 and 3 only. -/
theorem overflow_word_keeps_results_witness :
    (decode_debuginfo_bicgstab overflowBuffer 4 8 [0, 0, 0, 0] 0).kernel_cycles =
        (decode_debuginfo_bicgstab overflowBuffer2 4 8 [0, 0, 0, 0] 0).kernel_cycles ∧
      (decode_debuginfo_bicgstab overflowBuffer 4 8 [0, 0, 0, 0] 0).kernel_iterations =
        (decode_debuginfo_bicgstab overflowBuffer2 4 8 [0, 0, 0, 0] 0).kernel_iterations ∧
      (decode_debuginfo_bicgstab overflowBuffer 4 8 [0, 0, 0, 0] 0).norms =
        (decode_debuginfo_bicgstab overflowBuffer2 4 8 [0, 0, 0, 0] 0).norms ∧
      (decode_debuginfo_bicgstab overflowBuffer 4 8 [0, 0, 0, 0] 0).last_norm_idx =
        (decode_debuginfo_bicgstab overflowBuffer2 4 8 [0, 0, 0, 0] 0).last_norm_idx :=
  overflow_word_keeps_results overflowBuffer overflowBuffer2 4 [0, 0, 0, 0] 0
    (by
      intro i hi
      by_cases h : i < 32
      · interval_cases i <;>
          first
          | rfl
          | exact absurd (by decide) (hi 2 (by decide))
          | exact absurd (by decide) (hi 3 (by decide))
      · unfold overflowBuffer overflowBuffer2 bufferOf
        rw [List.getD_eq_default _ _ (by simp; omega), List.getD_eq_default _ _ (by simp; omega)])
    (by
      intro l hl hne
      by_cases h : l < 4
      · interval_cases l
        · exact absurd rfl hne
        · exact ⟨by decide, by decide⟩
        · exact ⟨by decide, by decide⟩
      · exfalso
        apply hne
        unfold overflowBuffer overflowBuffer2 bufferOf
        rw [List.getD_eq_default _ _ (by simp; omega), List.getD_eq_default _ _ (by simp; omega)])

/-- Claim C16.  Skip rule: for every two debug buffers (lines of 8 words) that
agree everywhere except in words 1..7 of sample lines (index `>= 1`) whose word 0
equals the unwritten marker `0x5A5A5A5A5A5A5A5A`, `decode_debuginfo_bicgstab`
produces identical outputs (return code, cycles, iterations, norms, newest index
and all six flags). -/
theorem unwritten_line_is_skipped (buf buf2 : Nat → Nat) (N : Nat) (norms : List Nat)
    (idx : Nat)
    (hsame : ∀ i, buf i ≠ buf2 i →
      ∃ l k, 1 ≤ l ∧ 1 ≤ k ∧ k ≤ 7 ∧ i = k + l * 8 ∧ buf (l * 8) = 0x5A5A5A5A5A5A5A5A) :
    decode_debuginfo_bicgstab buf N 8 norms idx =
      decode_debuginfo_bicgstab buf2 N 8 norms idx := by
  have hw0 : ∀ l, buf (0 + l * 8) = buf2 (0 + l * 8) := by
    intro l
    by_contra hne
    obtain ⟨l2, k, -, h1, h2, h3, -⟩ := hsame _ hne
    omega
  have hline0 : ∀ k, k ≤ 7 → buf (k + 0 * 8) = buf2 (k + 0 * 8) := by
    intro k hk
    by_contra hne
    obtain ⟨l2, k2, h0, h1, h2, h3, -⟩ := hsame _ hne
    omega
  have hwritten : ∀ l, buf (0 + l * 8) ≠ DEBUG_UNWRITTEN → ∀ k, k ≤ 7 →
      buf (k + l * 8) = buf2 (k + l * 8) := by
    intro l hw k hk
    by_contra hne
    obtain ⟨l2, k2, h0, h1, h2, h3, h4⟩ := hsame _ hne
    have : l2 = l := by omega
    subst this
    rw [Nat.zero_add] at hw
    exact hw h4
  have hstep : ∀ (s : DecodeState) (l : Nat),
      decode_line buf N 8 s l = decode_line buf2 N 8 s l := by
    intro s l
    by_cases hl : l = 0
    · subst hl
      rw [decode_line_zero, decode_line_zero]
      unfold decode_status
      rw [hline0 7 (by omega), hline0 0 (by omega), hline0 1 (by omega)]
    · have hpos : 1 ≤ l := Nat.pos_of_ne_zero hl
      rw [decode_line_pos buf N 8 l s hpos, decode_line_pos buf2 N 8 l s hpos]
      by_cases hw : buf (0 + l * 8) = DEBUG_UNWRITTEN
      · rw [decode_sample_skip buf N 8 l s hw,
          decode_sample_skip buf2 N 8 l s ((hw0 l) ▸ hw)]
      · unfold decode_sample
        simp only []
        rw [hw0 l, hwritten l hw 3 (by omega), hwritten l hw 4 (by omega),
          hwritten l hw 5 (by omega), hwritten l hw 6 (by omega), hwritten l hw 7 (by omega)]
  have hall : ∀ n, decode_upto buf N 8 norms idx n = decode_upto buf2 N 8 norms idx n := by
    intro n
    induction n with
    | zero => rw [decode_upto_zero, decode_upto_zero]
    | succ n ih => rw [decode_upto_succ, decode_upto_succ, ih, hstep]
  rw [decode_eq_loop, decode_eq_loop, hall]

/-- Witness for `unwritten_line_is_skipped`: the buffers `signedBuffer` and
`signedBuffer2` differ in the words 1..7 of the unwritten line 1 only. -/
theorem unwritten_line_is_skipped_witness :
    decode_debuginfo_bicgstab signedBuffer 4 8 [0, 0, 0, 0] 0 =
      decode_debuginfo_bicgstab signedBuffer2 4 8 [0, 0, 0, 0] 0 :=
  unwritten_line_is_skipped signedBuffer signedBuffer2 4 [0, 0, 0, 0] 0
    (by
      intro i hne
      by_cases h : i < 32
      · have h8 : signedBuffer (1 * 8) = 0x5A5A5A5A5A5A5A5A := by decide
        interval_cases i <;>
          first
          | exact absurd rfl hne
          | exact ⟨1, 1, by decide, by decide, by decide, by decide, h8⟩
          | exact ⟨1, 2, by decide, by decide, by decide, by decide, h8⟩
          | exact ⟨1, 3, by decide, by decide, by decide, by decide, h8⟩
          | exact ⟨1, 4, by decide, by decide, by decide, by decide, h8⟩
          | exact ⟨1, 5, by decide, by decide, by decide, by decide, h8⟩
          | exact ⟨1, 6, by decide, by decide, by decide, by decide, h8⟩
          | exact ⟨1, 7, by decide, by decide, by decide, by decide, h8⟩
      · exfalso
        apply hne
        unfold signedBuffer signedBuffer2 bufferOf
        rw [List.getD_eq_default _ _ (by simp; omega), List.getD_eq_default _ _ (by simp; omega)])

/-- With three lines or more: after `n` lines `dbgcount_max` bounds the `dbgcount`
of all written sample lines seen, and it is either still 0 or the `dbgcount` of a
written sample line whose iteration count, norms and newest index are retained. -/
theorem decode_upto_freshest (buf : Nat → Nat) (N cdw : Nat) (norms : List Nat) (idx : Nat)
    (hN : 3 ≤ N) (n : Nat) :
    (∀ l, 1 ≤ l → l < n → buf (0 + l * cdw) ≠ DEBUG_UNWRITTEN →
        bitField (buf (3 + l * cdw)) 16 0xFFFF ≤
          (decode_upto buf N cdw norms idx n).dbgcount_max) ∧
      ((decode_upto buf N cdw norms idx n).dbgcount_max = 0 ∨
        ∃ l, 1 ≤ l ∧ l < n ∧ buf (0 + l * cdw) ≠ DEBUG_UNWRITTEN ∧
          bitField (buf (3 + l * cdw)) 16 0xFFFF =
            (decode_upto buf N cdw norms idx n).dbgcount_max ∧
          (decode_upto buf N cdw norms idx n).kernel_iterations =
            bitField (buf (3 + l * cdw)) 32 0xFFFF ∧
          (decode_upto buf N cdw norms idx n).norms =
            [buf (4 + l * cdw), buf (5 + l * cdw), buf (6 + l * cdw), buf (7 + l * cdw)] ∧
          (decode_upto buf N cdw norms idx n).last_norm_idx =
            bitField (buf (3 + l * cdw)) 32 0xFFFF % 3 + 1) := by
  induction n with
  | zero =>
    rw [decode_upto_zero]
    exact ⟨fun l h1 h2 => absurd h2 (Nat.not_lt_zero l), Or.inl rfl⟩
  | succ n ih =>
    rw [decode_upto_succ]
    generalize decode_upto buf N cdw norms idx n = s at ih ⊢
    obtain ⟨iA, iB⟩ := ih
    by_cases hn : n = 0
    · subst hn
      rw [decode_line_zero]
      obtain ⟨a1, a2, a3, a4, -⟩ := decode_status_retained buf cdw s
      rw [a1, a2, a3, a4]
      refine ⟨fun l h1 h2 => by omega, ?_⟩
      rcases iB with h | ⟨l, h1, h2, -⟩
      · exact Or.inl h
      · omega
    · have hpos : 1 ≤ n := Nat.pos_of_ne_zero hn
      rw [decode_line_pos buf N cdw n s hpos]
      by_cases hw : buf (0 + n * cdw) = DEBUG_UNWRITTEN
      · rw [decode_sample_skip buf N cdw n s hw]
        refine ⟨?_, ?_⟩
        · intro l h1 h2 h3
          by_cases hl : l = n
          · subst hl; exact absurd hw h3
          · exact iA l h1 (by omega) h3
        · rcases iB with h | ⟨l, h1, h2, h3⟩
          · exact Or.inl h
          · exact Or.inr ⟨l, h1, by omega, h3⟩
      · by_cases hf : bitField (buf (3 + n * cdw)) 16 0xFFFF > s.dbgcount_max ∨ N < 3
        · obtain ⟨b1, b2, b3, b4⟩ := decode_sample_take buf N cdw n s hw hf
          have hgt : bitField (buf (3 + n * cdw)) 16 0xFFFF > s.dbgcount_max := by
            rcases hf with h | h
            · exact h
            · omega
          rw [b1, b2, b3, b4]
          refine ⟨?_, Or.inr ⟨n, hpos, by omega, hw, rfl, rfl, rfl, rfl⟩⟩
          intro l h1 h2 h3
          by_cases hl : l = n
          · subst hl; exact le_refl _
          · have := iA l h1 (by omega) h3
            omega
        · obtain ⟨b1, b2, b3, b4⟩ := decode_sample_keep buf N cdw n s hf
          rw [b1, b2, b3, b4]
          refine ⟨?_, ?_⟩
          · intro l h1 h2 h3
            by_cases hl : l = n
            · subst hl
              have : ¬ bitField (buf (3 + l * cdw)) 16 0xFFFF > s.dbgcount_max :=
                fun h => hf (Or.inl h)
              omega
            · exact iA l h1 (by omega) h3
          · rcases iB with h | ⟨l, h1, h2, h3⟩
            · exact Or.inl h
            · exact Or.inr ⟨l, h1, by omega, h3⟩

/-- Claim C17, as amended.  Freshness: for every debug buffer with `N >= 3`
lines within the reach of the decoder (`N <= INT_MAX`, word indices below `2^32`)
that contains at least one written sample line, all written sample lines having
`dbgcount >= 1` (word 3, bits 16..31), there is a written sample line `l` whose
`dbgcount` is the maximum over all written sample lines and from which
`decode_debuginfo_bicgstab` takes `kernel_iterations` (word 3, bits 32..47), the
four norms (words 4..7) and `last_norm_idx`, wherever that line sits in the
buffer. -/
theorem decode_takes_freshest_sample (buf : Nat → Nat) (N cdw : Nat) (norms : List Nat)
    (idx : Nat) (hN : 3 ≤ N) (hfit : linesFit N cdw)
    (hw : ∃ l, 1 ≤ l ∧ l < N ∧ buf (l * cdw) ≠ 0x5A5A5A5A5A5A5A5A)
    (hd : ∀ l, 1 ≤ l → l < N → buf (l * cdw) ≠ 0x5A5A5A5A5A5A5A5A →
      1 ≤ buf (3 + l * cdw) / 65536 % 65536) :
    ∃ l, 1 ≤ l ∧ l < N ∧ buf (l * cdw) ≠ 0x5A5A5A5A5A5A5A5A ∧
      (∀ l2, 1 ≤ l2 → l2 < N → buf (l2 * cdw) ≠ 0x5A5A5A5A5A5A5A5A →
        buf (3 + l2 * cdw) / 65536 % 65536 ≤ buf (3 + l * cdw) / 65536 % 65536) ∧
      (decode_debuginfo_bicgstab buf N cdw norms idx).kernel_iterations =
        buf (3 + l * cdw) / 4294967296 % 65536 ∧
      (decode_debuginfo_bicgstab buf N cdw norms idx).norms =
        [buf (4 + l * cdw), buf (5 + l * cdw), buf (6 + l * cdw), buf (7 + l * cdw)] ∧
      (decode_debuginfo_bicgstab buf N cdw norms idx).last_norm_idx =
        buf (3 + l * cdw) / 4294967296 % 65536 % 3 + 1 := by
  rw [decode_eq_upto _ _ _ _ _ hfit.1]
  obtain ⟨iA, iB⟩ := decode_upto_freshest buf N cdw norms idx hN N
  generalize decode_upto buf N cdw norms idx N = s at iA iB ⊢
  simp only [Nat.zero_add, bitField_dbgcount, bitField_itrcount] at iA iB
  have hP : DEBUG_UNWRITTEN = 0x5A5A5A5A5A5A5A5A := rfl
  rw [hP] at iA iB
  rcases iB with h0 | ⟨l, h1, h2, h3, h4, h5, h6, h7⟩
  · obtain ⟨l, h1, h2, h3⟩ := hw
    have a := iA l h1 h2 h3
    have b := hd l h1 h2 h3
    omega
  · refine ⟨l, h1, h2, h3, ?_, h5, h6, h7⟩
    intro l2 g1 g2 g3
    rw [h4]
    exact iA l2 g1 g2 g3

/-- Witness for `decode_takes_freshest_sample`: in `wrappedBuffer` the written
sample lines have `dbgcount` 5, 3, 7 in buffer order, and the decoder reports line
3, the one with `dbgcount` 7: iteration count 6, norm words 30..33. -/
theorem decode_takes_freshest_sample_witness :
    (∃ l, 1 ≤ l ∧ l < 4 ∧ wrappedBuffer (l * 8) ≠ 0x5A5A5A5A5A5A5A5A ∧
      (∀ l2, 1 ≤ l2 → l2 < 4 → wrappedBuffer (l2 * 8) ≠ 0x5A5A5A5A5A5A5A5A →
        wrappedBuffer (3 + l2 * 8) / 65536 % 65536 ≤
          wrappedBuffer (3 + l * 8) / 65536 % 65536) ∧
      (decode_debuginfo_bicgstab wrappedBuffer 4 8 [0, 0, 0, 0] 0).kernel_iterations =
        wrappedBuffer (3 + l * 8) / 4294967296 % 65536 ∧
      (decode_debuginfo_bicgstab wrappedBuffer 4 8 [0, 0, 0, 0] 0).norms =
        [wrappedBuffer (4 + l * 8), wrappedBuffer (5 + l * 8), wrappedBuffer (6 + l * 8),
          wrappedBuffer (7 + l * 8)] ∧
      (decode_debuginfo_bicgstab wrappedBuffer 4 8 [0, 0, 0, 0] 0).last_norm_idx =
        wrappedBuffer (3 + l * 8) / 4294967296 % 65536 % 3 + 1) ∧
    (decode_debuginfo_bicgstab wrappedBuffer 4 8 [0, 0, 0, 0] 0).kernel_iterations = 6 ∧
    (decode_debuginfo_bicgstab wrappedBuffer 4 8 [0, 0, 0, 0] 0).norms = [30, 31, 32, 33] ∧
    (decode_debuginfo_bicgstab wrappedBuffer 4 8 [0, 0, 0, 0] 0).last_norm_idx = 1 :=
  ⟨decode_takes_freshest_sample wrappedBuffer 4 8 [0, 0, 0, 0] 0 (by decide) (by decide)
      ⟨1, by decide, by decide, by decide⟩
      (by
        intro l h1 h2 _
        interval_cases l <;> decide),
    by decide, by decide, by decide⟩

/-- Claim C17, counterexample.  The buffer `paddedBuffer` has the written sample
lines 1, 2, 3 with `dbgcount` 5, 3, 7 and unwritten lines after them.  For the
line count `2^31` the cast `(int)debug_outbuf_words` is negative and the loop
reads no line: the decoder returns the iteration count 0 and the norms and the
index 0 of the caller, and the index 0 is not the newest index
`itrcount mod 3 + 1` of any line. -/
theorem decode_freshest_sample_unread :
    (∃ l, 1 ≤ l ∧ l < 2147483648 ∧ paddedBuffer (l * 8) ≠ 0x5A5A5A5A5A5A5A5A) ∧
      (∀ l, 1 ≤ l → l < 2147483648 → paddedBuffer (l * 8) ≠ 0x5A5A5A5A5A5A5A5A →
        1 ≤ paddedBuffer (3 + l * 8) / 65536 % 65536) ∧
      (decode_debuginfo_bicgstab paddedBuffer 2147483648 8 [9, 9, 9, 9] 0).kernel_iterations =
        0 ∧
      (decode_debuginfo_bicgstab paddedBuffer 2147483648 8 [9, 9, 9, 9] 0).norms =
        [9, 9, 9, 9] ∧
      (decode_debuginfo_bicgstab paddedBuffer 2147483648 8 [9, 9, 9, 9] 0).last_norm_idx = 0 ∧
      ∀ l, (decode_debuginfo_bicgstab paddedBuffer 2147483648 8 [9, 9, 9, 9] 0).last_norm_idx ≠
        paddedBuffer (3 + l * 8) / 4294967296 % 65536 % 3 + 1 := by
  have hidx : (decode_debuginfo_bicgstab paddedBuffer 2147483648 8 [9, 9, 9, 9]
      0).last_norm_idx = 0 := by decide
  refine ⟨⟨1, by decide, by decide, by decide⟩, ?_, by decide, by decide, hidx, ?_⟩
  · intro l h1 _ hw
    by_cases h : l < 4
    · interval_cases l <;> decide
    · exfalso
      apply hw
      unfold paddedBuffer
      rw [if_neg (by omega)]
      rfl
  · intro l
    rw [hidx]
    omega

/-- With fewer than three lines: once a written line `l` is decoded it is
retained as long as only unwritten lines follow. -/
theorem decode_upto_last_written (buf : Nat → Nat) (N cdw : Nat) (norms : List Nat)
    (idx : Nat) (hN : N < 3) (l : Nat) (hl : 1 ≤ l)
    (hw : buf (0 + l * cdw) ≠ DEBUG_UNWRITTEN) (n : Nat) (hn : l + 1 ≤ n)
    (hlast : ∀ l2, l < l2 → l2 < n → buf (0 + l2 * cdw) = DEBUG_UNWRITTEN) :
    (decode_upto buf N cdw norms idx n).kernel_iterations =
        bitField (buf (3 + l * cdw)) 32 0xFFFF ∧
      (decode_upto buf N cdw norms idx n).norms =
        [buf (4 + l * cdw), buf (5 + l * cdw), buf (6 + l * cdw), buf (7 + l * cdw)] ∧
      (decode_upto buf N cdw norms idx n).last_norm_idx =
        bitField (buf (3 + l * cdw)) 32 0xFFFF % 3 + 1 := by
  induction n, hn using Nat.le_induction with
  | base =>
    rw [decode_upto_succ, decode_line_pos buf N cdw l _ hl]
    obtain ⟨-, b2, b3, b4⟩ := decode_sample_take buf N cdw l
      (decode_upto buf N cdw norms idx l) hw (Or.inr hN)
    exact ⟨b2, b3, b4⟩
  | succ n hn ih =>
    rw [decode_upto_succ, decode_line_pos buf N cdw n _ (by omega),
      decode_sample_skip buf N cdw n _ (hlast n (by omega) (by omega))]
    exact ih (fun l2 h1 h2 => hlast l2 h1 (by omega))

/-- Claim C18.  When the debug buffer holds fewer than 3 lines, every written
sample unconditionally overwrites the retained result: `decode_debuginfo_bicgstab`
reports the iteration count (word 3, bits 32..47), the norms (words 4..7) and the
newest index of the last written sample line in buffer order, whatever its
`dbgcount` is (0 included). -/
theorem decode_short_buffer_takes_last_written (buf : Nat → Nat) (N cdw : Nat)
    (norms : List Nat) (idx : Nat) (hN : N < 3) (l : Nat) (hl : 1 ≤ l) (hlN : l < N)
    (hw : buf (l * cdw) ≠ 0x5A5A5A5A5A5A5A5A)
    (hlast : ∀ l2, l < l2 → l2 < N → buf (l2 * cdw) = 0x5A5A5A5A5A5A5A5A) :
    (decode_debuginfo_bicgstab buf N cdw norms idx).kernel_iterations =
        buf (3 + l * cdw) / 4294967296 % 65536 ∧
      (decode_debuginfo_bicgstab buf N cdw norms idx).norms =
        [buf (4 + l * cdw), buf (5 + l * cdw), buf (6 + l * cdw), buf (7 + l * cdw)] ∧
      (decode_debuginfo_bicgstab buf N cdw norms idx).last_norm_idx =
        buf (3 + l * cdw) / 4294967296 % 65536 % 3 + 1 := by
  rw [decode_eq_upto _ _ _ _ _ (by omega), ← bitField_itrcount]
  refine decode_upto_last_written buf N cdw norms idx hN l hl ?_ N (by omega) ?_
  · rw [Nat.zero_add]; exact hw
  · intro l2 h1 h2
    rw [Nat.zero_add]; exact hlast l2 h1 h2

/-- Witness for `decode_short_buffer_takes_last_written`: the sample line of the
two-line buffer `shortBuffer` has `dbgcount` 0 and is reported: iteration count 7,
norm words 40..43, newest index 2. -/
theorem decode_short_buffer_takes_last_written_witness :
    shortBuffer (3 + 1 * 8) / 65536 % 65536 = 0 ∧
      (decode_debuginfo_bicgstab shortBuffer 2 8 [0, 0, 0, 0] 0).kernel_iterations =
        shortBuffer (3 + 1 * 8) / 4294967296 % 65536 ∧
      (decode_debuginfo_bicgstab shortBuffer 2 8 [0, 0, 0, 0] 0).norms =
        [shortBuffer (4 + 1 * 8), shortBuffer (5 + 1 * 8), shortBuffer (6 + 1 * 8),
          shortBuffer (7 + 1 * 8)] ∧
      (decode_debuginfo_bicgstab shortBuffer 2 8 [0, 0, 0, 0] 0).last_norm_idx =
        shortBuffer (3 + 1 * 8) / 4294967296 % 65536 % 3 + 1 ∧
      (decode_debuginfo_bicgstab shortBuffer 2 8 [0, 0, 0, 0] 0).kernel_iterations = 7 ∧
      (decode_debuginfo_bicgstab shortBuffer 2 8 [0, 0, 0, 0] 0).norms = [40, 41, 42, 43] :=
  ⟨by decide,
    (decode_short_buffer_takes_last_written shortBuffer 2 8 [0, 0, 0, 0] 0 (by decide) 1
      (by decide) (by decide) (by decide) (fun l2 h1 h2 => by omega)).1,
    (decode_short_buffer_takes_last_written shortBuffer 2 8 [0, 0, 0, 0] 0 (by decide) 1
      (by decide) (by decide) (by decide) (fun l2 h1 h2 => by omega)).2.1,
    (decode_short_buffer_takes_last_written shortBuffer 2 8 [0, 0, 0, 0] 0 (by decide) 1
      (by decide) (by decide) (by decide) (fun l2 h1 h2 => by omega)).2.2,
    by decide, by decide⟩

/-- After `n` lines: if the decoder has retained a sample of a line below `n`, the
newest index is the iteration count modulo 3, plus 1. -/
theorem decode_upto_newest_index (buf : Nat → Nat) (N cdw : Nat) (norms : List Nat)
    (idx n : Nat)
    (hr : ∃ l, 1 ≤ l ∧ l < n ∧ buf (0 + l * cdw) ≠ DEBUG_UNWRITTEN ∧
      (bitField (buf (3 + l * cdw)) 16 0xFFFF >
          (decode_upto buf N cdw norms idx l).dbgcount_max ∨ N < 3)) :
    (decode_upto buf N cdw norms idx n).last_norm_idx =
      (decode_upto buf N cdw norms idx n).kernel_iterations % 3 + 1 := by
  induction n with
  | zero =>
    obtain ⟨l, -, h2, -⟩ := hr
    omega
  | succ n ih =>
    rw [decode_upto_succ]
    by_cases hn : n = 0
    · subst hn
      obtain ⟨l, h1, h2, -⟩ := hr
      omega
    · have hpos : 1 ≤ n := Nat.pos_of_ne_zero hn
      rw [decode_line_pos buf N cdw n _ hpos]
      by_cases hw : buf (0 + n * cdw) = DEBUG_UNWRITTEN
      · rw [decode_sample_skip buf N cdw n _ hw]
        apply ih
        obtain ⟨l, h1, h2, h3, h4⟩ := hr
        by_cases hl : l = n
        · subst hl; exact absurd hw h3
        · exact ⟨l, h1, by omega, h3, h4⟩
      · by_cases hf : bitField (buf (3 + n * cdw)) 16 0xFFFF >
            (decode_upto buf N cdw norms idx n).dbgcount_max ∨ N < 3
        · obtain ⟨-, b2, -, b4⟩ := decode_sample_take buf N cdw n _ hw hf
          rw [b2, b4]
        · obtain ⟨-, b2, -, b4⟩ := decode_sample_keep buf N cdw n _ hf
          rw [b2, b4]
          apply ih
          obtain ⟨l, h1, h2, h3, h4⟩ := hr
          by_cases hl : l = n
          · subst hl; exact absurd h4 hf
          · exact ⟨l, h1, by omega, h3, h4⟩

/-- Claim C19.  Whenever `decode_debuginfo_bicgstab` retains a sample, the newest
index it returns satisfies `last_norm_idx = (kernel_iterations mod 3) + 1`, hence
`1 <= last_norm_idx <= 3`: it designates one of the three history slots
`norms[1..3]` and never the slot `norms[0]` of the initial norm.  The decoder
retains a sample when its loop reaches a line `l < (int)debug_outbuf_words` that
passes the test of line 251 (`decoderRetains`). -/
theorem decode_newest_index (buf : Nat → Nat) (N cdw : Nat) (norms : List Nat) (idx : Nat)
    (hr : ∃ l, decoderRetains buf N cdw norms idx l) :
    (decode_debuginfo_bicgstab buf N cdw norms idx).last_norm_idx =
        (decode_debuginfo_bicgstab buf N cdw norms idx).kernel_iterations % 3 + 1 ∧
      1 ≤ (decode_debuginfo_bicgstab buf N cdw norms idx).last_norm_idx ∧
      (decode_debuginfo_bicgstab buf N cdw norms idx).last_norm_idx ≤ 3 := by
  have h : (decode_debuginfo_bicgstab buf N cdw norms idx).last_norm_idx =
      (decode_debuginfo_bicgstab buf N cdw norms idx).kernel_iterations % 3 + 1 := by
    rw [decode_eq_loop]
    apply decode_upto_newest_index
    obtain ⟨l, h0, h1, -, h3, h4⟩ := hr
    exact ⟨l, h1, h0, h3, h4⟩
  refine ⟨h, ?_, ?_⟩ <;> omega

/-- Witness for `decode_newest_index`: the decoder retains line 3 of
`wrappedBuffer`, whose iteration count is 6, and returns the newest index 1. -/
theorem decode_newest_index_witness :
    decoderRetains wrappedBuffer 4 8 [9, 9, 9, 9] 0 3 ∧
      (decode_debuginfo_bicgstab wrappedBuffer 4 8 [9, 9, 9, 9] 0).last_norm_idx =
        (decode_debuginfo_bicgstab wrappedBuffer 4 8 [9, 9, 9, 9] 0).kernel_iterations % 3
          + 1 ∧
      (decode_debuginfo_bicgstab wrappedBuffer 4 8 [9, 9, 9, 9] 0).last_norm_idx = 1 :=
  ⟨by unfold decoderRetains retainsAt; decide,
    (decode_newest_index wrappedBuffer 4 8 [9, 9, 9, 9] 0
      ⟨3, by unfold decoderRetains retainsAt; decide⟩).1,
    by decide⟩

/-- Claim C20.  End-to-end scenario: for the 4-line debug buffer `signedBuffer`
with line 0 = (abort bit 0, word 1 = 12345, signature field `0x414442`), line 1
unwritten, line 2 = (`dbgcount` 1, `itrcount` 0, word 0 = 0, norm words = bit
patterns of (1.0, 0, 0, 0)), line 3 = (`dbgcount` 2, `itrcount` 1, word 0 = 0, norm
words = bit patterns of (1.0, 0.5, 0, 0)), `decode_debuginfo_bicgstab` returns 0
with cycles = 12345, iterations = 1, norms = the bit patterns of (1.0, 0.5, 0, 0),
newest index = 2 and all six diagnostic flags false, whatever the caller holds in
`norms` and `last_norm_idx` on entry. -/
theorem decode_end_to_end (norms : List Nat) (idx : Nat) :
    decode_debuginfo_bicgstab signedBuffer 4 8 norms idx =
      { ret := 0, kernel_cycles := 12345, kernel_iterations := 1,
        norms := [0x3FF0000000000000, 0x3FE0000000000000, 0, 0], last_norm_idx := 2,
        kernel_aborted := false, kernel_signature := false, kernel_overflow := false,
        kernel_noresults := false, kernel_wrafterend := false,
        kernel_dbgfifofull := false, dbgcount_max := 2 } := by
  rfl

/-! ## roundUpTo: units that are not positive, and the reference definition -/

/-- The remainder of the truncating division has the sign of the dividend and is
smaller than the divisor in absolute value. -/
theorem tmod_bounds (a b : Int) (hb : 0 < b) :
    (0 ≤ a → 0 ≤ a.tmod b ∧ a.tmod b < b) ∧ (a ≤ 0 → -b < a.tmod b ∧ a.tmod b ≤ 0) := by
  refine ⟨fun ha => ⟨Int.tmod_nonneg b ha, Int.tmod_lt_of_pos a hb⟩, fun ha => ?_⟩
  have h1 : (-a).tmod b = -(a.tmod b) := by
    rw [Int.tmod_def, Int.tmod_def, Int.neg_tdiv]
    ring
  have h2 := Int.tmod_nonneg b (show 0 ≤ -a by omega)
  have h3 := Int.tmod_lt_of_pos (-a) hb
  omega

/-- The product in the body of `roundUpTo`, before the reduction to 32 bits. -/
theorem roundUpTo_product (i n : Int) :
    (i.tdiv n + 1) * n = i + (n - i.tmod n) := by
  have h := Int.tmod_add_tdiv i n
  linear_combination h

/-- Claim C26, as amended.  `roundUpTo` has no error result and no check of
`unit`.  For every `unit < 0` it returns a value wherever its `int` arithmetic is
defined: `value` itself when `value % unit == 0` (for every pair other than
`value = INT_MIN`, `unit = -1`, whose remainder overflows), and otherwise, when
`value` is an `int` and the product `(value / unit + 1) * unit` is not below
`INT_MIN`, that product, which is a multiple of `unit` and lies below `value` by
less than `2 * |unit|`. -/
theorem roundUpTo_negative_unit (value unit : Int) (hu : unit < 0) :
    (value.tmod unit = 0 → ¬ (value = -2147483648 ∧ unit = -1) →
      roundUpTo value unit (ne_of_lt hu) = value) ∧
      (value.tmod unit ≠ 0 → value ≤ 2147483647 →
        -2147483648 ≤ (value.tdiv unit + 1) * unit →
        roundUpTo value unit (ne_of_lt hu) = (value.tdiv unit + 1) * unit ∧
        unit ∣ roundUpTo value unit (ne_of_lt hu) ∧
        value + 2 * unit < roundUpTo value unit (ne_of_lt hu) ∧
        roundUpTo value unit (ne_of_lt hu) < value) := by
  have hp := roundUpTo_product value unit
  have hb := tmod_bounds value (-unit) (by omega)
  rw [Int.tmod_neg] at hb
  have key : value.tmod unit ≠ 0 →
      value + 2 * unit < (value.tdiv unit + 1) * unit ∧ (value.tdiv unit + 1) * unit < value := by
    intro hne
    rw [hp]
    rcases le_total 0 value with h0 | h0
    · have := hb.1 h0
      omega
    · have := hb.2 h0
      omega
  refine ⟨?_, ?_⟩
  · intro h _
    unfold roundUpTo
    rw [if_pos h]
  · intro h hhi hlo
    have e : roundUpTo value unit (ne_of_lt hu) = (value.tdiv unit + 1) * unit := by
      unfold roundUpTo
      rw [if_neg h, toInt_of_range hlo (by have := key h; omega)]
    rw [e]
    exact ⟨rfl, Dvd.intro_left _ rfl, key h⟩

/-- Witness for `roundUpTo_negative_unit`: `roundUpTo(5, -2)` is 2, the product
`(5 / -2 + 1) * -2`, and `roundUpTo(16, -8)` is 16. -/
theorem roundUpTo_negative_unit_witness :
    (roundUpTo 5 (-2) (by decide) = (Int.tdiv 5 (-2) + 1) * (-2) ∧
      (-2 : Int) ∣ roundUpTo 5 (-2) (by decide) ∧
      5 + 2 * (-2) < roundUpTo 5 (-2) (by decide) ∧ roundUpTo 5 (-2) (by decide) < 5) ∧
      roundUpTo 16 (-8) (by decide) = 16 :=
  ⟨(roundUpTo_negative_unit 5 (-2) (by decide)).2 (by decide) (by decide) (by decide),
    (roundUpTo_negative_unit 16 (-8) (by decide)).1 (by decide) (by decide)⟩

/-- Claim C26, counterexample.  With the units -2 and -8, which are not positive,
`roundUpTo` returns the values 2, -6 and 16 for the values 5, -5 and 16; it has
no error result. -/
theorem roundUpTo_returns_for_negative_unit :
    roundUpTo 5 (-2) (by decide) = 2 ∧ roundUpTo (-5) (-2) (by decide) = -6 ∧
      roundUpTo 16 (-8) (by decide) = 16 := by
  decide

/-- Claim C28.  For every `value` and every `unit > 0` for which no `int`
overflows (`value` is at least `INT_MIN` and the reference result is at most
`INT_MAX`), `roundUpTo(value, unit)` is the reference `round_up(value, unit)`:
`value` when `value % unit == 0` and `value + (unit - value % unit)` otherwise.
The product `(value / unit + 1) * unit` of the code with the truncating division
is `value + (unit - value % unit)`; and for `value >= 0` the remainder is the
mathematical one. -/
theorem roundUpTo_refines_reference (value unit : Int) (hu : 0 < unit)
    (hlo : -2147483648 ≤ value) (hhi : round_up_reference value unit ≤ INT_MAX) :
    roundUpTo value unit (ne_of_gt hu) = round_up_reference value unit ∧
      (roundUpTo value unit (ne_of_gt hu) =
        if value.tmod unit = 0 then value else value + (unit - value.tmod unit)) ∧
      (value.tdiv unit + 1) * unit = value + (unit - value.tmod unit) ∧
      (0 ≤ value → round_up_reference value unit =
        if value % unit = 0 then value else value + (unit - value % unit)) := by
  have hp := roundUpTo_product value unit
  have e : roundUpTo value unit (ne_of_gt hu) = round_up_reference value unit := by
    unfold round_up_reference at hhi ⊢
    unfold roundUpTo
    by_cases h : value.tmod unit = 0
    · rw [if_pos h, if_pos h]
    · rw [if_neg h] at hhi
      rw [if_neg h, if_neg h, hp]
      have hb := tmod_bounds value unit hu
      apply toInt_of_range
      · rcases le_total 0 value with h0 | h0
        · have := hb.1 h0
          omega
        · have := hb.2 h0
          omega
      · unfold INT_MAX at hhi
        exact hhi
  refine ⟨e, ?_, hp, ?_⟩
  · rw [e]; rfl
  · intro h0
    unfold round_up_reference
    rw [Int.tmod_eq_emod h0 (le_of_lt hu)]

/-- Witness for `roundUpTo_refines_reference`: `roundUpTo(-5, 8)` and the
reference are both 8 (the division truncates towards zero). -/
theorem roundUpTo_refines_reference_witness :
    roundUpTo (-5) 8 (by decide) = round_up_reference (-5) 8 ∧
      round_up_reference (-5) 8 = 8 :=
  ⟨(roundUpTo_refines_reference (-5) 8 (by decide) (by decide) (by decide)).1, by decide⟩

/-- Claim C29, as amended.  For every element width `w` in {1, 2, 4, 8} with its
number `n = 64 / w` of elements per cacheline and every element count `c >= 0`
for which the rounded byte size fits in an `int` (`w * c <= 2^31 - 64`), the byte
size `sizeof(T) * roundUpTo(c, 64 / w)` of the code is the reference
`round_up(c * w, 64)`, the byte size rounded up to the cacheline; the size of
the color-size table is the instance `c = 4 * numColors`, `w = 4`. -/
theorem array_size_refines_reference (w n c : Int) (hwn : widthUnit w n) (hn : n ≠ 0)
    (hc : fitsInt w c) :
    n = CACHELINE_BYTES / w ∧
      sizeofTimes w (roundUpTo c n hn) = round_up_reference (c * w) CACHELINE_BYTES ∧
      sizeofTimes w (roundUpTo c n hn) = w * roundUpTo c n hn ∧
      ∀ a : DatamemArgs, fitsInt 16 (a.processedSizes 2) → c = 4 * a.processedSizes 2 →
        w = 4 → (array_lens a).len_color_sizes = round_up_reference (c * w) CACHELINE_BYTES := by
  have h1 := (sizeofTimes_exact hwn c hn hc).1
  have h2 := roundUpTo_nonneg_eq hwn c hn hc
  have hcw : 0 ≤ c * w := by
    obtain ⟨h0, -⟩ := hc
    rcases hwn with ⟨rfl, -⟩ | ⟨rfl, -⟩ | ⟨rfl, -⟩ | ⟨rfl, -⟩ <;> omega
  have key : sizeofTimes w (roundUpTo c n hn) = round_up_reference (c * w) CACHELINE_BYTES := by
    rw [h1, h2]
    unfold round_up_reference
    rw [Int.tmod_eq_emod hcw (by decide)]
    have h64 : CACHELINE_BYTES = 64 := rfl
    rw [h64]
    rcases hwn with ⟨rfl, rfl⟩ | ⟨rfl, rfl⟩ | ⟨rfl, rfl⟩ | ⟨rfl, rfl⟩ <;> split <;> omega
  refine ⟨?_, key, h1, ?_⟩
  · rcases hwn with ⟨rfl, rfl⟩ | ⟨rfl, rfl⟩ | ⟨rfl, rfl⟩ | ⟨rfl, rfl⟩ <;> decide
  · intro a ha hca hw4
    rw [← key]
    subst hca hw4
    have hn16 : n = CACHELINE_BYTES / 4 := by
      rcases hwn with ⟨h, -⟩ | ⟨-, rfl⟩ | ⟨h, -⟩ | ⟨h, -⟩
      · omega
      · decide
      · omega
      · omega
    subst hn16
    show sizeofTimes 4 (roundUpTo (toInt (4 * a.processedSizes 2)) (CACHELINE_BYTES / 4) _) = _
    simp only [(fitsInt_colors ha).1]

/-- Witness for `array_size_refines_reference`: 100 elements of 8 bytes take
832 bytes. -/
theorem array_size_refines_reference_witness :
    sizeofTimes 8 (roundUpTo 100 8 (by decide)) = round_up_reference (100 * 8) CACHELINE_BYTES ∧
      round_up_reference (100 * 8) CACHELINE_BYTES = 832 :=
  ⟨(array_size_refines_reference 8 8 100 (Or.inl ⟨rfl, rfl⟩) (by decide)
      (by unfold fitsInt; decide)).2.1, by decide⟩

/-- Claim C29, counterexample.  For `w = 8` and `c = 2^28` the byte size `c * w`
is `2^31`, a multiple of 64, so the reference is `2^31`; the byte size of the
code is an `int` and is `-2^31`. -/
theorem array_size_overflows :
    sizeofTimes 8 (roundUpTo 268435456 (CACHELINE_BYTES / 8) (by decide)) = -2147483648 ∧
      round_up_reference (268435456 * 8) CACHELINE_BYTES = 2147483648 ∧
      sizeofTimes 8 (roundUpTo 268435456 (CACHELINE_BYTES / 8) (by decide)) ≠
        round_up_reference (268435456 * 8) CACHELINE_BYTES := by
  decide

/-! ## The result offsets and the groups of the setup array -/

theorem result_offsets_fill_eq (l : ArrayLens) (r : List Int) (hr : r.length = 6) :
    result_offsets_fill l r =
      [dbufposAt l 2 0, dbufposAt l 3 1, dbufposAt l 3 0, dbufposAt l 2 1, dbufposAt l 4 2,
        dbufposAt l 4 3] := by
  rcases r with _ | ⟨a, _ | ⟨b, _ | ⟨c, _ | ⟨d, _ | ⟨e, _ | ⟨f, _ | ⟨g, r⟩⟩⟩⟩⟩⟩⟩ <;>
    simp at hr
  rfl

theorem dbufposAt_bank4 (l : ArrayLens) :
    dbufposAt l 4 1 = toUInt (0 + l.len_t_vector) ∧
      dbufposAt l 4 2 = toUInt (toUInt (0 + l.len_t_vector) + l.len_v_vector) ∧
      dbufposAt l 4 3 =
        toUInt (toUInt (toUInt (0 + l.len_t_vector) + l.len_v_vector) + l.len_L_res_vector) :=
  ⟨rfl, rfl, rfl⟩

theorem setup_pointer_words (a : DatamemArgs) (i : Nat) (hi : ∃ arr, (i, arr) ∈ setupMap) :
    isPointerWord (array_lens a) (setupArray_fill a (array_lens a)) i := by
  obtain ⟨arr, harr⟩ := hi
  have key : ∀ p, p ∈ setupMap →
      (setupArray_fill a (array_lens a))[p.1]? =
        some (dbufposAt (array_lens a) (arrayPlace p.2).1 (arrayPlace p.2).2 /
          CACHELINE_BYTES) := by
    rw [setupArray_fill_eq]
    simp only [setupMap, List.forall_mem_cons, List.not_mem_nil, false_implies,
      implies_true, and_true, List.cons_append, List.getElem?_cons_succ,
      List.getElem?_cons_zero, arrayPlace]
  exact ⟨arr, harr, key (i, arr) harr⟩

/-- Claim C24, as amended.  After a successful `fpga_setup_host_datamem` with a
table `result_offsets` of six entries, for all input lengths `result_offsets[0]`,
`[1]`, `[2]`, `[3]` are 64 times the setup words 5 (X2), 3 (R2), 4 (X1), 2 (R1).
When `rowSize` is not negative and the rounded row-vector size
`8 * roundUpTo(rowSize, 8)` fits in an `int`, `result_offsets[4]` is the byte
offset of V (64 times word 30) plus one row-vector size, and when three
row-vector sizes fit in an `unsigned int`, `result_offsets[5]` is that offset
plus two row-vector sizes. -/
theorem result_offsets_agree (a : DatamemArgs) (ok : Nat → Bool) (h : HostData)
    (hret : (fpga_setup_host_datamem a ok h).1 = 0) (hlen : h.result_offsets.length = 6) :
    ∃ w2 w3 w4 w5 w30 : Int,
      (fpga_setup_host_datamem a ok h).2.setupArray[2]? = some w2 ∧
      (fpga_setup_host_datamem a ok h).2.setupArray[3]? = some w3 ∧
      (fpga_setup_host_datamem a ok h).2.setupArray[4]? = some w4 ∧
      (fpga_setup_host_datamem a ok h).2.setupArray[5]? = some w5 ∧
      (fpga_setup_host_datamem a ok h).2.setupArray[30]? = some w30 ∧
      (fpga_setup_host_datamem a ok h).2.result_offsets[0]? = some (64 * w5) ∧
      (fpga_setup_host_datamem a ok h).2.result_offsets[1]? = some (64 * w3) ∧
      (fpga_setup_host_datamem a ok h).2.result_offsets[2]? = some (64 * w4) ∧
      (fpga_setup_host_datamem a ok h).2.result_offsets[3]? = some (64 * w2) ∧
      (fitsInt 8 (a.processedSizes 0) →
        (fpga_setup_host_datamem a ok h).2.result_offsets[4]? =
          some (64 * w30 +
            8 * roundUpTo (a.processedSizes 0) (CACHELINE_BYTES / 8) (by decide)) ∧
        (3 * (8 * roundUpTo (a.processedSizes 0) (CACHELINE_BYTES / 8) (by decide)) <
            4294967296 →
          (fpga_setup_host_datamem a ok h).2.result_offsets[5]? =
            some (64 * w30 +
              2 * (8 * roundUpTo (a.processedSizes 0) (CACHELINE_BYTES / 8) (by decide))))) := by
  have e : (fpga_setup_host_datamem a ok h).2.setupArray =
      setupArray_fill a (array_lens a) := by rw [(setup_success a ok h hret).2]
  have r : (fpga_setup_host_datamem a ok h).2.result_offsets =
      result_offsets_fill (array_lens a) h.result_offsets := by
    rw [(setup_success a ok h hret).2]
  have hd := dbufposAt_dvd (array_lens a) (arrayLen_dvd a)
  have hc : CACHELINE_BYTES = 64 := rfl
  rw [e, r, result_offsets_fill_eq _ _ hlen, setupArray_fill_eq]
  refine ⟨dbufposAt (array_lens a) 2 1 / 64, dbufposAt (array_lens a) 3 1 / 64,
    dbufposAt (array_lens a) 3 0 / 64, dbufposAt (array_lens a) 2 0 / 64,
    dbufposAt (array_lens a) 4 1 / 64, rfl, rfl, rfl, rfl, rfl, ?_, ?_, ?_, ?_, ?_⟩
  · have := hd 2 0
    simp only [List.getElem?_cons_zero, Option.some.injEq]
    omega
  · have := hd 3 1
    simp only [List.getElem?_cons_succ, List.getElem?_cons_zero, Option.some.injEq]
    omega
  · have := hd 3 0
    simp only [List.getElem?_cons_succ, List.getElem?_cons_zero, Option.some.injEq]
    omega
  · have := hd 2 1
    simp only [List.getElem?_cons_succ, List.getElem?_cons_zero, Option.some.injEq]
    omega
  · intro hfit
    obtain ⟨b1, b2, b3⟩ := dbufposAt_bank4 (array_lens a)
    have hx := sizeofTimes_exact (Or.inl ⟨rfl, by decide⟩) (a.processedSizes 0)
      (show CACHELINE_BYTES / 8 ≠ 0 by decide) hfit
    have ht : (array_lens a).len_t_vector =
        sizeofTimes 8 (roundUpTo (a.processedSizes 0) (CACHELINE_BYTES / 8) (by decide)) := rfl
    have hv : (array_lens a).len_v_vector =
        sizeofTimes 8 (roundUpTo (a.processedSizes 0) (CACHELINE_BYTES / 8) (by decide)) := rfl
    have hL : (array_lens a).len_L_res_vector =
        sizeofTimes 8 (roundUpTo (a.processedSizes 0) (CACHELINE_BYTES / 8) (by decide)) := rfl
    rw [ht, hv] at b2
    rw [ht, hv, hL] at b3
    rw [ht] at b1
    obtain ⟨hx1, hx2, hx3⟩ := hx
    obtain ⟨hf0, hf1⟩ := hfit
    simp only [List.getElem?_cons_succ, List.getElem?_cons_zero, Option.some.injEq]
    rw [b1, b2, b3, hx1]
    rw [hx1] at hx2 hx3
    have hdv : (8 : Int) ∣ roundUpTo (a.processedSizes 0) (CACHELINE_BYTES / 8) (by decide) :=
      roundUpTo_dvd (Or.inl ⟨rfl, by decide⟩) (a.processedSizes 0) (by decide)
    generalize roundUpTo (a.processedSizes 0) (CACHELINE_BYTES / 8) _ = R at *
    unfold toUInt
    refine ⟨by omega, fun h3 => by omega⟩

/-- Witness for `result_offsets_agree`: the small system, whose row vectors take
832 bytes; V is at byte 832 of bank 4 and the L and U results at 1664 and 2496. -/
theorem result_offsets_agree_witness :
    (fpga_setup_host_datamem exampleArgs (fun _ => true) emptyHost).2.result_offsets =
        [0, 832, 0, 832, 1664, 2496] ∧
      ∃ w30 : Int,
        (fpga_setup_host_datamem exampleArgs (fun _ => true) emptyHost).2.setupArray[30]? =
          some w30 ∧
        (fpga_setup_host_datamem exampleArgs (fun _ => true) emptyHost).2.result_offsets[4]? =
          some (64 * w30 +
            8 * roundUpTo (exampleArgs.processedSizes 0) (CACHELINE_BYTES / 8) (by decide)) ∧
        (fpga_setup_host_datamem exampleArgs (fun _ => true) emptyHost).2.result_offsets[5]? =
          some (64 * w30 +
            2 * (8 * roundUpTo (exampleArgs.processedSizes 0) (CACHELINE_BYTES / 8)
              (by decide))) :=
  ⟨by decide, by
    obtain ⟨w2, w3, w4, w5, w30, -, -, -, -, h30, -, -, -, -, h45⟩ :=
      result_offsets_agree exampleArgs (fun _ => true) emptyHost (by decide) (by decide)
    have h4 := h45 (by unfold fitsInt; decide)
    exact ⟨w30, h30, h4.1, h4.2 (by decide)⟩⟩

/-- Claim C24, counterexample.  With `rowSize = 2^28` (not negative) the call
succeeds, word 30 is `2^25`, so V is at byte `2^31`, and one rounded row-vector
size is `2^31`; their sum is `2^32`, but `result_offsets[4]` is 0.  With
`rowSize = 3 * 2^26` the offset of V plus two row-vector sizes is `9 * 2^29`,
but `result_offsets[5]` is `2^29`. -/
theorem result_offsets_wrap_around :
    (fpga_setup_host_datamem hugeArgs (fun _ => true) emptyHost).1 = 0 ∧
      (fpga_setup_host_datamem hugeArgs (fun _ => true) emptyHost).2.setupArray[30]? =
        some 33554432 ∧
      (fpga_setup_host_datamem hugeArgs (fun _ => true) emptyHost).2.result_offsets[4]? =
        some 0 ∧
      64 * 33554432 + 8 * roundUpTo (hugeArgs.processedSizes 0) (CACHELINE_BYTES / 8)
        (by decide) = 4294967296 ∧
      (fpga_setup_host_datamem wideArgs (fun _ => true) emptyHost).1 = 0 ∧
      (fpga_setup_host_datamem wideArgs (fun _ => true) emptyHost).2.setupArray[30]? =
        some 25165824 ∧
      (fpga_setup_host_datamem wideArgs (fun _ => true) emptyHost).2.result_offsets[5]? =
        some 536870912 ∧
      64 * 25165824 + 2 * (8 * roundUpTo (wideArgs.processedSizes 0) (CACHELINE_BYTES / 8)
        (by decide)) = 4831838208 := by
  decide

/-- Claim C27, as amended.  In the setup array built by a successful
`fpga_setup_host_datamem`, the groups `g = 0, 1, 2` (the sizes and arrays of A, L
and U) have the two size words of their bundle as words `8g` and `8g+1` and
pointers of the documented map as words `8g+2 .. 8g+7`; group 3 has pointers
as its seven words 24..30 and the unused value as word 31; and the eight
words 32..39 of group 4 all hold the unused value `0xDEADC0DEDEADC0DE`. -/
theorem setup_array_groups (a : DatamemArgs) (ok : Nat → Bool) (h : HostData)
    (hret : (fpga_setup_host_datamem a ok h).1 = 0) :
    (∀ g, g < 3 →
      (fpga_setup_host_datamem a ok h).2.setupArray[8 * g]? = (sizeWords a)[2 * g]? ∧
      (fpga_setup_host_datamem a ok h).2.setupArray[8 * g + 1]? = (sizeWords a)[2 * g + 1]? ∧
      ∀ k, 2 ≤ k → k < 8 →
        isPointerWord (array_lens a) (fpga_setup_host_datamem a ok h).2.setupArray
          (8 * g + k)) ∧
      (sizeWords a).length = 6 ∧
      (∀ k, k < 7 →
        isPointerWord (array_lens a) (fpga_setup_host_datamem a ok h).2.setupArray (24 + k)) ∧
      (fpga_setup_host_datamem a ok h).2.setupArray[31]? = some SETUP_UNUSED ∧
      (∀ k, k < 8 →
        (fpga_setup_host_datamem a ok h).2.setupArray[32 + k]? = some SETUP_UNUSED) := by
  have e : (fpga_setup_host_datamem a ok h).2.setupArray =
      setupArray_fill a (array_lens a) := by rw [(setup_success a ok h hret).2]
  rw [e]
  refine ⟨?_, rfl, ?_, ?_, ?_⟩
  · intro g hg
    refine ⟨?_, ?_, ?_⟩
    · rw [setupArray_fill_eq]
      interval_cases g <;> rfl
    · rw [setupArray_fill_eq]
      interval_cases g <;> rfl
    · intro k hk2 hk8
      apply setup_pointer_words
      interval_cases g <;> interval_cases k <;> simp [setupMap]
  · intro k hk
    apply setup_pointer_words
    interval_cases k <;> simp [setupMap]
  · rw [setupArray_fill_eq]
    rfl
  · intro k hk
    rw [setupArray_fill_eq]
    interval_cases k <;> rfl

/-- Witness for `setup_array_groups`: in the small system word 8 of group 1 is the
size pair of L (400 values, 100 rows) and word 12 is a pointer. -/
theorem setup_array_groups_witness :
    (fpga_setup_host_datamem exampleArgs (fun _ => true) emptyHost).2.setupArray[8 * 1]? =
        (sizeWords exampleArgs)[2 * 1]? ∧
      (sizeWords exampleArgs)[2 * 1]? = some (400 * 4294967296 + 100) ∧
      isPointerWord (array_lens exampleArgs)
        (fpga_setup_host_datamem exampleArgs (fun _ => true) emptyHost).2.setupArray
        (8 * 1 + 4) :=
  ⟨((setup_array_groups exampleArgs (fun _ => true) emptyHost (by decide)).1 1
      (by decide)).1, by decide,
    ((setup_array_groups exampleArgs (fun _ => true) emptyHost (by decide)).1 1
      (by decide)).2.2 4 (by decide) (by decide)⟩

/-- Claim C27, counterexample.  In the setup array of the small system the first
two words of group 3 are 1695 and 14, the pointers to the color sizes and to the
P indices of U (cachelines 1695 of bank 0 and 14 of bank 1), and are none of the
size words; the words of group 4 are not sizes and not pointers: words 32, 33
and 34 hold `0xDEADC0DEDEADC0DE`, which is none of the size words, and the map
has no pointer for word 34. -/
theorem setup_array_groups_differ :
    (fpga_setup_host_datamem exampleArgs (fun _ => true) emptyHost).1 = 0 ∧
      (fpga_setup_host_datamem exampleArgs (fun _ => true) emptyHost).2.setupArray[24]? =
        some 1695 ∧
      dbufposAt (array_lens exampleArgs) (arrayPlace ArrayId.U_colorSizes).1
        (arrayPlace ArrayId.U_colorSizes).2 / CACHELINE_BYTES = 1695 ∧
      (fpga_setup_host_datamem exampleArgs (fun _ => true) emptyHost).2.setupArray[25]? =
        some 14 ∧
      dbufposAt (array_lens exampleArgs) (arrayPlace ArrayId.U_PIndices).1
        (arrayPlace ArrayId.U_PIndices).2 / CACHELINE_BYTES = 14 ∧
      (1695 : Int) ∉ sizeWords exampleArgs ∧ (14 : Int) ∉ sizeWords exampleArgs ∧
      (fpga_setup_host_datamem exampleArgs (fun _ => true) emptyHost).2.setupArray[32]? =
        some 0xDEADC0DEDEADC0DE ∧
      (fpga_setup_host_datamem exampleArgs (fun _ => true) emptyHost).2.setupArray[33]? =
        some 0xDEADC0DEDEADC0DE ∧
      (fpga_setup_host_datamem exampleArgs (fun _ => true) emptyHost).2.setupArray[34]? =
        some 0xDEADC0DEDEADC0DE ∧
      (0xDEADC0DEDEADC0DE : Int) ∉ sizeWords exampleArgs ∧
      ¬ isPointerWord (array_lens exampleArgs)
        (fpga_setup_host_datamem exampleArgs (fun _ => true) emptyHost).2.setupArray 34 := by
  refine ⟨by decide, by decide, by decide, by decide, by decide, by decide, by decide,
    by decide, by decide, by decide, by decide, ?_⟩
  rintro ⟨arr, harr, -⟩
  simp [setupMap] at harr

/-! ## The query decoder -/

theorem query_bad_signature (buf : Nat → Nat) (cdw : Nat) (out : QueryInfo)
    (h : bitField (buf 7) 40 0xFFFFFF ≠ 0x414442) :
    decode_debuginfo_bicgstab_query buf cdw out = (1, out) := by
  unfold decode_debuginfo_bicgstab_query
  simp only [Nat.zero_mul, Nat.add_zero]
  rw [if_pos h]

theorem query_unwritten (buf : Nat → Nat) (cdw : Nat) (out : QueryInfo)
    (h : bitField (buf 7) 40 0xFFFFFF = 0x414442) (h0 : buf 0 = 0x5a5a5a5a5a5a5a5a) :
    decode_debuginfo_bicgstab_query buf cdw out = (1, out) := by
  unfold decode_debuginfo_bicgstab_query
  simp only [Nat.zero_mul, Nat.add_zero]
  rw [if_neg (not_not.mpr h), if_neg (not_not.mpr h0)]

theorem query_success (buf : Nat → Nat) (cdw : Nat) (out : QueryInfo)
    (h : bitField (buf 7) 40 0xFFFFFF = 0x414442) (h0 : buf 0 ≠ 0x5a5a5a5a5a5a5a5a) :
    (decode_debuginfo_bicgstab_query buf cdw out).1 = 0 := by
  unfold decode_debuginfo_bicgstab_query
  simp only [Nat.zero_mul, Nat.add_zero]
  rw [if_neg (not_not.mpr h), if_pos h0]

/-- Claim C21, as amended.  `decode_debuginfo_bicgstab_query` returns 0 or 1, and
it fails (returns non-zero) if and only if the signature field of line 0 (word 7,
bits 40..63) differs from `0x414442` or word 0 of line 0 is the value
`0x5a5a5a5a5a5a5a5a` of the pre-fill; for every other record it succeeds. -/
theorem query_fails_iff (debugBuffer : Nat → Nat) (cacheline_dbl_words : Nat)
    (out : QueryInfo) :
    ((decode_debuginfo_bicgstab_query debugBuffer cacheline_dbl_words out).1 ≠ 0 ↔
        (bitField (debugBuffer 7) 40 0xFFFFFF ≠ 0x414442 ∨
          debugBuffer 0 = 0x5a5a5a5a5a5a5a5a)) ∧
      ((decode_debuginfo_bicgstab_query debugBuffer cacheline_dbl_words out).1 = 0 ∨
        (decode_debuginfo_bicgstab_query debugBuffer cacheline_dbl_words out).1 = 1) := by
  by_cases h : bitField (debugBuffer 7) 40 0xFFFFFF = 0x414442
  · by_cases h0 : debugBuffer 0 = 0x5a5a5a5a5a5a5a5a
    · rw [query_unwritten _ _ _ h h0]
      exact ⟨⟨fun _ => Or.inr h0, fun _ => by simp⟩, Or.inr rfl⟩
    · rw [query_success _ _ _ h h0]
      refine ⟨⟨fun hc => absurd rfl hc, fun hc => ?_⟩, Or.inl rfl⟩
      rcases hc with hc | hc
      · exact absurd h hc
      · exact absurd hc h0
  · rw [query_bad_signature _ _ _ h]
    exact ⟨⟨fun _ => Or.inl h, fun _ => by simp⟩, Or.inr rfl⟩

/-- Claim C21, counterexample.  Line 0 carries the signature `0x414442` in the
bits 40..63 of word 7 and its word 0 is `0x5a5a5a5a5a5a5a5a`: the query returns 1
("did not return valid configuration data"). -/
theorem query_fails_with_valid_signature :
    bitField (unwrittenQueryBuffer 7) 40 0xFFFFFF = 0x414442 ∧
      (decode_debuginfo_bicgstab_query unwrittenQueryBuffer 8 emptyQuery).1 = 1 := by
  decide

/-- Claim C22.  On every input on which `decode_debuginfo_bicgstab_query` returns
non-zero, all 17 output values keep the values that they had on entry. -/
theorem query_atomic_on_failure (debugBuffer : Nat → Nat) (cacheline_dbl_words : Nat)
    (out : QueryInfo)
    (hfail : (decode_debuginfo_bicgstab_query debugBuffer cacheline_dbl_words out).1 ≠ 0) :
    (decode_debuginfo_bicgstab_query debugBuffer cacheline_dbl_words out).2 = out := by
  by_cases h : bitField (debugBuffer 7) 40 0xFFFFFF = 0x414442
  · by_cases h0 : debugBuffer 0 = 0x5a5a5a5a5a5a5a5a
    · rw [query_unwritten _ _ _ h h0]
    · exact absurd (query_success _ _ _ h h0) hfail
  · rw [query_bad_signature _ _ _ h]

/-- Witness for `query_atomic_on_failure`: a record without the signature, read
into the outputs of an earlier successful query, which are kept. -/
theorem query_atomic_on_failure_witness :
    (decode_debuginfo_bicgstab_query unsignedQueryBuffer 8
        (decode_debuginfo_bicgstab_query capabilityBuffer 8 emptyQuery).2).1 ≠ 0 ∧
      (decode_debuginfo_bicgstab_query unsignedQueryBuffer 8
        (decode_debuginfo_bicgstab_query capabilityBuffer 8 emptyQuery).2).2 =
        (decode_debuginfo_bicgstab_query capabilityBuffer 8 emptyQuery).2 ∧
      (decode_debuginfo_bicgstab_query capabilityBuffer 8 emptyQuery).2.max_row_size = 1000 :=
  ⟨by decide,
    query_atomic_on_failure unsignedQueryBuffer 8
      (decode_debuginfo_bicgstab_query capabilityBuffer 8 emptyQuery).2 (by decide),
    by decide⟩

/-! ## The pre-fill of the debug buffer -/

theorem fill_value_eq : fill_value = DEBUG_UNWRITTEN := by decide

/-- A loop of updates with one value sets the words at the indices of the loop. -/
theorem foldl_update_const (f : Nat → Int) (v : Nat) (L : List Nat) (buf : Int → Nat)
    (x : Int) :
    L.foldl (fun (b : Int → Nat) (i : Nat) => Function.update b (f i) v) buf x =
      if ∃ i, i ∈ L ∧ x = f i then v else buf x := by
  induction L generalizing buf with
  | nil => simp
  | cons a L ih =>
    rw [List.foldl_cons, ih]
    by_cases h1 : ∃ i, i ∈ L ∧ x = f i
    · obtain ⟨i, hi, hx⟩ := h1
      rw [if_pos ⟨i, hi, hx⟩, if_pos ⟨i, List.mem_cons_of_mem _ hi, hx⟩]
    · rw [if_neg h1, Function.update_apply]
      by_cases h2 : x = f a
      · rw [if_pos h2, if_pos ⟨a, List.mem_cons_self _ _, h2⟩]
      · rw [if_neg h2, if_neg]
        rintro ⟨i, hi, hx⟩
        rcases List.mem_cons.mp hi with rfl | hi
        · exact h2 hx
        · exact h1 ⟨i, hi, hx⟩

theorem fill_line_eq (buf : Int → Nat) (l : Nat) (x : Int) :
    fill_line buf l x =
      if ∃ i : Nat, i < 8 ∧ x = toInt (i + toInt (l * 8)) then fill_value else buf x := by
  have h := foldl_update_const (fun i => toInt ((i : Int) + toInt ((l : Int) * 8))) fill_value
    (List.range 8) buf x
  simp only [List.mem_range] at h
  exact h

/-- A line leaves the words alone that are not at one of its eight indices. -/
theorem fill_line_other (buf : Int → Nat) (l : Nat) (x : Int)
    (h : ∀ i : Nat, i < 8 → x ≠ toInt (i + toInt (l * 8))) : fill_line buf l x = buf x := by
  rw [fill_line_eq, if_neg]
  rintro ⟨i, hi, hx⟩
  exact h i hi hx

/-- A line sets the words at its eight indices. -/
theorem fill_line_at (buf : Int → Nat) (l : Nat) (x : Int)
    (h : ∃ i : Nat, i < 8 ∧ x = toInt (i + toInt (l * 8))) : fill_line buf l x = fill_value := by
  rw [fill_line_eq, if_pos h]

theorem fill_line_apply (buf : Int → Nat) (l : Nat) (hl : l < 268435456) (x : Int) :
    fill_line buf l x = if 8 * (l : Int) ≤ x ∧ x < 8 * l + 8 then fill_value else buf x := by
  have e : ∀ i : Nat, i < 8 → toInt ((i : Int) + toInt ((l : Int) * 8)) = 8 * l + i := by
    intro i hi
    unfold toInt
    omega
  by_cases hx : 8 * (l : Int) ≤ x ∧ x < 8 * l + 8
  · rw [if_pos hx]
    apply fill_line_at
    refine ⟨(x - 8 * l).toNat, by omega, ?_⟩
    rw [e _ (by omega)]
    omega
  · rw [if_neg hx]
    apply fill_line_other
    intro i hi
    rw [e i hi]
    omega

theorem fill_lines_apply (buf : Int → Nat) (n : Nat) (hn : n ≤ 268435456) (x : Int) :
    (List.range n).foldl fill_line buf x =
      if 0 ≤ x ∧ x < 8 * (n : Int) then fill_value else buf x := by
  induction n with
  | zero =>
    rw [if_neg (by omega)]
    rfl
  | succ n ih =>
    rw [List.range_succ, List.foldl_append, List.foldl_cons, List.foldl_nil,
      fill_line_apply _ n (by omega), ih (by omega)]
    split_ifs <;> first | rfl | omega

/-- Claim C23, as amended.  For every line count `N` up to `2^28` (the `int` index
of every word is below `2^31`), `fpga_fill_host_debugbuf` returns 0, sets every
one of the `8 * N` words of the debug buffer to `0x5A5A5A5A5A5A5A5A` and leaves
every other word alone; that value is the constant with which
`decode_debuginfo_bicgstab` compares word 0 of a sample line, so the decoder
skips every sample line `l = 1 .. N-1` of a freshly filled buffer, and its
`kernel_iterations` is 0 and `norms`, `last_norm_idx` are those of the caller. -/
theorem fill_agrees_with_decoder (N : Nat) (debugBuffer : Int → Nat) (hN : N ≤ 268435456) :
    (fpga_fill_host_debugbuf N debugBuffer).1 = 0 ∧
      (∀ i : Nat, i < 8 * N →
        (fpga_fill_host_debugbuf N debugBuffer).2 i = 0x5A5A5A5A5A5A5A5A) ∧
      (∀ x : Int, x < 0 ∨ 8 * (N : Int) ≤ x →
        (fpga_fill_host_debugbuf N debugBuffer).2 x = debugBuffer x) ∧
      DEBUG_UNWRITTEN = 0x5A5A5A5A5A5A5A5A ∧
      (∀ l, 1 ≤ l → l < N → ∀ s,
        decode_sample (wordsOf (fpga_fill_host_debugbuf N debugBuffer).2) N 8 l s = s) ∧
      ∀ norms idx,
        (decode_debuginfo_bicgstab (wordsOf (fpga_fill_host_debugbuf N debugBuffer).2) N 8
          norms idx).kernel_iterations = 0 ∧
        (decode_debuginfo_bicgstab (wordsOf (fpga_fill_host_debugbuf N debugBuffer).2) N 8
          norms idx).norms = norms ∧
        (decode_debuginfo_bicgstab (wordsOf (fpga_fill_host_debugbuf N debugBuffer).2) N 8
          norms idx).last_norm_idx = idx := by
  have hcast : (toInt (N : Int)).toNat = N := by
    unfold toInt
    omega
  have hfill : ∀ x : Int, (fpga_fill_host_debugbuf N debugBuffer).2 x =
      if 0 ≤ x ∧ x < 8 * (N : Int) then fill_value else debugBuffer x := by
    intro x
    unfold fpga_fill_host_debugbuf
    simp only [hcast]
    exact fill_lines_apply debugBuffer N hN x
  have hword : ∀ l, l < N →
      wordsOf (fpga_fill_host_debugbuf N debugBuffer).2 (0 + l * 8) = DEBUG_UNWRITTEN := by
    intro l hl
    unfold wordsOf
    rw [hfill, if_pos (by omega), fill_value_eq]
  refine ⟨rfl, ?_, ?_, rfl, ?_, ?_⟩
  · intro i hi
    rw [hfill, if_pos (by omega), fill_value_eq]
    rfl
  · intro x hx
    rw [hfill, if_neg (by omega)]
  · intro l _ hl s
    exact decode_sample_skip _ N 8 l s (hword l hl)
  · intro norms idx
    rw [decode_eq_upto _ _ _ _ _ (by omega)]
    exact decode_upto_unwritten _ N 8 norms idx N (fun l _ hl => hword l hl)

/-- Witness for `fill_agrees_with_decoder`: a buffer of two lines that held
zeros; word 15 is the last word that is set. -/
theorem fill_agrees_with_decoder_witness :
    (fpga_fill_host_debugbuf 2 (fun _ => 0)).2 ((15 : Nat) : Int) = 0x5A5A5A5A5A5A5A5A ∧
      (fpga_fill_host_debugbuf 2 (fun _ => 0)).2 16 = 0 :=
  ⟨(fill_agrees_with_decoder 2 (fun _ => 0) (by decide)).2.1 15 (by decide),
    (fill_agrees_with_decoder 2 (fun _ => 0) (by decide)).2.2.1 16 (by decide)⟩

/-- Claim C23, counterexample.  For the line count `N = 2^31` the bound
`(int)debug_outbuf_words` of the loop is negative and no word is set: word 0 of
a buffer of zeros stays 0.  For `N = 2^28 + 1` the index `i + l * 8` of the
words of the last line `l = 2^28` does not fit in an `int`: word `8 * 2^28` of
the buffer stays 0. -/
theorem fill_leaves_words_unset :
    (fpga_fill_host_debugbuf 2147483648 (fun _ => 0)).2 0 = 0 ∧
      (fpga_fill_host_debugbuf 268435457 (fun _ => 0)).2 (8 * 268435456) = 0 := by
  refine ⟨?_, ?_⟩
  · have h : (toInt ((2147483648 : Nat) : Int)).toNat = 0 := by decide
    unfold fpga_fill_host_debugbuf
    simp only [h]
    rfl
  · have h : (toInt ((268435457 : Nat) : Int)).toNat = 268435456 + 1 := by decide
    unfold fpga_fill_host_debugbuf
    simp only [h]
    rw [List.range_succ, List.foldl_append, List.foldl_cons, List.foldl_nil,
      fill_line_other _ _ _ (by
        intro i hi
        unfold toInt
        omega),
      fill_lines_apply _ _ (by decide), if_neg (by omega)]

/-! ## Wraparound of the sequence counter -/

/-- Claim C30.  For every debug buffer with `N >= 3` lines the freshness test is
the strict comparison `dbgcount > dbgcount_max`, with `dbgcount_max` starting
from 0.  So a sample line `l2` whose `dbgcount` is not greater than the
`dbgcount` of a written sample line `l1` before it is not retained: the decoder
keeps `dbgcount_max`, `kernel_iterations`, `norms` and `last_norm_idx` when it
has read line `l2`.  The same holds for every sample line with `dbgcount = 0`. -/
theorem wrapped_sample_is_discarded (debugBuffer : Nat → Nat)
    (debug_outbuf_words cacheline_dbl_words : Nat) (norms : List Nat) (last_norm_idx : Nat)
    (hN : 3 ≤ debug_outbuf_words) :
    (decode_upto debugBuffer debug_outbuf_words cacheline_dbl_words norms last_norm_idx
        0).dbgcount_max = 0 ∧
      (∀ l1 l2, 1 ≤ l1 → l1 < l2 →
        debugBuffer (0 + l1 * cacheline_dbl_words) ≠ DEBUG_UNWRITTEN →
        bitField (debugBuffer (3 + l2 * cacheline_dbl_words)) 16 0xFFFF ≤
          bitField (debugBuffer (3 + l1 * cacheline_dbl_words)) 16 0xFFFF →
        ¬ retainsAt debugBuffer debug_outbuf_words cacheline_dbl_words norms last_norm_idx l2 ∧
        (decode_upto debugBuffer debug_outbuf_words cacheline_dbl_words norms last_norm_idx
            (l2 + 1)).dbgcount_max =
          (decode_upto debugBuffer debug_outbuf_words cacheline_dbl_words norms last_norm_idx
            l2).dbgcount_max ∧
        (decode_upto debugBuffer debug_outbuf_words cacheline_dbl_words norms last_norm_idx
            (l2 + 1)).kernel_iterations =
          (decode_upto debugBuffer debug_outbuf_words cacheline_dbl_words norms last_norm_idx
            l2).kernel_iterations ∧
        (decode_upto debugBuffer debug_outbuf_words cacheline_dbl_words norms last_norm_idx
            (l2 + 1)).norms =
          (decode_upto debugBuffer debug_outbuf_words cacheline_dbl_words norms last_norm_idx
            l2).norms ∧
        (decode_upto debugBuffer debug_outbuf_words cacheline_dbl_words norms last_norm_idx
            (l2 + 1)).last_norm_idx =
          (decode_upto debugBuffer debug_outbuf_words cacheline_dbl_words norms last_norm_idx
            l2).last_norm_idx) ∧
      (∀ l, 1 ≤ l → bitField (debugBuffer (3 + l * cacheline_dbl_words)) 16 0xFFFF = 0 →
        ¬ retainsAt debugBuffer debug_outbuf_words cacheline_dbl_words norms last_norm_idx l ∧
        (decode_upto debugBuffer debug_outbuf_words cacheline_dbl_words norms last_norm_idx
            (l + 1)).dbgcount_max =
          (decode_upto debugBuffer debug_outbuf_words cacheline_dbl_words norms last_norm_idx
            l).dbgcount_max ∧
        (decode_upto debugBuffer debug_outbuf_words cacheline_dbl_words norms last_norm_idx
            (l + 1)).kernel_iterations =
          (decode_upto debugBuffer debug_outbuf_words cacheline_dbl_words norms last_norm_idx
            l).kernel_iterations ∧
        (decode_upto debugBuffer debug_outbuf_words cacheline_dbl_words norms last_norm_idx
            (l + 1)).norms =
          (decode_upto debugBuffer debug_outbuf_words cacheline_dbl_words norms last_norm_idx
            l).norms ∧
        (decode_upto debugBuffer debug_outbuf_words cacheline_dbl_words norms last_norm_idx
            (l + 1)).last_norm_idx =
          (decode_upto debugBuffer debug_outbuf_words cacheline_dbl_words norms last_norm_idx
            l).last_norm_idx) := by
  have key : ∀ l, 1 ≤ l →
      bitField (debugBuffer (3 + l * cacheline_dbl_words)) 16 0xFFFF ≤
        (decode_upto debugBuffer debug_outbuf_words cacheline_dbl_words norms last_norm_idx
          l).dbgcount_max →
      ¬ retainsAt debugBuffer debug_outbuf_words cacheline_dbl_words norms last_norm_idx l ∧
      (decode_upto debugBuffer debug_outbuf_words cacheline_dbl_words norms last_norm_idx
          (l + 1)).dbgcount_max =
        (decode_upto debugBuffer debug_outbuf_words cacheline_dbl_words norms last_norm_idx
          l).dbgcount_max ∧
      (decode_upto debugBuffer debug_outbuf_words cacheline_dbl_words norms last_norm_idx
          (l + 1)).kernel_iterations =
        (decode_upto debugBuffer debug_outbuf_words cacheline_dbl_words norms last_norm_idx
          l).kernel_iterations ∧
      (decode_upto debugBuffer debug_outbuf_words cacheline_dbl_words norms last_norm_idx
          (l + 1)).norms =
        (decode_upto debugBuffer debug_outbuf_words cacheline_dbl_words norms last_norm_idx
          l).norms ∧
      (decode_upto debugBuffer debug_outbuf_words cacheline_dbl_words norms last_norm_idx
          (l + 1)).last_norm_idx =
        (decode_upto debugBuffer debug_outbuf_words cacheline_dbl_words norms last_norm_idx
          l).last_norm_idx := by
    intro l hl hle
    have hf : ¬ (bitField (debugBuffer (3 + l * cacheline_dbl_words)) 16 0xFFFF >
        (decode_upto debugBuffer debug_outbuf_words cacheline_dbl_words norms last_norm_idx
          l).dbgcount_max ∨ debug_outbuf_words < 3) := by
      rintro (h | h) <;> omega
    refine ⟨fun hr => hf hr.2.2.2, ?_⟩
    rw [decode_upto_succ, decode_line_pos _ _ _ _ _ hl]
    exact decode_sample_keep _ _ _ _ _ hf
  refine ⟨by rw [decode_upto_zero]; rfl, ?_, ?_⟩
  · intro l1 l2 h1 h12 hw hle
    have hfresh := (decode_upto_freshest debugBuffer debug_outbuf_words cacheline_dbl_words
      norms last_norm_idx hN l2).1 l1 h1 h12 hw
    exact key l2 (by omega) (le_trans hle hfresh)
  · intro l hl h0
    exact key l hl (by rw [h0]; exact Nat.zero_le _)

/-- Witness for `wrapped_sample_is_discarded`: a buffer of three lines whose
sample lines have `dbgcount` 65535 (`itrcount` 9) and then 0 (`itrcount` 10).
Line 2 is not retained and the decoder reports the line with `dbgcount` 65535. -/
theorem wrapped_sample_is_discarded_witness :
    ¬ retainsAt wrapCountBuffer 3 8 [0, 0, 0, 0] 0 2 ∧
      (decode_debuginfo_bicgstab wrapCountBuffer 3 8 [0, 0, 0, 0] 0).kernel_iterations = 9 ∧
      (decode_debuginfo_bicgstab wrapCountBuffer 3 8 [0, 0, 0, 0] 0).norms = [10, 11, 12, 13] ∧
      (decode_debuginfo_bicgstab wrapCountBuffer 3 8 [0, 0, 0, 0] 0).dbgcount_max = 65535 :=
  ⟨((wrapped_sample_is_discarded wrapCountBuffer 3 8 [0, 0, 0, 0] 0 (by decide)).2.1 1 2
      (by decide) (by decide) (by decide) (by decide)).1,
    by decide, by decide, by decide⟩

/-! ## The pass-through kernel -/

/-- For `data_len` above `INT_MAX` the kernel has no result. -/
theorem kernel_undefined (mem_in mem_out : Int → Nat) (a_in a_out : Int) (data_len : Nat)
    (in_buffer out_buffer : Nat → Nat) (hlen : 2147483647 < data_len) :
    hls_sdaccel_kernel_iostreams_hls mem_in mem_out a_in a_out data_len in_buffer out_buffer =
      none := by
  unfold hls_sdaccel_kernel_iostreams_hls flow_in_compute_out dummy_compute
  simp only []
  rw [if_neg (by omega)]

/-- Claim C32, as amended.  `bicgstab_unit_states` names 13 states of the solver
unit (the codes 0..12 of the 4-bit code), 3 states of each dot-product/axpy
unit (codes 0..2 of the 2-bit code), 8 states of the partition unit (codes 0..7
of the 3-bit code) and 3 states of the partition-mode unit (codes 1..3 of the
2-bit code; code 0 has no name); every other code of a unit renders as
`*UNKNOWN*`. -/
theorem unit_state_names :
    namedStates 0 4 = List.range 13 ∧ namedStates 1 2 = [0, 1, 2] ∧
      namedStates 2 2 = [0, 1, 2] ∧ namedStates 3 3 = List.range 8 ∧
      namedStates 4 2 = [1, 2, 3] ∧
      (∀ state, 13 ≤ state → bicgstab_unit_states 0 state = "*UNKNOWN*") ∧
      (∀ state, 3 ≤ state → bicgstab_unit_states 1 state = "*UNKNOWN*") ∧
      (∀ state, 3 ≤ state → bicgstab_unit_states 2 state = "*UNKNOWN*") ∧
      (∀ state, 8 ≤ state → bicgstab_unit_states 3 state = "*UNKNOWN*") ∧
      (∀ state, state = 0 ∨ 4 ≤ state → bicgstab_unit_states 4 state = "*UNKNOWN*") := by
  refine ⟨by decide, by decide, by decide, by decide, by decide, ?_, ?_, ?_, ?_, ?_⟩
  · intro state h
    obtain ⟨k, rfl⟩ : ∃ k, state = k + 13 := ⟨state - 13, by omega⟩
    rfl
  · intro state h
    obtain ⟨k, rfl⟩ : ∃ k, state = k + 3 := ⟨state - 3, by omega⟩
    rfl
  · intro state h
    obtain ⟨k, rfl⟩ : ∃ k, state = k + 3 := ⟨state - 3, by omega⟩
    rfl
  · intro state h
    obtain ⟨k, rfl⟩ : ∃ k, state = k + 8 := ⟨state - 8, by omega⟩
    rfl
  · intro state h
    rcases h with rfl | h
    · rfl
    · obtain ⟨k, rfl⟩ : ∃ k, state = k + 4 := ⟨state - 4, by omega⟩
      rfl

/-- Witness for `unit_state_names`: the code 13 of the solver unit has no name. -/
theorem unit_state_names_witness : bicgstab_unit_states 0 13 = "*UNKNOWN*" :=
  unit_state_names.2.2.2.2.2.1 13 (by decide)

/-- Claim C32, counterexample.  The code 0 of the partition-mode unit renders as
`*UNKNOWN*`: the unit has 3 named states, the codes 1, 2 and 3, not 4. -/
theorem mode_unit_has_three_names :
    bicgstab_unit_states 4 0 = "*UNKNOWN*" ∧ (namedStates 4 2).length = 3 ∧
      (namedStates 4 2).length ≠ 4 := by
  decide

/-! ## The scalar parameters of the kernel -/

theorem or_fields (x y z : Nat) (hy : y < 65536) (hz : z < 65536) :
    ((x <<< 32) ||| (y <<< 16) ||| z) = x * 4294967296 + y * 65536 + z := by
  have h1 : (y <<< 16) ||| z = y * 65536 + z := by
    rw [Nat.shiftLeft_eq, Nat.mul_comm y (2 ^ 16),
      ← Nat.mul_add_lt_is_or (show z < 2 ^ 16 from hz)]
  have h2 : y * 65536 + z < 2 ^ 32 := by omega
  rw [Nat.lor_assoc, h1, Nat.shiftLeft_eq, Nat.mul_comm x (2 ^ 32),
    ← Nat.mul_add_lt_is_or h2]
  omega

/-- Claim C38.  For all `abort_cycles`, `debug_lines`, `kernel_iter` and
`debug_sample_rate` the scalar parameter 1 that `fpga_set_kernel_parameters`
builds has the bits 48..63 equal to 0: it is below `2^48`, its fields at the
offsets 0, 16 and 32 are the three arguments reduced to 16 bits.  For all
16-bit `rst_assert_cycles` and `rst_settle_cycles` the parameter 1 that
`fpga_kernel_query` builds has bit 48 equal to 1 and holds the two reset values
in the bits 0..15 and 16..31; the two words are never equal. -/
theorem param1_bit48 (abort_cycles debug_lines kernel_iter debug_sample_rate kernel_precision
    rst_assert_cycles rst_settle_cycles : Nat) :
    (fpga_set_kernel_parameters abort_cycles debug_lines kernel_iter debug_sample_rate
        kernel_precision).getD 1 0 < 2 ^ 48 ∧
      (fpga_set_kernel_parameters abort_cycles debug_lines kernel_iter debug_sample_rate
        kernel_precision).getD 1 0 >>> 48 = 0 ∧
      bitField ((fpga_set_kernel_parameters abort_cycles debug_lines kernel_iter
        debug_sample_rate kernel_precision).getD 1 0) 48 1 = 0 ∧
      bitField ((fpga_set_kernel_parameters abort_cycles debug_lines kernel_iter
        debug_sample_rate kernel_precision).getD 1 0) 0 0xFFFF = kernel_iter % 65536 ∧
      bitField ((fpga_set_kernel_parameters abort_cycles debug_lines kernel_iter
        debug_sample_rate kernel_precision).getD 1 0) 16 0xFFFF = debug_sample_rate % 65536 ∧
      bitField ((fpga_set_kernel_parameters abort_cycles debug_lines kernel_iter
        debug_sample_rate kernel_precision).getD 1 0) 32 0xFFFF = debug_lines % 65536 ∧
      (rst_assert_cycles < 65536 → rst_settle_cycles < 65536 →
        bitField ((fpga_kernel_query rst_assert_cycles rst_settle_cycles).getD 1 0) 48 1 = 1 ∧
        bitField ((fpga_kernel_query rst_assert_cycles rst_settle_cycles).getD 1 0) 0 0xFFFF =
          rst_assert_cycles ∧
        bitField ((fpga_kernel_query rst_assert_cycles rst_settle_cycles).getD 1 0) 16 0xFFFF =
          rst_settle_cycles ∧
        (fpga_kernel_query rst_assert_cycles rst_settle_cycles).getD 1 0 =
          2 ^ 48 + rst_settle_cycles * 2 ^ 16 + rst_assert_cycles ∧
        (fpga_kernel_query rst_assert_cycles rst_settle_cycles).getD 1 0 ≠
          (fpga_set_kernel_parameters abort_cycles debug_lines kernel_iter debug_sample_rate
            kernel_precision).getD 1 0) := by
  have hs : (fpga_set_kernel_parameters abort_cycles debug_lines kernel_iter debug_sample_rate
      kernel_precision).getD 1 0 =
      (debug_lines % 65536 * 4294967296 + debug_sample_rate % 65536 * 65536 +
        kernel_iter % 65536) % 18446744073709551616 := by
    have m : ∀ x : Nat, x &&& 0xFFFF = x % 65536 := fun x => Nat.and_pow_two_sub_one_eq_mod x 16
    show ((((debug_lines &&& 0xFFFF) <<< 32) ||| ((debug_sample_rate &&& 0xFFFF) <<< 16) |||
      (kernel_iter &&& 0xFFFF)) % 2 ^ 64) = _
    rw [m, m, m, or_fields _ _ _ (Nat.mod_lt _ (by decide)) (Nat.mod_lt _ (by decide))]
    rfl
  have hq : (fpga_kernel_query rst_assert_cycles rst_settle_cycles).getD 1 0 =
      (281474976710656 + rst_settle_cycles * 65536 + rst_assert_cycles) %
        18446744073709551616 := by
    show ((1 <<< 48) + (rst_settle_cycles <<< 16) + rst_assert_cycles) % 2 ^ 64 = _
    rw [Nat.shiftLeft_eq, Nat.shiftLeft_eq]
    rfl
  have b1 : ∀ w : Nat, bitField w 48 1 = w / 281474976710656 % 2 := fun w => bitField_eq w 48 1
  have b2 : ∀ w : Nat, bitField w 0 0xFFFF = w / 1 % 65536 := fun w => bitField_eq w 0 16
  have b3 : ∀ w : Nat, bitField w 16 0xFFFF = w / 65536 % 65536 := fun w => bitField_eq w 16 16
  have b4 : ∀ w : Nat, bitField w 32 0xFFFF = w / 4294967296 % 65536 :=
    fun w => bitField_eq w 32 16
  rw [b1, b2, b3, b4, hs, Nat.shiftRight_eq_div_pow]
  refine ⟨by norm_num; omega, by norm_num; omega, by omega, by omega, by omega, by omega, ?_⟩
  intro ha hsettle
  rw [b1, b2, b3, hq]
  refine ⟨by omega, by omega, by omega, by norm_num; omega, by omega⟩

/-- Witness for `param1_bit48`: a query with the reset values 10 and 20. -/
theorem param1_bit48_witness :
    bitField ((fpga_kernel_query 10 20).getD 1 0) 48 1 = 1 ∧
      bitField ((fpga_kernel_query 10 20).getD 1 0) 0 0xFFFF = 10 ∧
      bitField ((fpga_kernel_query 10 20).getD 1 0) 16 0xFFFF = 20 :=
  ⟨((param1_bit48 1000 2048 100 7 0 10 20).2.2.2.2.2.2 (by decide) (by decide)).1,
    ((param1_bit48 1000 2048 100 7 0 10 20).2.2.2.2.2.2 (by decide) (by decide)).2.1,
    ((param1_bit48 1000 2048 100 7 0 10 20).2.2.2.2.2.2 (by decide) (by decide)).2.2.1⟩

/-! ## The retained sample and the norms -/

/-- A sample line that is unwritten or fails the freshness test leaves
`dbgcount_max`, `kernel_iterations`, `norms` and `last_norm_idx` alone. -/
theorem decode_sample_not_retained (buf : Nat → Nat) (N cdw l : Nat) (s : DecodeState)
    (h : ¬ (buf (0 + l * cdw) ≠ DEBUG_UNWRITTEN ∧
      (bitField (buf (3 + l * cdw)) 16 0xFFFF > s.dbgcount_max ∨ N < 3))) :
    (decode_sample buf N cdw l s).dbgcount_max = s.dbgcount_max ∧
      (decode_sample buf N cdw l s).kernel_iterations = s.kernel_iterations ∧
      (decode_sample buf N cdw l s).norms = s.norms ∧
      (decode_sample buf N cdw l s).last_norm_idx = s.last_norm_idx := by
  by_cases hw : buf (0 + l * cdw) = DEBUG_UNWRITTEN
  · rw [decode_sample_skip buf N cdw l s hw]
    exact ⟨rfl, rfl, rfl, rfl⟩
  · exact decode_sample_keep buf N cdw l s (fun hf => h ⟨hw, hf⟩)

/-- The state after line `l` is that of line `l` when the line is retained, and
keeps the retained values otherwise. -/
theorem decode_upto_step (buf : Nat → Nat) (N cdw : Nat) (norms : List Nat) (idx l : Nat)
    (hl : l < N) :
    (retainsAt buf N cdw norms idx l →
      (decode_upto buf N cdw norms idx (l + 1)).norms =
          [buf (4 + l * cdw), buf (5 + l * cdw), buf (6 + l * cdw), buf (7 + l * cdw)] ∧
        (decode_upto buf N cdw norms idx (l + 1)).kernel_iterations =
          bitField (buf (3 + l * cdw)) 32 0xFFFF ∧
        (decode_upto buf N cdw norms idx (l + 1)).last_norm_idx =
          bitField (buf (3 + l * cdw)) 32 0xFFFF % 3 + 1) ∧
    (¬ retainsAt buf N cdw norms idx l →
      (decode_upto buf N cdw norms idx (l + 1)).dbgcount_max =
          (decode_upto buf N cdw norms idx l).dbgcount_max ∧
        (decode_upto buf N cdw norms idx (l + 1)).kernel_iterations =
          (decode_upto buf N cdw norms idx l).kernel_iterations ∧
        (decode_upto buf N cdw norms idx (l + 1)).norms =
          (decode_upto buf N cdw norms idx l).norms ∧
        (decode_upto buf N cdw norms idx (l + 1)).last_norm_idx =
          (decode_upto buf N cdw norms idx l).last_norm_idx) := by
  refine ⟨fun hr => ?_, fun hr => ?_⟩
  · obtain ⟨h1, -, hw, hf⟩ := hr
    rw [decode_upto_succ, decode_line_pos _ _ _ _ _ h1]
    obtain ⟨-, a2, a3, a4⟩ := decode_sample_take buf N cdw l _ hw hf
    exact ⟨a3, a2, a4⟩
  · rw [decode_upto_succ]
    by_cases h0 : l = 0
    · subst h0
      rw [decode_line_zero]
      obtain ⟨a1, a2, a3, a4, -⟩ := decode_status_retained buf cdw
        (decode_upto buf N cdw norms idx 0)
      exact ⟨a4, a1, a2, a3⟩
    · rw [decode_line_pos _ _ _ _ _ (by omega)]
      apply decode_sample_not_retained
      rintro ⟨hw, hf⟩
      exact hr ⟨by omega, hl, hw, hf⟩

/-- When no line below `n` is retained, the retained values are those on entry. -/
theorem decode_upto_none_retained (buf : Nat → Nat) (N cdw : Nat) (norms : List Nat)
    (idx n : Nat) (hn : n ≤ N)
    (h : ∀ l, 1 ≤ l → l < n → ¬ retainsAt buf N cdw norms idx l) :
    (decode_upto buf N cdw norms idx n).dbgcount_max = 0 ∧
      (decode_upto buf N cdw norms idx n).kernel_iterations = 0 ∧
      (decode_upto buf N cdw norms idx n).norms = norms ∧
      (decode_upto buf N cdw norms idx n).last_norm_idx = idx := by
  induction n with
  | zero =>
    rw [decode_upto_zero]
    exact ⟨rfl, rfl, rfl, rfl⟩
  | succ n ih =>
    obtain ⟨i1, i2, i3, i4⟩ := ih (by omega) (fun l h1 h2 => h l h1 (by omega))
    have hr : ¬ retainsAt buf N cdw norms idx n := by
      by_cases h0 : n = 0
      · subst h0
        exact fun hr => absurd hr.1 (by omega)
      · exact h n (by omega) (by omega)
    obtain ⟨a1, a2, a3, a4⟩ := (decode_upto_step buf N cdw norms idx n (by omega)).2 hr
    rw [a1, a2, a3, a4]
    exact ⟨i1, i2, i3, i4⟩

/-- Once line `l` has been decoded, the retained values stay as long as no later
line is retained. -/
theorem decode_upto_after_retained (buf : Nat → Nat) (N cdw : Nat) (norms : List Nat)
    (idx l n : Nat) (hn : l + 1 ≤ n) (hnN : n ≤ N)
    (h : ∀ l2, l < l2 → l2 < n → ¬ retainsAt buf N cdw norms idx l2) :
    (decode_upto buf N cdw norms idx n).norms =
        (decode_upto buf N cdw norms idx (l + 1)).norms ∧
      (decode_upto buf N cdw norms idx n).kernel_iterations =
        (decode_upto buf N cdw norms idx (l + 1)).kernel_iterations ∧
      (decode_upto buf N cdw norms idx n).last_norm_idx =
        (decode_upto buf N cdw norms idx (l + 1)).last_norm_idx := by
  induction n, hn using Nat.le_induction with
  | base => exact ⟨rfl, rfl, rfl⟩
  | succ n hn ih =>
    obtain ⟨i1, i2, i3⟩ := ih (by omega) (fun l2 h1 h2 => h l2 h1 (by omega))
    obtain ⟨-, a2, a3, a4⟩ := (decode_upto_step buf N cdw norms idx n (by omega)).2
      (h n (by omega) (by omega))
    rw [a2, a3, a4]
    exact ⟨i1, i2, i3⟩

/-- The eight bytes of a 64-bit value hold the value. -/
theorem contentOf_bytesOf (v : Nat) : contentOf (bytesOf v) = v % 2 ^ 64 := by
  unfold contentOf bytesOf
  simp only [List.getD_cons_zero, List.getD_cons_succ]
  norm_num
  omega

/-- The fields of a 64-bit pattern encode the pattern. -/
theorem bits_ofBits (p : Nat) (hp : p < 2 ^ 64) : (binary64.ofBits p).bits = p := by
  unfold binary64.bits binary64.ofBits
  simp only []
  norm_num at hp ⊢
  omega

/-- The pattern of a double decodes to the double. -/
theorem ofBits_bits (d : binary64) (hd : d.valid) : binary64.ofBits d.bits = d := by
  obtain ⟨s, e, f⟩ := d
  obtain ⟨h1, h2, h3⟩ := hd
  unfold binary64.bits binary64.ofBits
  simp only [] at h1 h2 h3 ⊢
  norm_num at h2 h3 ⊢
  refine ⟨?_, ?_, ?_⟩ <;> omega

theorem bits_lt (d : binary64) : d.bits < 2 ^ 64 := by
  unfold binary64.bits
  norm_num
  omega

theorem cur_norms_bits (buf : Nat → Nat) (cdw l : Nat) (hfit : wordsFit buf) :
    (cur_norms buf cdw l).map binary64.bits =
      [buf (4 + l * cdw), buf (5 + l * cdw), buf (6 + l * cdw), buf (7 + l * cdw)] := by
  have h : ∀ w, w < 2 ^ 64 → (double2int.set_int_val w).double_val.bits = w := by
    intro w hw
    unfold double2int.double_val double2int.set_int_val
    simp only []
    rw [contentOf_bytesOf, Nat.mod_eq_of_lt hw, bits_ofBits w hw]
  unfold cur_norms
  simp only [List.map_cons, List.map_nil]
  rw [h _ (hfit _), h _ (hfit _), h _ (hfit _), h _ (hfit _)]

theorem wordsFit_bufferOf (ws : List Nat) (h : ∀ w, w ∈ ws → w < 2 ^ 64) :
    wordsFit (bufferOf ws) := by
  intro i
  unfold bufferOf
  rw [List.getD_eq_getElem?_getD]
  by_cases hi : i < ws.length
  · rw [List.getElem?_eq_getElem hi]
    exact h _ (List.getElem_mem hi)
  · rw [List.getElem?_eq_none (by omega)]
    decide

/-- Claim C31.  For every debug buffer of 64-bit words: when the loop of
`decode_debuginfo_bicgstab` retains the sample of line `l`, the norms after that
iteration are the doubles that the conversion of the words `4 + k` of the line
through `union double2int` gives, and `norms[k]` has exactly the pattern of word
`4 + k`; the norms that the decoder returns are those of the last line that is
retained, and those of the caller when no line is retained.  Writing a 64-bit
pattern to `int_val`, reading `double_val`, writing that double back and reading
`int_val` returns the pattern, for every pattern, and a double is returned by the
round trip in the other direction. -/
theorem norms_are_bit_patterns (debugBuffer : Nat → Nat)
    (debug_outbuf_words cacheline_dbl_words : Nat) (norms : List Nat) (last_norm_idx : Nat)
    (hfit : wordsFit debugBuffer) :
    (∀ l, decoderRetains debugBuffer debug_outbuf_words cacheline_dbl_words norms
        last_norm_idx l →
      (decode_upto debugBuffer debug_outbuf_words cacheline_dbl_words norms last_norm_idx
          (l + 1)).norms = (cur_norms debugBuffer cacheline_dbl_words l).map binary64.bits ∧
      (cur_norms debugBuffer cacheline_dbl_words l).map binary64.bits =
        [debugBuffer (4 + l * cacheline_dbl_words), debugBuffer (5 + l * cacheline_dbl_words),
          debugBuffer (6 + l * cacheline_dbl_words),
          debugBuffer (7 + l * cacheline_dbl_words)] ∧
      ((∀ l2, l < l2 →
          ¬ decoderRetains debugBuffer debug_outbuf_words cacheline_dbl_words norms
            last_norm_idx l2) →
        (decode_debuginfo_bicgstab debugBuffer debug_outbuf_words cacheline_dbl_words norms
            last_norm_idx).norms =
          [debugBuffer (4 + l * cacheline_dbl_words),
            debugBuffer (5 + l * cacheline_dbl_words),
            debugBuffer (6 + l * cacheline_dbl_words),
            debugBuffer (7 + l * cacheline_dbl_words)])) ∧
      ((∀ l, ¬ decoderRetains debugBuffer debug_outbuf_words cacheline_dbl_words norms
          last_norm_idx l) →
        (decode_debuginfo_bicgstab debugBuffer debug_outbuf_words cacheline_dbl_words norms
          last_norm_idx).norms = norms) ∧
      (∀ p, p < 2 ^ 64 →
        (double2int.set_double_val (double2int.set_int_val p).double_val).int_val = p ∧
        (double2int.set_int_val p).double_val.bits = p ∧
        (double2int.set_int_val p).double_val.valid) ∧
      (∀ d : binary64, d.valid →
        (double2int.set_int_val (double2int.set_double_val d).int_val).double_val = d) := by
  refine ⟨fun l hr => ?_, fun hnone => ?_, fun p hp => ?_, fun d hd => ?_⟩
  · obtain ⟨hl, hr⟩ := hr
    have hstep := ((decode_upto_step debugBuffer debug_outbuf_words cacheline_dbl_words norms
      last_norm_idx l hr.2.1).1 hr).1
    rw [cur_norms_bits _ _ _ hfit]
    refine ⟨hstep, rfl, fun hlast => ?_⟩
    rw [decode_eq_loop,
      (decode_upto_after_retained debugBuffer debug_outbuf_words cacheline_dbl_words norms
        last_norm_idx l (toInt (debug_outbuf_words : Int)).toNat hl (loop_count_le _)
        (fun l2 h1 h2 hr2 => hlast l2 h1 ⟨h2, hr2⟩)).1]
    exact hstep
  · rw [decode_eq_loop]
    exact (decode_upto_none_retained debugBuffer debug_outbuf_words cacheline_dbl_words norms
      last_norm_idx (toInt (debug_outbuf_words : Int)).toNat (loop_count_le _)
      (fun l _ h2 hr => hnone l ⟨h2, hr⟩)).2.2.1
  · have hc : contentOf (bytesOf p) = p := by
      rw [contentOf_bytesOf, Nat.mod_eq_of_lt hp]
    unfold double2int.int_val double2int.double_val double2int.set_int_val
      double2int.set_double_val
    simp only []
    rw [hc, bits_ofBits p hp, hc]
    refine ⟨rfl, rfl, ?_⟩
    unfold binary64.valid binary64.ofBits
    simp only []
    refine ⟨?_, ?_, ?_⟩ <;> exact Nat.mod_lt _ (by decide)
  · unfold double2int.int_val double2int.double_val double2int.set_int_val
      double2int.set_double_val
    simp only []
    have hc : contentOf (bytesOf d.bits) = d.bits := by
      rw [contentOf_bytesOf, Nat.mod_eq_of_lt (bits_lt d)]
    rw [hc, hc, ofBits_bits d hd]

/-- Witness for `norms_are_bit_patterns`: in `wrappedBuffer` line 3 is retained,
it is the last line, and the norms are its words 30..33; the pattern
`0x3FF0000000000000` is read as the double 1.0 (sign 0, exponent 1023, fraction 0)
and is kept by the round trip. -/
theorem norms_are_bit_patterns_witness :
    (decode_debuginfo_bicgstab wrappedBuffer 4 8 [0, 0, 0, 0] 0).norms = [30, 31, 32, 33] ∧
      (cur_norms wrappedBuffer 8 3).map binary64.bits = [30, 31, 32, 33] ∧
      (double2int.set_int_val 0x3FF0000000000000).double_val =
        { sign := 0, exponent := 1023, fraction := 0 } ∧
      (double2int.set_double_val
        (double2int.set_int_val 0x3FF0000000000000).double_val).int_val =
        0x3FF0000000000000 :=
  ⟨((norms_are_bit_patterns wrappedBuffer 4 8 [0, 0, 0, 0] 0
      (wordsFit_bufferOf _ (by decide))).1 3
        (by unfold decoderRetains retainsAt; decide)).2.2
      (fun l2 h hr => absurd hr.2.2.1 (by omega)),
    by decide,
    by decide,
    ((norms_are_bit_patterns wrappedBuffer 4 8 [0, 0, 0, 0] 0
      (wordsFit_bufferOf _ (by decide))).2.2.1 0x3FF0000000000000 (by decide)).1⟩

/-- Claim C33, as amended.  For every debug buffer with `N >= 1` lines within
the reach of the decoder (`N <= INT_MAX`, word indices below `2^32`),
`decode_debuginfo_bicgstab` returns 0 if and only if line 0 carries the signature
`0x414442`, the abort bit of line 0 is clear and no written sample line has a
non-zero overflow field, and it returns 1 otherwise.  In every case all `N`
lines are read: the overflow flag tells whether any sample line below `N` has an
overflow, and a sample that the last line holds is retained, whatever the
return code is. -/
theorem decode_ret_iff (debugBuffer : Nat → Nat) (debug_outbuf_words cacheline_dbl_words : Nat)
    (norms : List Nat) (last_norm_idx : Nat) (hN : 1 ≤ debug_outbuf_words)
    (hfit : linesFit debug_outbuf_words cacheline_dbl_words) :
    ((decode_debuginfo_bicgstab debugBuffer debug_outbuf_words cacheline_dbl_words norms
        last_norm_idx).ret = 0 ↔
      signatureValid debugBuffer cacheline_dbl_words ∧
        ¬ abortBit debugBuffer cacheline_dbl_words ∧
        ¬ ∃ l, 1 ≤ l ∧ l < debug_outbuf_words ∧
          sampleOverflow debugBuffer cacheline_dbl_words l) ∧
      ((decode_debuginfo_bicgstab debugBuffer debug_outbuf_words cacheline_dbl_words norms
          last_norm_idx).ret ≠ 0 →
        (decode_debuginfo_bicgstab debugBuffer debug_outbuf_words cacheline_dbl_words norms
          last_norm_idx).ret = 1) ∧
      ((decode_debuginfo_bicgstab debugBuffer debug_outbuf_words cacheline_dbl_words norms
          last_norm_idx).kernel_overflow = true ↔
        ∃ l, 1 ≤ l ∧ l < debug_outbuf_words ∧
          sampleOverflow debugBuffer cacheline_dbl_words l) ∧
      (∀ l, l + 1 = debug_outbuf_words →
        retainsAt debugBuffer debug_outbuf_words cacheline_dbl_words norms last_norm_idx l →
        (decode_debuginfo_bicgstab debugBuffer debug_outbuf_words cacheline_dbl_words norms
            last_norm_idx).kernel_iterations =
          bitField (debugBuffer (3 + l * cacheline_dbl_words)) 32 0xFFFF) := by
  rw [decode_eq_upto _ _ _ _ _ hfit.1]
  obtain ⟨i1, i2, i3, i4, -⟩ := decode_upto_status debugBuffer debug_outbuf_words
    cacheline_dbl_words norms last_norm_idx debug_outbuf_words
  refine ⟨?_, ?_, i3, ?_⟩
  · rw [i4]
    constructor
    · intro h
      have hnot : ¬ ((decode_upto debugBuffer debug_outbuf_words cacheline_dbl_words norms
          last_norm_idx debug_outbuf_words).kernel_signature = true ∨
          (decode_upto debugBuffer debug_outbuf_words cacheline_dbl_words norms
            last_norm_idx debug_outbuf_words).kernel_aborted = true ∨
          (decode_upto debugBuffer debug_outbuf_words cacheline_dbl_words norms
            last_norm_idx debug_outbuf_words).kernel_overflow = true) := by
        intro hc
        rw [if_pos hc] at h
        exact absurd h (by decide)
      have hs : signatureValid debugBuffer cacheline_dbl_words := by
        by_contra hs
        exact hnot (Or.inl (i1.mpr ⟨by omega, hs⟩))
      refine ⟨hs, fun ha => hnot (Or.inr (Or.inl (i2.mpr ⟨by omega, hs, ha⟩))),
        fun ho => hnot (Or.inr (Or.inr (i3.mpr ho)))⟩
    · rintro ⟨hs, ha, ho⟩
      rw [if_neg]
      rintro (h | h | h)
      · exact (i1.mp h).2 hs
      · exact ha (i2.mp h).2.2
      · exact ho (i3.mp h)
  · rw [i4]
    intro h
    split
    · rfl
    · next hc => rw [if_neg hc] at h; exact absurd rfl h
  · intro l hl hr
    subst hl
    exact ((decode_upto_step debugBuffer (l + 1) cacheline_dbl_words norms last_norm_idx l
      (by omega)).1 hr).2.1

/-- Witness for `decode_ret_iff`: `signedBuffer` is decoded with return code 0. -/
theorem decode_ret_iff_witness :
    (decode_debuginfo_bicgstab signedBuffer 4 8 [0, 0, 0, 0] 0).ret = 0 ∧
      ((decode_debuginfo_bicgstab signedBuffer 4 8 [0, 0, 0, 0] 0).ret = 0 ↔
        signatureValid signedBuffer 8 ∧ ¬ abortBit signedBuffer 8 ∧
          ¬ ∃ l, 1 ≤ l ∧ l < 4 ∧ sampleOverflow signedBuffer 8 l) :=
  ⟨by decide, (decode_ret_iff signedBuffer 4 8 [0, 0, 0, 0] 0 (by decide) (by decide)).1⟩

/-- Claim C33, counterexample.  Line 0 of `unsignedBuffer` has no signature, and
line 3 of `overflowBuffer` has an overflow field set.  For the line count `2^31`
the cast `(int)debug_outbuf_words` is negative and the loop reads no line: the
decoder returns 0 for both buffers, with the signature and overflow flags
false. -/
theorem decode_ret_zero_unread :
    ¬ signatureValid unsignedBuffer 8 ∧
      (decode_debuginfo_bicgstab unsignedBuffer 2147483648 8 [0, 0, 0, 0] 0).ret = 0 ∧
      (decode_debuginfo_bicgstab unsignedBuffer 2147483648 8 [0, 0, 0, 0] 0).kernel_signature =
        false ∧
      (1 ≤ 3 ∧ 3 < 2147483648 ∧ sampleOverflow overflowBuffer 8 3) ∧
      (decode_debuginfo_bicgstab overflowBuffer 2147483648 8 [0, 0, 0, 0] 0).ret = 0 ∧
      (decode_debuginfo_bicgstab overflowBuffer 2147483648 8 [0, 0, 0, 0] 0).kernel_overflow =
        false := by
  decide

/-- The buffer after `fpga_fill_host_debugbuf` for a line count up to `2^28`. -/
theorem fill_apply (N : Nat) (buf : Int → Nat) (hN : N ≤ 268435456) (x : Int) :
    (fpga_fill_host_debugbuf N buf).2 x =
      if 0 ≤ x ∧ x < 8 * (N : Int) then fill_value else buf x := by
  have hcast : (toInt (N : Int)).toNat = N := by
    unfold toInt
    omega
  unfold fpga_fill_host_debugbuf
  simp only [hcast]
  exact fill_lines_apply buf N hN x

/-- Claim C34, as amended.  For every line count `N` with `1 <= N <= 2^28`,
decoding the buffer that `fpga_fill_host_debugbuf` produces with
`decode_debuginfo_bicgstab` returns 1 with the signature flag set (the bits
40..63 of the filled word are `0x5A5A5A`, not `0x414442`), `kernel_cycles = 0`,
`kernel_iterations = 0` and the overflow, abort, no-results, write-after-end and
fifo-full flags false. -/
theorem unwritten_buffer_is_a_failure (N : Nat) (debugBuffer : Int → Nat) (norms : List Nat)
    (last_norm_idx : Nat) (h1 : 1 ≤ N) (hN : N ≤ 268435456) :
    decode_debuginfo_bicgstab (wordsOf (fpga_fill_host_debugbuf N debugBuffer).2) N 8 norms
        last_norm_idx =
      { ret := 1, kernel_cycles := 0, kernel_iterations := 0, norms := norms,
        last_norm_idx := last_norm_idx, kernel_aborted := false, kernel_signature := true,
        kernel_overflow := false, kernel_noresults := false, kernel_wrafterend := false,
        kernel_dbgfifofull := false, dbgcount_max := 0 } ∧
      bitField 0x5a5a5a5a5a5a5a5a 40 0xFFFFFF = 0x5A5A5A := by
  refine ⟨?_, by decide⟩
  have hword : ∀ i : Nat, i < 8 * N →
      wordsOf (fpga_fill_host_debugbuf N debugBuffer).2 i = DEBUG_UNWRITTEN := by
    intro i hi
    unfold wordsOf
    rw [fill_apply N debugBuffer hN, if_pos (by omega), fill_value_eq]
  have hsig : ¬ signatureValid (wordsOf (fpga_fill_host_debugbuf N debugBuffer).2) 8 := by
    unfold signatureValid
    rw [hword _ (by omega)]
    decide
  have hnone : ∀ l, 1 ≤ l → l < N →
      ¬ retainsAt (wordsOf (fpga_fill_host_debugbuf N debugBuffer).2) N 8 norms
        last_norm_idx l :=
    fun l _ hl hr => hr.2.2.1 (hword _ (by omega))
  rw [decode_eq_upto _ _ _ _ _ (by omega)]
  obtain ⟨i1, i2, i3, i4, i5⟩ := decode_upto_status
    (wordsOf (fpga_fill_host_debugbuf N debugBuffer).2) N 8 norms last_norm_idx N
  obtain ⟨f1, f2, f3⟩ := decode_upto_flags
    (wordsOf (fpga_fill_host_debugbuf N debugBuffer).2) N 8 norms last_norm_idx N
  obtain ⟨r1, r2, r3, r4⟩ := decode_upto_none_retained
    (wordsOf (fpga_fill_host_debugbuf N debugBuffer).2) N 8 norms last_norm_idx N (le_refl _)
    hnone
  generalize decode_upto (wordsOf (fpga_fill_host_debugbuf N debugBuffer).2) N 8 norms
    last_norm_idx N = s at i1 i2 i3 i4 i5 f1 f2 f3 r1 r2 r3 r4 ⊢
  obtain ⟨ret, cycles, iters, nrm, idx, ab, sg, ov, nr, wr, ff, mx⟩ := s
  simp only [] at i1 i2 i3 i4 i5 f1 f2 f3 r1 r2 r3 r4
  have e1 : sg = true := i1.mpr ⟨by omega, hsig⟩
  have e2 : ab = false := by
    cases ab
    · rfl
    · exact absurd (i2.mp rfl).2.1 hsig
  have e3 : ov = false := by
    cases ov
    · rfl
    · obtain ⟨l, hl1, hl2, hw, -⟩ := i3.mp rfl
      exact absurd (hword _ (by omega)) hw
  have e4 : nr = false := by
    cases nr
    · rfl
    · exact absurd (f1.mp rfl).2.1 hsig
  have e5 : wr = false := by
    cases wr
    · rfl
    · exact absurd (f2.mp rfl).2.1 hsig
  have e6 : ff = false := by
    cases ff
    · rfl
    · exact absurd (f3.mp rfl).2.1 hsig
  subst e1 e2 e3 e4 e5 e6 r1 r2 r3 r4
  rw [if_pos (Or.inl rfl)] at i4
  rw [if_neg (fun hc => hsig hc.2.1)] at i5
  subst i4 i5
  rfl

/-- Witness for `unwritten_buffer_is_a_failure`: a buffer of two lines. -/
theorem unwritten_buffer_is_a_failure_witness :
    decode_debuginfo_bicgstab (wordsOf (fpga_fill_host_debugbuf 2 (fun _ => 0)).2) 2 8
        [1, 2, 3, 4] 2 =
      { ret := 1, kernel_cycles := 0, kernel_iterations := 0, norms := [1, 2, 3, 4],
        last_norm_idx := 2, kernel_aborted := false, kernel_signature := true,
        kernel_overflow := false, kernel_noresults := false, kernel_wrafterend := false,
        kernel_dbgfifofull := false, dbgcount_max := 0 } :=
  (unwritten_buffer_is_a_failure 2 (fun _ => 0) [1, 2, 3, 4] 2 (by decide) (by decide)).1

/-- Claim C34, counterexample.  For the line count `N = 2^31` the cast
`(int)debug_outbuf_words` is negative in `fpga_fill_host_debugbuf` and in
`decode_debuginfo_bicgstab`: no word is filled (word 7 of a buffer of zeros stays
0) and no line is decoded, so the decoder returns 0 without the signature flag. -/
theorem unwritten_buffer_is_unread :
    decode_debuginfo_bicgstab (wordsOf (fpga_fill_host_debugbuf 2147483648 (fun _ => 0)).2)
        2147483648 8 [1, 2, 3, 4] 2 =
      { ret := 0, kernel_cycles := 0, kernel_iterations := 0, norms := [1, 2, 3, 4],
        last_norm_idx := 2, kernel_aborted := false, kernel_signature := false,
        kernel_overflow := false, kernel_noresults := false, kernel_wrafterend := false,
        kernel_dbgfifofull := false, dbgcount_max := 0 } ∧
      (fpga_fill_host_debugbuf 2147483648 (fun _ => 0)).1 = 0 ∧
      (fpga_fill_host_debugbuf 2147483648 (fun _ => 0)).2 7 = 0 := by
  decide

/-! ## The writes of fpga_copy_host_datamem -/

theorem sizeArg_le {w n : Int} (hwn : widthUnit w n) (c v : Int) (hn : n ≠ 0)
    (hfit : fitsInt w c) (hv : 0 ≤ v ∧ v ≤ c) :
    0 ≤ sizeArg w v ∧ sizeArg w v ≤ sizeofTimes w (roundUpTo c n hn) := by
  have h := (sizeofTimes_exact hwn c hn hfit).2.1
  obtain ⟨h0, h1⟩ := hfit
  obtain ⟨hv0, hv1⟩ := hv
  generalize sizeofTimes w (roundUpTo c n hn) = S at h ⊢
  unfold sizeArg toULong
  rcases hwn with ⟨rfl, -⟩ | ⟨rfl, -⟩ | ⟨rfl, -⟩ | ⟨rfl, -⟩ <;> omega

theorem colorArg_le (c v : Int) (hfit : fitsInt 16 c) (hv : 0 ≤ v ∧ v ≤ c) :
    0 ≤ toULong (toULong (4 * 4) * toULong v) ∧
      toULong (toULong (4 * 4) * toULong v) ≤
        sizeofTimes 4 (roundUpTo (toInt (4 * c)) (CACHELINE_BYTES / 4) (by decide)) := by
  obtain ⟨e, hfit4⟩ := fitsInt_colors hfit
  rw [e]
  have h := (sizeofTimes_exact (Or.inr (Or.inl ⟨rfl, by decide⟩)) (4 * c)
    (show CACHELINE_BYTES / 4 ≠ 0 by decide) hfit4).2.1
  obtain ⟨h0, h1⟩ := hfit
  obtain ⟨hv0, hv1⟩ := hv
  generalize sizeofTimes 4 (roundUpTo (4 * c) (CACHELINE_BYTES / 4) _) = S at h ⊢
  unfold toULong
  omega

theorem fillBytes_le (c v : Int) (hfit : fitsInt 8 c) (hv : 0 ≤ v ∧ v ≤ c) :
    0 ≤ fillBytes v ∧
      fillBytes v ≤ sizeofTimes 8 (roundUpTo c (CACHELINE_BYTES / 8) (by decide)) := by
  have hw : widthUnit 8 (CACHELINE_BYTES / 8) := Or.inl ⟨rfl, by decide⟩
  have hw8 : widthUnit 8 8 := Or.inl ⟨rfl, rfl⟩
  obtain ⟨hv0, hv1⟩ := hv
  have hfitv : fitsInt 8 v := ⟨hv0, by have := hfit.2; omega⟩
  have e1 := (sizeofTimes_exact hw c (by decide) hfit).1
  have e2 := roundUpTo_nonneg_eq hw c (by decide) hfit
  have e3 := roundUpTo_nonneg_eq hw8 v (by decide) hfitv
  unfold fillBytes
  rw [e1, e2, e3]
  have h64 : CACHELINE_BYTES / 8 = 8 := by decide
  rw [h64]
  obtain ⟨h0, h1⟩ := hfit
  omega

/-- The writes when both flags are set; with a flag clear the writes are among
these. -/
theorem copy_writes_mem (c : CopyArgs) (w : Nat × Nat × Int) (hw : w ∈ copy_writes c) :
    w ∈ copy_writes { c with use_LU_res := true, fill_results_buffers := true } := by
  unfold copy_writes at hw ⊢
  simp only [] at hw ⊢
  rcases List.mem_append.mp hw with h | h
  · apply List.mem_append_left
    cases hf : c.fill_results_buffers
    · rw [hf] at h
      simp at h
    · rw [hf] at h
      cases hu : c.use_LU_res
      · rw [hu] at h
        simp only [if_true, Bool.false_eq_true, if_false, List.append_nil] at h ⊢
        simp only [List.cons_append, List.nil_append]
        rcases List.mem_cons.mp h with h | h
        · rw [h]
          exact List.mem_cons_self _ _
        · rw [List.mem_singleton.mp h]
          exact List.mem_cons_of_mem _ (List.mem_cons_self _ _)
      · rw [hu] at h
        exact h
  · exact List.mem_append_right _ h

/-- Claim C36, as amended.  When the counts given to `fpga_setup_host_datamem` are
not negative and every array size fits in an `int`, and every count of the
solve is not negative and not above the count of the setup, every write of
`fpga_copy_host_datamem` to an array (count times element width, `4 * numColors`
ints for a table of color sizes, `roundUpTo(rowSize, 8)` doubles for the fill of
X2, R2, Lres and Ures, the words 0, 8 and 16 of the setup array) covers at most
the rounded byte size of the array; and when every bank total fits in an
`unsigned int`, the write ends at or before the position of the next array,
which is at most the total of the bank. -/
theorem copy_stays_inside (a : DatamemArgs) (c : CopyArgs) (hs : SizesFit a)
    (hc : CountsWithin c a) (w : Nat × Nat × Int) (hw : w ∈ copy_writes c) :
    w.1 < 5 ∧ w.2.1 < bankArrays w.1 ∧ 0 ≤ w.2.2 ∧
      w.2.2 ≤ arrayLen (array_lens a) w.1 w.2.1 ∧
      (BanksFit (array_lens a) →
        dbufposAt (array_lens a) w.1 w.2.1 + w.2.2 ≤
            dbufposAt (array_lens a) w.1 (w.2.1 + 1) ∧
          dbufposAt (array_lens a) w.1 (w.2.1 + 1) ≤
            (totalSize (array_lens a)).getD w.1 0) := by
  have hpos := arrayLen_nonneg a hs
  have fin : ∀ (b k : Nat) (n : Int), b < 5 → k < bankArrays b →
      (0 ≤ n ∧ n ≤ arrayLen (array_lens a) b k) →
      b < 5 ∧ k < bankArrays b ∧ 0 ≤ n ∧ n ≤ arrayLen (array_lens a) b k ∧
        (BanksFit (array_lens a) →
          dbufposAt (array_lens a) b k + n ≤ dbufposAt (array_lens a) b (k + 1) ∧
            dbufposAt (array_lens a) b (k + 1) ≤ (totalSize (array_lens a)).getD b 0) := by
    intro b k n hb hk hn
    refine ⟨hb, hk, hn.1, hn.2, fun hfit => ?_⟩
    obtain ⟨-, p2, p3⟩ := dbufposAt_succ (array_lens a) hpos hfit b k hb hk
    rw [totalSize_getD _ b hb, dbufposAt_total _ hpos hfit b hb]
    exact ⟨by omega, p3⟩
  have h8 : widthUnit 8 (CACHELINE_BYTES / 8) := Or.inl ⟨rfl, by decide⟩
  have h4 : widthUnit 4 (CACHELINE_BYTES / 4) := Or.inr (Or.inl ⟨rfl, by decide⟩)
  have h2 : widthUnit 2 (CACHELINE_BYTES / 2) := Or.inr (Or.inr (Or.inl ⟨rfl, by decide⟩))
  have h1 : widthUnit 1 (CACHELINE_BYTES / 1) := Or.inr (Or.inr (Or.inr ⟨rfl, by decide⟩))
  obtain ⟨s0, s1, s2, s3, s4, s5, s7, s8, s9, s10, s13, s14, s15, s16, n0, n1, n2⟩ := hs
  obtain ⟨hv, m0, m1, m2⟩ := hc
  have v0 := hv 0 (by decide)
  have v1 := hv 1 (by decide)
  have v2 := hv 2 (by decide)
  have v3 := hv 3 (by decide)
  have v4 := hv 4 (by decide)
  have v5 := hv 5 (by decide)
  have v7 := hv 7 (by decide)
  have v8 := hv 8 (by decide)
  have v9 := hv 9 (by decide)
  have v10 := hv 10 (by decide)
  have v13 := hv 13 (by decide)
  have v14 := hv 14 (by decide)
  have v15 := hv 15 (by decide)
  have v16 := hv 16 (by decide)
  have all : ∀ w, w ∈ copy_writes { c with use_LU_res := true, fill_results_buffers := true } →
      w.1 < 5 ∧ w.2.1 < bankArrays w.1 ∧ 0 ≤ w.2.2 ∧
      w.2.2 ≤ arrayLen (array_lens a) w.1 w.2.1 ∧
      (BanksFit (array_lens a) →
        dbufposAt (array_lens a) w.1 w.2.1 + w.2.2 ≤
            dbufposAt (array_lens a) w.1 (w.2.1 + 1) ∧
          dbufposAt (array_lens a) w.1 (w.2.1 + 1) ≤
            (totalSize (array_lens a)).getD w.1 0) := by
    unfold copy_writes
    simp only [if_true, List.cons_append, List.nil_append, List.forall_mem_cons,
      List.not_mem_nil, false_implies, implies_true, and_true]
    refine ⟨?_, ?_, ?_, ?_, ?_, ?_, ?_, ?_, ?_, ?_, ?_, ?_, ?_, ?_, ?_, ?_, ?_, ?_, ?_, ?_, ?_,
      ?_, ?_, ?_, ?_⟩ <;>
      refine fin _ _ _ (by decide) (by decide) ?_ <;>
      simp only [arrayLen, bankLens, array_lens, List.getD_cons_zero, List.getD_cons_succ] <;>
      first
      | with_reducible exact fillBytes_le _ _ s0 v0
      | with_reducible exact colorArg_le _ _ s2 v2
      | with_reducible exact colorArg_le _ _ s8 v8
      | with_reducible exact colorArg_le _ _ s14 v14
      | with_reducible exact sizeArg_le h4 _ _ _ s3 v3
      | with_reducible exact sizeArg_le h4 _ _ _ s9 v9
      | with_reducible exact sizeArg_le h4 _ _ _ s15 v15
      | with_reducible exact sizeArg_le h8 _ _ _ n0 m0
      | with_reducible exact sizeArg_le h8 _ _ _ n1 m1
      | with_reducible exact sizeArg_le h8 _ _ _ n2 m2
      | with_reducible exact sizeArg_le h2 _ _ _ s1 v1
      | with_reducible exact sizeArg_le h2 _ _ _ s7 v7
      | with_reducible exact sizeArg_le h2 _ _ _ s13 v13
      | with_reducible exact sizeArg_le h1 _ _ _ s4 v4
      | with_reducible exact sizeArg_le h1 _ _ _ s10 v10
      | with_reducible exact sizeArg_le h1 _ _ _ s16 v16
      | with_reducible exact sizeArg_le h8 _ _ _ s0 v0
      | with_reducible exact sizeArg_le h8 _ _ _ s5 v5
      | decide
  exact all w (copy_writes_mem c w hw)

/-- Witness for `copy_stays_inside`: the small system solved with the counts of the
setup; the 800 bytes of R1 end before the end of bank 2. -/
theorem copy_stays_inside_witness :
    (2, 1, (800 : Int)) ∈ copy_writes (copyArgsOf exampleArgs) ∧
      (800 : Int) ≤ arrayLen (array_lens exampleArgs) 2 1 ∧
      arrayLen (array_lens exampleArgs) 2 1 = 832 :=
  ⟨by decide,
    (copy_stays_inside exampleArgs (copyArgsOf exampleArgs)
      (by unfold SizesFit fitsInt; decide)
      ⟨fun i _ => ⟨by
          by_cases h : i < 18
          · interval_cases i <;> decide
          · have e : exampleArgs.processedSizes i = 0 := by
              unfold exampleArgs
              simp only []
              exact List.getD_eq_default _ _ (by simp; omega)
            show 0 ≤ exampleArgs.processedSizes i
            rw [e], le_refl _⟩,
        ⟨by decide, le_refl _⟩, ⟨by decide, le_refl _⟩, ⟨by decide, le_refl _⟩⟩
      (2, 1, 800) (by decide)).2.2.2.1,
    by decide⟩

/-- Claim C36, counterexample.  With `rowSize = 2^28` at the setup and at the
solve (the count is not negative and not above the count of the setup),
`fpga_copy_host_datamem` copies `8 * 2^28 = 2^31` bytes to R1, whose byte size
`len_r1_vector` is the `int` `-2^31`. -/
theorem copy_exceeds_wrapped_size :
    (2, 1, (2147483648 : Int)) ∈ copy_writes (copyArgsOf hugeArgs) ∧
      0 ≤ (copyArgsOf hugeArgs).vectorSizes 0 ∧
      (copyArgsOf hugeArgs).vectorSizes 0 ≤ hugeArgs.processedSizes 0 ∧
      arrayLen (array_lens hugeArgs) 2 1 = -2147483648 ∧
      ¬ ((2147483648 : Int) ≤ arrayLen (array_lens hugeArgs) 2 1) := by
  decide

/-! ## The update with the sizes of the setup and the failure of the setup -/

theorem copy_idempotent (vectorSizes : Nat → Int) (s : List Int) :
    fpga_copy_host_datamem vectorSizes (fpga_copy_host_datamem vectorSizes s) =
      fpga_copy_host_datamem vectorSizes s := by
  apply List.ext_getElem?
  intro i
  simp only [fpga_copy_host_datamem, List.getElem?_set, List.length_set]
  split_ifs <;> simp_all

/-- Claim C37.  For every vector `s` of sizes, the words 0, 8 and 16 that
`fpga_copy_host_datamem` writes from `vectorSizes = s` are the words 0, 8 and 16
that a successful `fpga_setup_host_datamem` wrote from `processedSizes = s`, so
the update leaves the whole setup array of 40 words unchanged; and for all
sizes and every setup array, the update applied twice gives the array of the
update applied once. -/
theorem copy_with_setup_sizes_is_identity (a : DatamemArgs) (ok : Nat → Bool) (h : HostData)
    (hret : (fpga_setup_host_datamem a ok h).1 = 0) :
    fpga_copy_host_datamem a.processedSizes (fpga_setup_host_datamem a ok h).2.setupArray =
        (fpga_setup_host_datamem a ok h).2.setupArray ∧
      (fpga_setup_host_datamem a ok h).2.setupArray.length = 40 ∧
      (∀ i, i = 0 ∨ i = 8 ∨ i = 16 →
        (fpga_copy_host_datamem a.processedSizes
            (fpga_setup_host_datamem a ok h).2.setupArray)[i]? =
          (fpga_setup_host_datamem a ok h).2.setupArray[i]?) ∧
      (fpga_setup_host_datamem a ok h).2.setupArray[0]? =
        some (sizePair (a.processedSizes 1) (a.processedSizes 0)) ∧
      (fpga_setup_host_datamem a ok h).2.setupArray[8]? =
        some (sizePair (a.processedSizes 7) (a.processedSizes 6)) ∧
      (fpga_setup_host_datamem a ok h).2.setupArray[16]? =
        some (sizePair (a.processedSizes 13) (a.processedSizes 12)) ∧
      ∀ (vectorSizes : Nat → Int) (s : List Int),
        fpga_copy_host_datamem vectorSizes (fpga_copy_host_datamem vectorSizes s) =
          fpga_copy_host_datamem vectorSizes s := by
  have e : (fpga_setup_host_datamem a ok h).2.setupArray =
      setupArray_fill a (array_lens a) := by rw [(setup_success a ok h hret).2]
  have key : fpga_copy_host_datamem a.processedSizes (setupArray_fill a (array_lens a)) =
      setupArray_fill a (array_lens a) := by
    rw [setupArray_fill_eq]
    simp only [fpga_copy_host_datamem, List.cons_append, List.set_cons_zero,
      List.set_cons_succ]
  rw [e, key]
  refine ⟨rfl, ?_, fun _ _ => rfl, ?_, ?_, ?_, copy_idempotent⟩
  · rw [setupArray_fill_eq]
    rfl
  · rw [setupArray_fill_eq]
    rfl
  · rw [setupArray_fill_eq]
    rfl
  · rw [setupArray_fill_eq]
    rfl

/-- Witness for `copy_with_setup_sizes_is_identity`: the setup array of the small
system, whose word 0 holds 700 values and 100 rows. -/
theorem copy_with_setup_sizes_is_identity_witness :
    fpga_copy_host_datamem exampleArgs.processedSizes
        (fpga_setup_host_datamem exampleArgs (fun _ => true) emptyHost).2.setupArray =
      (fpga_setup_host_datamem exampleArgs (fun _ => true) emptyHost).2.setupArray ∧
    (fpga_setup_host_datamem exampleArgs (fun _ => true) emptyHost).2.setupArray[0]? =
      some (700 * 4294967296 + 100) :=
  ⟨(copy_with_setup_sizes_is_identity exampleArgs (fun _ => true) emptyHost (by decide)).1,
    by decide⟩

/-- Claim C39.  When every allocation succeeds, `fpga_setup_host_datamem` fails if
and only if `dbgbuffer_bytes` is not a multiple of `CACHELINE_BYTES = 64`; it
then returns 1 and the bank totals, `result_offsets` and the setup array hold
what they held on entry. -/
theorem setup_fails_iff_misaligned (a : DatamemArgs) (ok : Nat → Bool) (h : HostData)
    (hok : ∀ b, ok b = true) :
    CACHELINE_BYTES = 64 ∧
      ((fpga_setup_host_datamem a ok h).1 ≠ 0 ↔ a.dbgbuffer_bytes % 64 ≠ 0) ∧
      ((fpga_setup_host_datamem a ok h).1 ≠ 0 →
        (fpga_setup_host_datamem a ok h).1 = 1 ∧
        (fpga_setup_host_datamem a ok h).2.totalSize = h.totalSize ∧
        (fpga_setup_host_datamem a ok h).2.result_offsets = h.result_offsets ∧
        (fpga_setup_host_datamem a ok h).2.setupArray = h.setupArray) := by
  have hall : (List.range RW_BUF).all ok = true := List.all_eq_true.mpr (fun b _ => hok b)
  have hlen : (array_lens a).len_dbg_buffer = toInt a.dbgbuffer_bytes := rfl
  have hiff : (array_lens a).len_dbg_buffer.tmod CACHELINE_BYTES = 0 ↔
      a.dbgbuffer_bytes % 64 = 0 := by
    rw [hlen]
    have h64 : CACHELINE_BYTES = 64 := rfl
    rw [h64]
    constructor
    · intro ht
      have := Int.dvd_of_tmod_eq_zero ht
      unfold toInt at this
      omega
    · intro hm
      apply Int.tmod_eq_zero_of_dvd
      unfold toInt
      omega
  refine ⟨rfl, ?_, ?_⟩
  · unfold fpga_setup_host_datamem
    simp only []
    by_cases ht : (array_lens a).len_dbg_buffer.tmod CACHELINE_BYTES = 0
    · rw [if_neg (not_not.mpr ht), if_pos hall]
      exact ⟨fun hc => absurd rfl hc, fun hc => absurd (hiff.mp ht) hc⟩
    · rw [if_pos ht]
      exact ⟨fun _ hc => ht (hiff.mpr hc), fun _ => by simp⟩
  · unfold fpga_setup_host_datamem
    simp only []
    by_cases ht : (array_lens a).len_dbg_buffer.tmod CACHELINE_BYTES = 0
    · rw [if_neg (not_not.mpr ht), if_pos hall]
      intro hc
      exact absurd rfl hc
    · rw [if_pos ht]
      intro _
      exact ⟨rfl, rfl, rfl, rfl⟩

/-- Witness for `setup_fails_iff_misaligned`: the small system with a debug buffer
of 100 bytes. -/
theorem setup_fails_iff_misaligned_witness :
    (fpga_setup_host_datamem { exampleArgs with dbgbuffer_bytes := 100 } (fun _ => true)
        emptyHost).1 ≠ 0 ∧
      ((fpga_setup_host_datamem { exampleArgs with dbgbuffer_bytes := 100 } (fun _ => true)
          emptyHost).1 ≠ 0 ↔ (100 : Int) % 64 ≠ 0) ∧
      (fpga_setup_host_datamem { exampleArgs with dbgbuffer_bytes := 100 } (fun _ => true)
        emptyHost).2.result_offsets = [0, 0, 0, 0, 0, 0] :=
  ⟨by decide,
    (setup_fails_iff_misaligned { exampleArgs with dbgbuffer_bytes := 100 } (fun _ => true)
      emptyHost (fun _ => rfl)).2.1,
    ((setup_fails_iff_misaligned { exampleArgs with dbgbuffer_bytes := 100 } (fun _ => true)
      emptyHost (fun _ => rfl)).2.2 (by decide)).2.2.1⟩

end OpmFpga
